import Mathlib

/-! Blocking RSocket-RPC Java generator: identifier derivation, interaction buckets,
the dispatch code of the server stub, the signatures of the interface and of the
client stub, and the doc comments.

A shallow embedding of `blocking_java_generator.cpp` (plugin of
`rsocket-rpc-protobuf`).  A `std::string` is a Lean `String`, read through its
list of characters; the `<cctype>` functions are the ones of the "C" locale, which
change and classify the ASCII letters only.  A `std::vector` is a `List`, and a
C++ loop over indices is a recursion on the index with the trip count as fuel; a
`while` loop returns `none` when its fuel ends.
-/

namespace BlockingJavaGenerator

/-! ## Characters and `size_t` -/

/-- The `toupper` of `<cctype>` in the "C" locale: `a`..`z` go to `A`..`Z`. -/
def toupper (c : Char) : Char := c.toUpper

/-- The `tolower` of `<cctype>` in the "C" locale: `A`..`Z` go to `a`..`z`. -/
def tolower (c : Char) : Char := c.toLower

/-- The `islower` of `<cctype>` in the "C" locale: true on `a`..`z`. -/
def islower (c : Char) : Bool := c.isLower

/-- The `isupper` of `<cctype>` in the "C" locale: true on `A`..`Z`. -/
def isupper (c : Char) : Bool := c.isUpper

/-- The expression `word[i]` on a `const std::string`: the character at `i`, and
the terminating NUL at `i == word.length()`. -/
def charAt (word : List Char) (i : Nat) : Char := word.getD i '\x00'

/-- Subtraction of two `size_t` values: it wraps around `2^64` when `b > a`. -/
def sizeSub (a b : Nat) : Nat := if b ≤ a then a - b else a + 2 ^ 64 - b

/-! ## Identifier derivation (source lines 38-81) -/

/-- The `for` loop of `MixedLower`, at index `i` with the local variables
`after_underscore` and `w`; `fuel` bounds the number of iterations left. -/
def MixedLower.loop (word : List Char) : Nat → Nat → Bool → List Char → List Char
  | 0, _, _, w => w
  | fuel + 1, i, after_underscore, w =>
    if i < word.length then
      if charAt word i = '_' then
        MixedLower.loop word fuel (i + 1) true w
      else
        MixedLower.loop word fuel (i + 1) false
          (w ++ [if after_underscore then toupper (charAt word i) else charAt word i])
    else w

/-- The function `MixedLower` (source lines 41-54): decapitalize the first letter,
remove embedded underscores and capitalize the letter that follows one.  On the
empty word `word[0]` is the terminating NUL, which is appended as it is. -/
def MixedLower (word : String) : String :=
  ⟨MixedLower.loop word.data word.data.length 1 false [tolower (charAt word.data 0)]⟩

/-- The `for` loop of `ToAllUpperCase`, at index `i` with the local `w`.  The
bound `word.length() - 1` is a `size_t` subtraction; it is evaluated only inside
the loop, where the word is not empty. -/
def ToAllUpperCase.loop (word : List Char) : Nat → Nat → List Char → List Char
  | 0, _, w => w
  | fuel + 1, i, w =>
    if i < word.length then
      let w1 := w ++ [toupper (charAt word i)]
      if decide (i < sizeSub word.length 1) && islower (charAt word i)
          && isupper (charAt word (i + 1)) then
        ToAllUpperCase.loop word fuel (i + 1) (w1 ++ ['_'])
      else
        ToAllUpperCase.loop word fuel (i + 1) w1
    else w

/-- The function `ToAllUpperCase` (source lines 60-69): all letters in upper case,
and an underscore where a lower case letter is followed by an upper case letter. -/
def ToAllUpperCase (word : String) : String :=
  ⟨ToAllUpperCase.loop word.data word.data.length 0 []⟩

/-- A `MethodDescriptor` as the generator reads it: `name()`, the Java class
names that `MessageFullJavaName` gives for `input_type()` and `output_type()`,
the two streaming flags, and `fire_and_forget()` of the RSocket method options. -/
structure MethodDescriptor where
  name : String
  input_type : String
  output_type : String
  client_streaming : Bool
  server_streaming : Bool
  fire_and_forget : Bool
deriving DecidableEq, Repr

/-- The function `LowerMethodName` (source lines 71-73). -/
def LowerMethodName (method : MethodDescriptor) : String := MixedLower method.name

/-- The function `MethodFieldName` (source lines 75-77). -/
def MethodFieldName (method : MethodDescriptor) : String :=
  "METHOD_" ++ ToAllUpperCase method.name

/-- The function `RouteFieldName` (source lines 79-81). -/
def RouteFieldName (method : MethodDescriptor) : String :=
  "ROUTE_" ++ ToAllUpperCase method.name

/-! ## The four buckets of `PrintServer` (source lines 754-776) -/

/-- The four local vectors of `PrintServer`. -/
structure Buckets where
  fire_and_forget : List MethodDescriptor
  request_response : List MethodDescriptor
  request_stream : List MethodDescriptor
  request_channel : List MethodDescriptor
deriving DecidableEq, Repr

/-- The four vectors as declared, all empty. -/
def Buckets.empty : Buckets := ⟨[], [], [], []⟩

/-- The body of the bucket loop for one method: the `if` cascade with its
`push_back`. -/
def Buckets.step (b : Buckets) (method : MethodDescriptor) : Buckets :=
  if method.client_streaming then
    { b with request_channel := b.request_channel ++ [method] }
  else if method.server_streaming then
    { b with request_stream := b.request_stream ++ [method] }
  else
    if method.fire_and_forget then
      { b with fire_and_forget := b.fire_and_forget ++ [method] }
    else
      { b with request_response := b.request_response ++ [method] }

/-- The bucket loop over `service->method(0 .. method_count() - 1)`. -/
def buildBuckets (methods : List MethodDescriptor) : Buckets :=
  methods.foldl Buckets.step Buckets.empty

/-- The interaction semantics of the specification. -/
inductive InteractionSemantic where
  | OneWay
  | UnarySingleResponse
  | ServerStream
  | ClientOrBidiStream
deriving DecidableEq, Repr

/-- The classification table of the specification, row by row, over
`(clientStreaming, serverStreaming, oneWay)`. -/
def classifyTable : Bool → Bool → Bool → InteractionSemantic
  | false, false, true => .OneWay
  | false, false, false => .UnarySingleResponse
  | false, true, _ => .ServerStream
  | true, _, _ => .ClientOrBidiStream

/-- The table applied to the three attributes of a method. -/
def classify (method : MethodDescriptor) : InteractionSemantic :=
  classifyTable method.client_streaming method.server_streaming method.fire_and_forget

/-- The vector that holds the methods of a semantic: `fire_and_forget` for
OneWay, `request_response` for UnarySingleResponse, `request_stream` for
ServerStream, `request_channel` for ClientOrBidiStream. -/
def Buckets.get (b : Buckets) : InteractionSemantic → List MethodDescriptor
  | .OneWay => b.fire_and_forget
  | .UnarySingleResponse => b.request_response
  | .ServerStream => b.request_stream
  | .ClientOrBidiStream => b.request_channel

/-- Appending a method to the vector of a semantic. -/
def Buckets.push (b : Buckets) : InteractionSemantic → MethodDescriptor → Buckets
  | .OneWay, m => { b with fire_and_forget := b.fire_and_forget ++ [m] }
  | .UnarySingleResponse, m => { b with request_response := b.request_response ++ [m] }
  | .ServerStream, m => { b with request_stream := b.request_stream ++ [m] }
  | .ClientOrBidiStream, m => { b with request_channel := b.request_channel ++ [m] }

/-- A method with the given three attributes (names and types fixed). -/
def methodWith (cs ss ow : Bool) : MethodDescriptor :=
  ⟨"Call", "Req", "Resp", cs, ss, ow⟩

/-- Three server-streaming methods A, B, C. -/
def methodA : MethodDescriptor := ⟨"A", "Req", "Resp", false, true, false⟩

/-- The second of the three. -/
def methodB : MethodDescriptor := ⟨"B", "Req", "Resp", false, true, true⟩

/-- The third of the three. -/
def methodC : MethodDescriptor := ⟨"C", "Req", "Resp", false, true, false⟩

/-- What the loop of `MixedLower` appends for the rest of the word, given the flag
`after_underscore` on entry. -/
def mixedTail : List Char → Bool → List Char
  | [], _ => []
  | c :: cs, after_underscore =>
    if c = '_' then mixedTail cs true
    else (if after_underscore then toupper c else c) :: mixedTail cs false

/-- What the loop of `ToAllUpperCase` appends for the rest of the word. -/
def upperTail : List Char → List Char
  | [] => []
  | [c] => [toupper c]
  | c :: d :: rest =>
    if islower c && isupper d then toupper c :: '_' :: upperTail (d :: rest)
    else toupper c :: upperTail (d :: rest)

/-! ## The printer and the variable map

`io::Printer` belongs to protobuf; only what the generator relies on is kept: a
call of `Print` writes its text with every `$name$` replaced by the value of the
variable, `$$` being a literal dollar, and `Indent` / `Outdent` move the margin. -/

/-- The `std::map<string, string>* vars`, the latest assignment to a key first. -/
abbrev Vars := List (String × String)

/-- The assignment `(*vars)[key] = value`. -/
def Vars.set (vars : Vars) (key value : String) : Vars := (key, value) :: vars

/-- The value of a variable; one that was never assigned prints as nothing. -/
def Vars.get (vars : Vars) (key : String) : String := (List.lookup key vars).getD ""

/-- Substitution of the variables in a text.  The second argument is the name of
the variable being read, when the scan is between two `$`. -/
def Printer.expand (vars : Vars) : List Char → Option (List Char) → List Char
  | [], _ => []
  | c :: rest, none =>
    if c = '$' then Printer.expand vars rest (some [])
    else c :: Printer.expand vars rest none
  | c :: rest, some name =>
    if c = '$' then
      (if name = [] then ['$'] else (Vars.get vars ⟨name⟩).data)
        ++ Printer.expand vars rest none
    else Printer.expand vars rest (some (name ++ [c]))

/-- What one call on the printer leaves in the output. -/
inductive Emitted where
  | text (s : String)
  | indent
  | outdent
deriving DecidableEq, Repr

/-- The call `p->Print(*vars, text)`. -/
def Print (vars : Vars) (text : String) : Emitted :=
  .text ⟨Printer.expand vars text.data none⟩

/-- The call `p->Print(text)`, without variables. -/
def PrintText (text : String) : Emitted := Print [] text

/-- A loop over a vector of methods whose body assigns variables and prints. -/
def forEachMethod (body : MethodDescriptor → Vars → Vars × List Emitted) :
    List MethodDescriptor → Vars → Vars × List Emitted
  | [], vars => (vars, [])
  | method :: rest, vars =>
    let r := body method vars
    let r' := forEachMethod body rest r.1
    (r'.1, r.2 ++ r'.2)

/-- A `ServiceDescriptor` as the generator reads it: `name()`, the `package()` and
`name()` of its file, and its methods in declaration order. -/
structure ServiceDescriptor where
  name : String
  package : String
  file_name : String
  methods : List MethodDescriptor
deriving DecidableEq, Repr

/-- The function `ServiceFieldName` (source line 87). -/
def ServiceFieldName (_service : ServiceDescriptor) : String := "SERVICE_ID"

/-- The function `NamespaceIdFieldName` (source line 89). -/
def NamespaceIdFieldName (_service : ServiceDescriptor) : String := "NAMESPACE_ID"

/-- The function `ServerClassName` (source lines 1566-1568). -/
def ServerClassName (service : ServiceDescriptor) : String := service.name ++ "Server"

/-- The `Package` variable as the three `Generate...` functions set it: the proto
package, with a dot appended unless it is empty. -/
def packageVar (service : ServiceDescriptor) : String :=
  if service.package = "" then service.package else service.package ++ "."

/-- The variables that `GenerateInterface` hands to `PrintInterface` (source lines
1397-1414). -/
def GenerateInterface.vars (service : ServiceDescriptor) : Vars :=
  let vars : Vars := []
  let vars := vars.set "Generated" "javax.annotation.Generated"
  let vars := vars.set "ByteBuf" "io.netty.buffer.ByteBuf"
  let vars := vars.set "Iterable" "Iterable"
  vars.set "Package" (packageVar service)

/-! ## `PrintInterface`: the constants (source lines 287-316) -/

/-- The body of the first loop of `PrintInterface`: the `METHOD_` and the `ROUTE_`
constant of one method. -/
def PrintInterface.constantsBody (method : MethodDescriptor) (vars : Vars) :
    Vars × List Emitted :=
  let vars := vars.set "method_field_name" (MethodFieldName method)
  let vars := vars.set "route_field_name" (RouteFieldName method)
  let vars := vars.set "method_name" method.name
  (vars,
    [Print vars "String $method_field_name$ = \"$method_name$\";\n",
     Print vars
      "String $route_field_name$ = $service_field_name$ + \".\" + $method_field_name$;\n"])

/-- The constants of the generated interface: the assignments at the head of
`PrintInterface`, the service id and the first loop over the methods.  The doc
comment and the `@Generated` header printed in between are left out. -/
def PrintInterface.constants (service : ServiceDescriptor) (vars : Vars) :
    Vars × List Emitted :=
  let vars := vars.set "service_name" service.name
  let vars := vars.set "service_field_name" (ServiceFieldName service)
  let vars := vars.set "file_name" service.file_name
  let r := forEachMethod PrintInterface.constantsBody service.methods vars
  (r.1,
    Print vars "String $service_field_name$ = \"$Package$$service_name$\";\n" :: r.2)

/-! ## `PrintServer`: entry points, dispatch switches, registration -/

/-- The assignments at the head of `PrintServer` (source lines 607-611). -/
def PrintServer.initVars (service : ServiceDescriptor) (vars : Vars) : Vars :=
  let vars := vars.set "service_name" service.name
  let vars := vars.set "namespace_id_name" (NamespaceIdFieldName service)
  let vars := vars.set "service_id_name" (ServiceFieldName service)
  let vars := vars.set "file_name" service.file_name
  vars.set "server_class_name" (ServerClassName service)

/-- The body of a loop that prints the `case` of one method in a dispatch switch
(source lines 838-852, 950-964, 1062-1076, 1138-1152).  The four loops differ in
the text of the `return` statement only, here `returnLine`. -/
def PrintServer.caseBody (returnLine : String) (method : MethodDescriptor) (vars : Vars) :
    Vars × List Emitted :=
  let vars := vars.set "input_type" method.input_type
  let vars := vars.set "method_name" method.name
  let vars := vars.set "route_field_name" (RouteFieldName method)
  (vars,
    [Print vars "case $service_name$.$route_field_name$: \x7b\n",
     .indent,
     Print vars returnLine,
     .outdent,
     PrintText "\x7d\n"])

/-- The public `fireAndForget` entry point (source lines 778-815). -/
def PrintServer.fireAndForget (fire_and_forget : List MethodDescriptor) (vars : Vars) :
    List Emitted :=
  [Print vars "@$Override$\npublic $Mono$<$Void$> fireAndForget($Payload$ payload) \x7b\n",
   .indent]
  ++ (if fire_and_forget.isEmpty then
      [Print vars "return $Mono$.error(new UnsupportedOperationException(\"Fire And Forget is not implemented.\"));\n"]
    else
      [Print vars "try \x7b\n",
       .indent,
       Print vars "$Mono$<$Void$> response = metadataDecoder.decode(payload, this::doDecodeAndHandleFireAndForget);\n\npayload.release();\n\nreturn response;\n",
       .outdent,
       Print vars "\x7d catch (Throwable t) \x7b\n",
       .indent,
       Print vars "payload.release();\nreturn $Mono$.error(t);\n",
       .outdent,
       Print vars "\x7d\n"])
  ++ [.outdent, Print vars "\x7d\n\n"]

/-- The delegate `doDecodeAndHandleFireAndForget` with its switch over the route
(source lines 818-865). -/
def PrintServer.doDecodeAndHandleFireAndForget (fire_and_forget : List MethodDescriptor)
    (vars : Vars) : Vars × List Emitted :=
  let r := forEachMethod
    (PrintServer.caseBody
      "return this.do$method_name$FireAndForget(data, metadata, spanContext);\n")
    fire_and_forget vars
  (r.1,
    [Print vars "$Mono$<Void> doDecodeAndHandleFireAndForget(\n",
     .indent,
     Print vars "$ByteBuf$ data,\n$ByteBuf$ metadata,\n$String$ route,\n$SpanContext$ spanContext\n",
     .outdent,
     Print vars ") throws $Exception$ \x7b\n",
     .indent,
     Print vars "switch(route) \x7b\n",
     .indent]
    ++ r.2
    ++ [Print r.1 "default: \x7b\n",
        .indent,
        Print r.1 "return $Mono$.error(new UnsupportedOperationException());\n",
        .outdent,
        PrintText "\x7d\n",
        .outdent,
        PrintText "\x7d\n",
        .outdent,
        PrintText "\x7d\n\n"])

/-- The public `requestResponse` entry point (source lines 891-928). -/
def PrintServer.requestResponse (request_response : List MethodDescriptor) (vars : Vars) :
    List Emitted :=
  [Print vars "@$Override$\npublic $Mono$<$Payload$> requestResponse($Payload$ payload) \x7b\n",
   .indent]
  ++ (if request_response.isEmpty then
      [Print vars "return $Mono$.error(new UnsupportedOperationException(\"Request Response is not implemented.\"));\n"]
    else
      [Print vars "try \x7b\n",
       .indent,
       Print vars "$Mono$<$Payload$> response = metadataDecoder.decode(payload, this::doDecodeAndHandleRequestResponse);\n\npayload.release();\n\nreturn response;\n",
       .outdent,
       Print vars "\x7d catch (Throwable t) \x7b\n",
       .indent,
       Print vars "payload.release();\nreturn $Mono$.error(t);\n",
       .outdent,
       Print vars "\x7d\n"])
  ++ [.outdent, Print vars "\x7d\n\n"]

/-- The delegate `doDecodeAndHandleRequestResponse` with its switch over the route
(source lines 930-977). -/
def PrintServer.doDecodeAndHandleRequestResponse (request_response : List MethodDescriptor)
    (vars : Vars) : Vars × List Emitted :=
  let r := forEachMethod
    (PrintServer.caseBody
      "return this.do$method_name$RequestResponse(data, metadata, spanContext);\n")
    request_response vars
  (r.1,
    [Print vars "$Mono$<$Payload$> doDecodeAndHandleRequestResponse(\n",
     .indent,
     Print vars "$ByteBuf$ data,\n$ByteBuf$ metadata,\n$String$ route,\n$SpanContext$ spanContext\n",
     .outdent,
     Print vars ") throws $Exception$ \x7b\n",
     .indent,
     Print vars "switch(route) \x7b\n",
     .indent]
    ++ r.2
    ++ [Print r.1 "default: \x7b\n",
        .indent,
        Print r.1 "return $Mono$.error(new UnsupportedOperationException());\n",
        .outdent,
        PrintText "\x7d\n",
        .outdent,
        PrintText "\x7d\n",
        .outdent,
        PrintText "\x7d\n\n"])

/-- The public `requestStream` entry point (source lines 1003-1040). -/
def PrintServer.requestStream (request_stream : List MethodDescriptor) (vars : Vars) :
    List Emitted :=
  [Print vars "@$Override$\npublic $Flux$<$Payload$> requestStream($Payload$ payload) \x7b\n",
   .indent]
  ++ (if request_stream.isEmpty then
      [Print vars "return $Flux$.error(new UnsupportedOperationException(\"Request Stream is not implemented.\"));\n"]
    else
      [Print vars "try \x7b\n",
       .indent,
       Print vars "$Flux$<$Payload$> response = metadataDecoder.decode(payload, this::doDecodeAndHandleRequestStream);\n\npayload.release();\n\nreturn response;\n",
       .outdent,
       Print vars "\x7d catch (Throwable t) \x7b\n",
       .indent,
       Print vars "payload.release();\nreturn $Flux$.error(t);\n",
       .outdent,
       Print vars "\x7d\n"])
  ++ [.outdent, Print vars "\x7d\n\n"]

/-- The delegate `doDecodeAndHandleRequestStream` with its switch over the route
(source lines 1042-1089). -/
def PrintServer.doDecodeAndHandleRequestStream (request_stream : List MethodDescriptor)
    (vars : Vars) : Vars × List Emitted :=
  let r := forEachMethod
    (PrintServer.caseBody
      "return this.do$method_name$RequestStream(data, metadata, spanContext);\n")
    request_stream vars
  (r.1,
    [Print vars "$Flux$<$Payload$> doDecodeAndHandleRequestStream(\n",
     .indent,
     Print vars "$ByteBuf$ data,\n$ByteBuf$ metadata,\n$String$ route,\n$SpanContext$ spanContext\n",
     .outdent,
     Print vars ") throws $Exception$ \x7b\n",
     .indent,
     Print vars "switch(route) \x7b\n",
     .indent]
    ++ r.2
    ++ [Print r.1 "default: \x7b\n",
        .indent,
        Print r.1 "return $Flux$.error(new UnsupportedOperationException());\n",
        .outdent,
        PrintText "\x7d\n",
        .outdent,
        PrintText "\x7d\n",
        .outdent,
        PrintText "\x7d\n\n"])

/-- The public `requestChannel(payload, payloads)` entry point, which holds the
switch of the channel methods itself (source lines 1114-1185). -/
def PrintServer.requestChannel (request_channel : List MethodDescriptor) (vars : Vars) :
    Vars × List Emitted :=
  let head :=
    [Print vars "@$Override$\npublic $Flux$<$Payload$> requestChannel($Payload$ payload, $Publisher$<$Payload$> payloads) \x7b\n",
     .indent]
  if request_channel.isEmpty then
    (vars,
      head
      ++ [Print vars "return $Flux$.error(new UnsupportedOperationException(\"Request Channel is not implemented.\"));\n"]
      ++ [.outdent, Print vars "\x7d\n\n"])
  else
    let r := forEachMethod
      (PrintServer.caseBody
        "return this.do$method_name$RequestChannel($Flux$.from(payloads), data, metadata, spanContext);\n")
      request_channel vars
    (r.1,
      head
      ++ [Print vars "try \x7b\n",
          .indent,
          Print vars "$Flux$<$Payload$> response = metadataDecoder.decode(payload, ($ByteBuf$ data, $ByteBuf$ metadata, $String$ route, $SpanContext$ spanContext) -> \x7b\n",
          .indent,
          Print vars "switch(route) \x7b\n",
          .indent]
      ++ r.2
      ++ [Print r.1 "default: \x7b\n",
          .indent,
          Print r.1 "payload.release();\nreturn $Flux$.error(new UnsupportedOperationException());\n",
          .outdent,
          PrintText "\x7d\n",
          .outdent,
          PrintText "\x7d\n",
          .outdent,
          PrintText "\x7d);\n\n",
          PrintText "return response;\n",
          .outdent,
          Print r.1 "\x7d catch (Throwable t) \x7b\n",
          .indent,
          Print r.1 "payload.release();\nreturn $Flux$.error(t);\n",
          .outdent,
          Print r.1 "\x7d\n"]
      ++ [.outdent, Print r.1 "\x7d\n\n"])

/-- The public `requestChannel(payloads)` entry point (source lines 1187-1227). -/
def PrintServer.requestChannelPayloads (request_channel : List MethodDescriptor)
    (vars : Vars) : List Emitted :=
  [Print vars "@$Override$\npublic $Flux$<$Payload$> requestChannel($Publisher$<$Payload$> payloads) \x7b\n",
   .indent]
  ++ (if request_channel.isEmpty then
      [Print vars "return $Flux$.error(new UnsupportedOperationException(\"Request-Channel not implemented.\"));\n"]
    else
      [Print vars "return $Flux$.from(payloads).switchOnFirst(new $BiFunction$<$Signal$<? extends $Payload$>, $Flux$<$Payload$>, $Publisher$<? extends $Payload$>>() \x7b\n",
       .indent,
       Print vars "@$Override$\npublic $Publisher$<$Payload$> apply($Signal$<? extends $Payload$> payloadSignal, $Flux$<$Payload$> publisher) \x7b\n",
       .indent,
       Print vars "if (payloadSignal.hasValue()) \x7b\n",
       .indent,
       Print vars "return requestChannel(payloadSignal.get(), publisher);\n",
       .outdent,
       Print vars "\x7d else \x7b\n",
       .indent,
       PrintText "return publisher;\n",
       .outdent,
       PrintText "\x7d\n",
       .outdent,
       PrintText "\x7d\n",
       .outdent,
       PrintText "\x7d);\n"])
  ++ [.outdent, PrintText "\x7d\n\n"]

/-- The body of a loop of `selfRegister`: the `put` of one method (source lines
1271-1302).  The four loops differ in the text of the statement only. -/
def PrintServer.registerBody (putLine : String) (method : MethodDescriptor) (vars : Vars) :
    Vars × List Emitted :=
  let vars := vars.set "method_name" method.name
  let vars := vars.set "route_field_name" (RouteFieldName method)
  (vars, [Print vars putLine])

/-- The method `selfRegister`: one loop per bucket, in the order fire-and-forget,
request-response, request-stream, request-channel (source lines 1264-1305). -/
def PrintServer.selfRegister (b : Buckets) (vars : Vars) : Vars × List Emitted :=
  let r1 := forEachMethod
    (PrintServer.registerBody
      "fireAndForgetRegistry.put($service_name$.$route_field_name$, this::do$method_name$FireAndForget);\n")
    b.fire_and_forget vars
  let r2 := forEachMethod
    (PrintServer.registerBody
      "requestResponseRegistry.put($service_name$.$route_field_name$, this::do$method_name$RequestResponse);\n")
    b.request_response r1.1
  let r3 := forEachMethod
    (PrintServer.registerBody
      "requestStreamRegistry.put($service_name$.$route_field_name$, this::do$method_name$RequestStream);\n")
    b.request_stream r2.1
  let r4 := forEachMethod
    (PrintServer.registerBody
      "requestChannelRegistry.put($service_name$.$route_field_name$, this::do$method_name$RequestChannel);\n")
    b.request_channel r3.1
  (r4.1,
    [Print vars "@$Override$\npublic void selfRegister($Map$<$String$, $IPCFunction$<$Mono$<$Void$>>> fireAndForgetRegistry, $Map$<$String$, $IPCFunction$<$Mono$<$Payload$>>> requestResponseRegistry, $Map$<$String$, $IPCFunction$<$Flux$<$Payload$>>> requestStreamRegistry, $Map$<$String$, $IPCChannelFunction$> requestChannelRegistry) \x7b\n",
     .indent]
    ++ r1.2 ++ r2.2 ++ r3.2 ++ r4.2
    ++ [.outdent, PrintText "\x7d\n", PrintText "\n"])

/-- The body of the loop that prints the handler of one fire-and-forget method
(source lines 868-889). -/
def PrintServer.fireAndForgetHandler (method : MethodDescriptor) (vars : Vars) :
    Vars × List Emitted :=
  let vars := vars.set "input_type" method.input_type
  let vars := vars.set "output_type" method.output_type
  let vars := vars.set "method_name" method.name
  let vars := vars.set "lower_method_name" (LowerMethodName method)
  (vars,
    [Print vars "private $Mono$<$Void$> do$method_name$FireAndForget($ByteBuf$ data, $ByteBuf$ metadata, $SpanContext$ spanContext) throws $Exception$ \x7b\n",
     .indent,
     Print vars "$CodedInputStream$ is = $CodedInputStream$.newInstance(data.nioBuffer());\n$input_type$ message = $input_type$.parseFrom(is);\nreturn $Mono$.<Void>fromRunnable(() -> service.$lower_method_name$(message, metadata)).subscribeOn(scheduler);\n",
     .outdent,
     PrintText "\x7d\n",
     PrintText "\n"])

/-- The body of the loop that prints the handler of one request-response method
(source lines 979-1000). -/
def PrintServer.requestResponseHandler (method : MethodDescriptor) (vars : Vars) :
    Vars × List Emitted :=
  let vars := vars.set "input_type" method.input_type
  let vars := vars.set "output_type" method.output_type
  let vars := vars.set "method_name" method.name
  let vars := vars.set "lower_method_name" (LowerMethodName method)
  (vars,
    [Print vars "private $Mono$<$Payload$> do$method_name$RequestResponse($ByteBuf$ data, $ByteBuf$ metadata, $SpanContext$ spanContext) throws $Exception$ \x7b\n",
     .indent,
     Print vars "$CodedInputStream$ is = $CodedInputStream$.newInstance(data.nioBuffer());\n$input_type$ message = $input_type$.parseFrom(is);\nreturn $Mono$.fromSupplier(() -> service.$lower_method_name$(message, metadata)).map(serializer).transform($lower_method_name$).subscribeOn(scheduler);\n",
     .outdent,
     PrintText "\x7d\n",
     PrintText "\n"])

/-- The body of the loop that prints the handler of one request-stream method
(source lines 1091-1112). -/
def PrintServer.requestStreamHandler (method : MethodDescriptor) (vars : Vars) :
    Vars × List Emitted :=
  let vars := vars.set "input_type" method.input_type
  let vars := vars.set "output_type" method.output_type
  let vars := vars.set "method_name" method.name
  let vars := vars.set "lower_method_name" (LowerMethodName method)
  (vars,
    [Print vars "private $Flux$<$Payload$> do$method_name$RequestStream($ByteBuf$ data, $ByteBuf$ metadata, $SpanContext$ spanContext) throws $Exception$ \x7b\n",
     .indent,
     Print vars "$CodedInputStream$ is = $CodedInputStream$.newInstance(data.nioBuffer());\n$input_type$ message = $input_type$.parseFrom(is);\nreturn $Flux$.defer(() -> $Flux$.fromIterable(service.$lower_method_name$(message, metadata)).map(serializer).transform($lower_method_name$)).subscribeOn(scheduler);\n",
     .outdent,
     PrintText "\x7d\n",
     PrintText "\n"])

/-- The body of the loop that prints the handler of one request-channel method
(source lines 1229-1262). -/
def PrintServer.requestChannelHandler (method : MethodDescriptor) (vars : Vars) :
    Vars × List Emitted :=
  let vars := vars.set "input_type" method.input_type
  let vars := vars.set "output_type" method.output_type
  let vars := vars.set "method_name" method.name
  let vars := vars.set "lower_method_name" (LowerMethodName method)
  (vars,
    [Print vars "private $Flux$<$Payload$> do$method_name$RequestChannel($Flux$<$Payload$> publisher, $ByteBuf$ data, $ByteBuf$ metadata, $SpanContext$ spanContext) throws $Exception$ \x7b\n",
     .indent,
     Print vars "$Flux$<$input_type$> messages =\n",
     .indent,
     Print vars "publisher.map(deserializer($input_type$.parser()));\n",
     .outdent,
     (if method.server_streaming then
        Print vars "return $Flux$.defer(() -> $Flux$.fromIterable(service.$lower_method_name$(messages.toIterable(), metadata)).map(serializer).transform($lower_method_name$)).subscribeOn(scheduler);\n"
      else
        Print vars "return $Mono$.fromSupplier(() -> service.$lower_method_name$(messages.toIterable(), metadata)).map(serializer).transform($lower_method_name$).$flux$().subscribeOn(scheduler);\n"),
     .outdent,
     PrintText "\x7d\n",
     PrintText "\n"])

/-- The part of `PrintServer` from the bucket loop to `selfRegister` (source lines
754-1305): for each interaction in turn the public entry point, the switch over
the route and the handlers of the bucket, then the registration. -/
def PrintServer.interactions (methods : List MethodDescriptor) (vars : Vars) :
    Vars × List Emitted :=
  let b := buildBuckets methods
  let fnfEntry := PrintServer.fireAndForget b.fire_and_forget vars
  let fnfSwitch := PrintServer.doDecodeAndHandleFireAndForget b.fire_and_forget vars
  let fnfHandlers := forEachMethod PrintServer.fireAndForgetHandler b.fire_and_forget fnfSwitch.1
  let rrEntry := PrintServer.requestResponse b.request_response fnfHandlers.1
  let rrSwitch := PrintServer.doDecodeAndHandleRequestResponse b.request_response fnfHandlers.1
  let rrHandlers :=
    forEachMethod PrintServer.requestResponseHandler b.request_response rrSwitch.1
  let rsEntry := PrintServer.requestStream b.request_stream rrHandlers.1
  let rsSwitch := PrintServer.doDecodeAndHandleRequestStream b.request_stream rrHandlers.1
  let rsHandlers := forEachMethod PrintServer.requestStreamHandler b.request_stream rsSwitch.1
  let rcEntry := PrintServer.requestChannel b.request_channel rsHandlers.1
  let rcPayloads := PrintServer.requestChannelPayloads b.request_channel rcEntry.1
  let rcHandlers :=
    forEachMethod PrintServer.requestChannelHandler b.request_channel rcEntry.1
  let registration := PrintServer.selfRegister b rcHandlers.1
  (registration.1,
    fnfEntry ++ (fnfSwitch.2 ++ fnfHandlers.2)
    ++ rrEntry ++ (rrSwitch.2 ++ rrHandlers.2)
    ++ rsEntry ++ (rsSwitch.2 ++ rsHandlers.2)
    ++ rcEntry.2 ++ rcPayloads
    ++ (rcHandlers.2 ++ registration.2))

/-! ## `PrintInterface`: the method signatures (source lines 319-350) -/

/-- The text that the signature of a method opens with in the interface: the
return type and the method name (source lines 332-342). -/
def PrintInterface.returnTemplate (method : MethodDescriptor) : String :=
  if method.server_streaming then
    "$Iterable$<$output_type$> $lower_method_name$"
  else if method.client_streaming then
    "$output_type$ $lower_method_name$"
  else
    if method.fire_and_forget then
      "void $lower_method_name$"
    else
      "$output_type$ $lower_method_name$"

/-- The text of the parameter list of a method in the interface (source lines
343-349). -/
def PrintInterface.paramTemplate (method : MethodDescriptor) : String :=
  if method.client_streaming then
    "($Iterable$<$input_type$> messages, $ByteBuf$ metadata);\n"
  else
    "($input_type$ message, $ByteBuf$ metadata);\n"

/-- The body of the second loop of `PrintInterface`: the signature of one method.
The doc comment that `WriteMethodDocComment` prints after the blank line is left
out. -/
def PrintInterface.methodBody (method : MethodDescriptor) (vars : Vars) :
    Vars × List Emitted :=
  let vars := vars.set "input_type" method.input_type
  let vars := vars.set "output_type" method.output_type
  let vars := vars.set "lower_method_name" (LowerMethodName method)
  (vars,
    [PrintText "\n",
     Print vars (PrintInterface.returnTemplate method),
     Print vars (PrintInterface.paramTemplate method)])

/-! ## `PrintClient`: the two methods of every RPC (source lines 437-596) -/

/-- The text that opens the convenience overload, the one without metadata: the
annotation, the return type and the method name (source lines 448-470). -/
def PrintClient.convenienceReturnTemplate (method : MethodDescriptor) : String :=
  if method.server_streaming then
    "@$RSocketRpcGeneratedMethod$(returnTypeClass = $output_type$.class)\npublic $BlockingIterable$<$output_type$> $lower_method_name$"
  else if method.client_streaming then
    "@$RSocketRpcGeneratedMethod$(returnTypeClass = $output_type$.class)\npublic $output_type$ $lower_method_name$"
  else
    if method.fire_and_forget then
      "@$RSocketRpcGeneratedMethod$(returnTypeClass = Void.class)\npublic void $lower_method_name$"
    else
      "@$RSocketRpcGeneratedMethod$(returnTypeClass = $output_type$.class)\npublic $output_type$ $lower_method_name$"

/-- The parameter list of the convenience overload (source lines 472-475 and
490-492). -/
def PrintClient.convenienceParamTemplate (method : MethodDescriptor) : String :=
  if method.client_streaming then
    "($Iterable$<$input_type$> messages) \x7b\n"
  else
    "($input_type$ message) \x7b\n"

/-- The statements of the body of the convenience overload (source lines 477-485
and 494-502). -/
def PrintClient.convenienceBody (method : MethodDescriptor) : List String :=
  if method.client_streaming then
    if method.fire_and_forget then
      ["$lower_method_name$(messages, $Unpooled$.EMPTY_BUFFER);\n"]
    else
      ["return $lower_method_name$(messages, $Unpooled$.EMPTY_BUFFER);\n"]
  else
    if method.fire_and_forget then
      ["$lower_method_name$(message, $Unpooled$.EMPTY_BUFFER);\n"]
    else
      ["return $lower_method_name$(message, $Unpooled$.EMPTY_BUFFER);\n"]

/-- The text that opens the overriding method, the one with metadata (source lines
508-535). -/
def PrintClient.metadataReturnTemplate (method : MethodDescriptor) : String :=
  if method.server_streaming then
    "@$Override$\n@$RSocketRpcGeneratedMethod$(returnTypeClass = $output_type$.class)\npublic $BlockingIterable$<$output_type$> $lower_method_name$"
  else if method.client_streaming then
    "@$Override$\n@$RSocketRpcGeneratedMethod$(returnTypeClass = $output_type$.class)\npublic $output_type$ $lower_method_name$"
  else
    if method.fire_and_forget then
      "@$Override$\n@$RSocketRpcGeneratedMethod$(returnTypeClass = Void.class)\npublic void $lower_method_name$"
    else
      "@$Override$\n@$RSocketRpcGeneratedMethod$(returnTypeClass = $output_type$.class)\npublic $output_type$ $lower_method_name$"

/-- The parameter list of the overriding method (source lines 537-582). -/
def PrintClient.metadataParamTemplate (method : MethodDescriptor) : String :=
  if method.client_streaming && method.server_streaming then
    "($Iterable$<$input_type$> messages, $ByteBuf$ metadata) \x7b\n"
  else if method.server_streaming then
    "($input_type$ message, $ByteBuf$ metadata) \x7b\n"
  else if method.client_streaming then
    "($Iterable$<$input_type$> messages, $ByteBuf$ metadata) \x7b\n"
  else
    "($input_type$ message, $ByteBuf$ metadata) \x7b\n"

/-- The statements of the body of the overriding method (source lines 537-595). -/
def PrintClient.metadataBody (method : MethodDescriptor) : List String :=
  if method.client_streaming && method.server_streaming then
    ["$Flux$ stream = delegate.$lower_method_name$($Flux$.defer(() -> $Flux$.fromIterable(messages)), metadata);\n",
     "return new $BlockingIterable$<>(stream, $Queues$.SMALL_BUFFER_SIZE, $Queues$.small());\n"]
  else if method.server_streaming then
    ["$Flux$ stream = delegate.$lower_method_name$(message, metadata);\n",
     "return new $BlockingIterable$<>(stream, $Queues$.SMALL_BUFFER_SIZE, $Queues$.small());\n"]
  else if method.client_streaming then
    if method.fire_and_forget then
      ["delegate.$lower_method_name$($Flux$.defer(() -> $Flux$.fromIterable(messages)), metadata).block();\n"]
    else
      ["return delegate.$lower_method_name$($Flux$.defer(() -> $Flux$.fromIterable(messages)), metadata).block();\n"]
  else
    if method.fire_and_forget then
      ["delegate.$lower_method_name$(message, metadata).block();\n"]
    else
      ["return delegate.$lower_method_name$(message, metadata).block();\n"]

/-- The body of the method loop of `PrintClient`: the convenience overload, then
the overriding method with metadata. -/
def PrintClient.methodBody (method : MethodDescriptor) (vars : Vars) :
    Vars × List Emitted :=
  let vars := vars.set "input_type" method.input_type
  let vars := vars.set "output_type" method.output_type
  let vars := vars.set "lower_method_name" (LowerMethodName method)
  let vars := vars.set "method_id_name" (MethodFieldName method)
  (vars,
    [Print vars (PrintClient.convenienceReturnTemplate method),
     Print vars (PrintClient.convenienceParamTemplate method),
     .indent]
    ++ (PrintClient.convenienceBody method).map (Print vars)
    ++ [.outdent,
        PrintText "\x7d\n\n",
        Print vars (PrintClient.metadataReturnTemplate method),
        Print vars (PrintClient.metadataParamTemplate method),
        .indent]
    ++ (PrintClient.metadataBody method).map (Print vars)
    ++ [.outdent, PrintText "\x7d\n\n"])

/-! ## `PrintServer`: the metrics fields (source lines 637-708) -/

/-- The declaration of the metrics field of a method (source lines 645-663). -/
def PrintServer.metricsFieldTemplate (method : MethodDescriptor) : String :=
  if method.server_streaming then
    "private final $Function$<? super $Publisher$<$Payload$>, ? extends $Publisher$<$Payload$>> $lower_method_name$;\n"
  else if method.client_streaming then
    "private final $Function$<? super $Publisher$<$Payload$>, ? extends $Publisher$<$Payload$>> $lower_method_name$;\n"
  else
    if method.fire_and_forget then
      "private final $Function$<? super $Publisher$<Void>, ? extends $Publisher$<Void>> $lower_method_name$;\n"
    else
      "private final $Function$<? super $Publisher$<$Payload$>, ? extends $Publisher$<$Payload$>> $lower_method_name$;\n"

/-- The body of the loop that declares the metrics fields (source lines 638-664). -/
def PrintServer.metricsFieldBody (method : MethodDescriptor) (vars : Vars) :
    Vars × List Emitted :=
  let vars := vars.set "lower_method_name" (LowerMethodName method)
  (vars, [Print vars (PrintServer.metricsFieldTemplate method)])

/-- The body of the loop that sets the metrics fields when there is no registry
(source lines 681-688). -/
def PrintServer.metricsIdentityBody (method : MethodDescriptor) (vars : Vars) :
    Vars × List Emitted :=
  let vars := vars.set "lower_method_name" (LowerMethodName method)
  (vars, [Print vars "this.$lower_method_name$ = $Function$.identity();\n"])

/-- The body of the loop that sets the metrics fields from the registry (source
lines 697-705). -/
def PrintServer.metricsTimedBody (method : MethodDescriptor) (vars : Vars) :
    Vars × List Emitted :=
  let vars := vars.set "lower_method_name" (LowerMethodName method)
  let vars := vars.set "method_field_name" (MethodFieldName method)
  (vars,
    [Print vars "this.$lower_method_name$ = $RSocketRpcMetrics$.timed(registry.get(), \"rsocket.server\", \"service\", Blocking$service_name$.$service_id_name$, \"method\", Blocking$service_name$.$method_field_name$);\n"])

/-- The initialisation of the metrics fields in the constructor: the two branches
on the registry, each with its loop over the methods (source lines 675-708). -/
def PrintServer.metricsInit (methods : List MethodDescriptor) (vars : Vars) :
    Vars × List Emitted :=
  let r1 := forEachMethod PrintServer.metricsIdentityBody methods vars
  let r2 := forEachMethod PrintServer.metricsTimedBody methods r1.1
  (r2.1,
    [Print vars "if (!registry.isPresent()) \x7b\n", .indent]
    ++ r1.2
    ++ [.outdent, Print r1.1 "\x7d else \x7b\n", .indent]
    ++ r2.2
    ++ [.outdent, PrintText "\x7d\n\n"])

/-- The variables that `GenerateServer` hands to `PrintServer` (source lines
1485-1547). -/
def GenerateServer.vars (service : ServiceDescriptor) : Vars :=
  let vars : Vars := []
  let vars := vars.set "Flux" "reactor.core.publisher.Flux"
  let vars := vars.set "Mono" "reactor.core.publisher.Mono"
  let vars := vars.set "from" "from"
  let vars := vars.set "flux" "flux"
  let vars := vars.set "flatMap" "flatMapMany"
  let vars := vars.set "Function" "java.util.function.Function"
  let vars := vars.set "Supplier" "java.util.function.Supplier"
  let vars := vars.set "BiFunction" "java.util.function.BiFunction"
  let vars := vars.set "Override" "java.lang.Override"
  let vars := vars.set "Publisher" "org.reactivestreams.Publisher"
  let vars := vars.set "Generated" "javax.annotation.Generated"
  let vars := vars.set "RSocketRpcGenerated" "io.rsocket.rpc.annotations.internal.Generated"
  let vars := vars.set "RSocketRpcResourceType" "io.rsocket.rpc.annotations.internal.ResourceType"
  let vars := vars.set "RSocket" "io.rsocket.RSocket"
  let vars := vars.set "Payload" "io.rsocket.Payload"
  let vars := vars.set "ByteBufPayload" "io.rsocket.util.ByteBufPayload"
  let vars := vars.set "SwitchTransformFlux" "io.rsocket.internal.SwitchTransformFlux"
  let vars := vars.set "AbstractRSocketService" "io.rsocket.rpc.AbstractRSocketService"
  let vars := vars.set "RSocketRpcMetadata" "io.rsocket.rpc.frames.Metadata"
  let vars := vars.set "RSocketRpcMetrics" "io.rsocket.rpc.metrics.Metrics"
  let vars := vars.set "MeterRegistry" "io.micrometer.core.instrument.MeterRegistry"
  let vars := vars.set "ByteBuf" "io.netty.buffer.ByteBuf"
  let vars := vars.set "ByteBuffer" "java.nio.ByteBuffer"
  let vars := vars.set "ByteBufAllocator" "io.netty.buffer.ByteBufAllocator"
  let vars := vars.set "CodedInputStream" "com.google.protobuf.CodedInputStream"
  let vars := vars.set "CodedOutputStream" "com.google.protobuf.CodedOutputStream"
  let vars := vars.set "MessageLite" "com.google.protobuf.MessageLite"
  let vars := vars.set "Parser" "com.google.protobuf.Parser"
  let vars := vars.set "BlockingIterable" " io.rsocket.rpc.BlockingIterable"
  let vars := vars.set "Iterable" "Iterable"
  let vars := vars.set "Scheduler" "reactor.core.scheduler.Scheduler"
  let vars := vars.set "Schedulers" "reactor.core.scheduler.Schedulers"
  let vars := vars.set "Optional" "java.util.Optional"
  let vars := vars.set "Inject" "javax.inject.Inject"
  let vars := vars.set "Named" "javax.inject.Named"
  let vars := vars.set "RSocketRpcResourceType" "io.rsocket.rpc.annotations.internal.ResourceType"
  let vars := vars.set "Tag" "io.rsocket.rpc.tracing.Tag"
  let vars := vars.set "SpanContext" "io.opentracing.SpanContext"
  let vars := vars.set "Tracer" "io.opentracing.Tracer"
  let vars := vars.set "Map" "java.util.Map"
  let vars := vars.set "IPCFunction" "io.rsocket.ipc.util.IPCFunction"
  let vars := vars.set "IPCChannelFunction" "io.rsocket.ipc.util.IPCChannelFunction"
  let vars := vars.set "String" "java.lang.String"
  let vars := vars.set "Void" "java.lang.Void"
  let vars := vars.set "Signal" "reactor.core.publisher.Signal"
  let vars := vars.set "Exception" "java.lang.Exception"
  let vars := vars.set "MetadataDecoder" "io.rsocket.ipc.MetadataDecoder"
  let vars := vars.set "CompositeMetadataDecoder" "io.rsocket.ipc.decoders.CompositeMetadataDecoder"
  vars.set "Package" (packageVar service)

/-- The variables that `GenerateClient` hands to `PrintClient` (source lines
1424-1475); `package_name` is what `ServiceJavaPackage` gives for the file. -/
def GenerateClient.vars (service : ServiceDescriptor) (package_name : String) : Vars :=
  let vars : Vars := []
  let vars := vars.set "Flux" "reactor.core.publisher.Flux"
  let vars := vars.set "Mono" "reactor.core.publisher.Mono"
  let vars := vars.set "from" "from"
  let vars := vars.set "Function" "java.util.function.Function"
  let vars := vars.set "Supplier" "java.util.function.Supplier"
  let vars := vars.set "AtomicBoolean" "java.util.concurrent.atomic.AtomicBoolean"
  let vars := vars.set "Override" "java.lang.Override"
  let vars := vars.set "Publisher" "org.reactivestreams.Publisher"
  let vars := vars.set "Generated" "javax.annotation.Generated"
  let vars := vars.set "RSocketRpcGenerated" "io.rsocket.rpc.annotations.internal.Generated"
  let vars := vars.set "RSocketRpcResourceType" "io.rsocket.rpc.annotations.internal.ResourceType"
  let vars := vars.set "RSocket" "io.rsocket.RSocket"
  let vars := vars.set "Payload" "io.rsocket.Payload"
  let vars := vars.set "ByteBufPayload" "io.rsocket.util.ByteBufPayload"
  let vars := vars.set "ByteBuf" "io.netty.buffer.ByteBuf"
  let vars := vars.set "ByteBufAllocator" "io.netty.buffer.ByteBufAllocator"
  let vars := vars.set "Unpooled" "io.netty.buffer.Unpooled"
  let vars := vars.set "ByteBuffer" "java.nio.ByteBuffer"
  let vars := vars.set "CodedInputStream" "com.google.protobuf.CodedInputStream"
  let vars := vars.set "CodedOutputStream" "com.google.protobuf.CodedOutputStream"
  let vars := vars.set "RSocketRpcMetadata" "io.rsocket.rpc.frames.Metadata"
  let vars := vars.set "RSocketRpcMetrics" "io.rsocket.rpc.metrics.Metrics"
  let vars := vars.set "MeterRegistry" "io.micrometer.core.instrument.MeterRegistry"
  let vars := vars.set "MessageLite" "com.google.protobuf.MessageLite"
  let vars := vars.set "Parser" "com.google.protobuf.Parser"
  let vars := vars.set "BlockingIterable" " io.rsocket.rpc.BlockingIterable"
  let vars := vars.set "Iterable" "Iterable"
  let vars := vars.set "PackageName" package_name
  let vars := vars.set "Queues" "reactor.util.concurrent.Queues"
  let vars := vars.set "RSocketRpcGeneratedMethod" "io.rsocket.rpc.annotations.internal.GeneratedMethod"
  let vars := vars.set "Tag" "io.rsocket.rpc.tracing.Tag"
  let vars := vars.set "Map" "java.util.Map"
  let vars := vars.set "HashMap" "java.util.HashMap"
  let vars := vars.set "Supplier" "java.util.function.Supplier"
  let vars := vars.set "MetadataEncoder" "io.rsocket.ipc.MetadataEncoder"
  let vars := vars.set "BackwardCompatibleMetadataEncoder" "io.rsocket.ipc.encoders.BackwardCompatibleMetadataEncoder"
  let vars := vars.set "SimpleSpanContext" "io.rsocket.ipc.tracing.SimpleSpanContext"
  vars.set "Package" (packageVar service)

/-! ## Notions used in the statements -/

/-- Two variable maps agree on every key outside `keys`. -/
def Vars.AgreeOff (keys : List String) (v v' : Vars) : Prop :=
  ∀ k, k ∉ keys → v.get k = v'.get k

/-- The `fireAndForget` entry point in its unimplemented form: the signature and a
body that only returns the error. -/
def PrintServer.fireAndForgetUnimplemented (vars : Vars) : List Emitted :=
  [Print vars "@$Override$\npublic $Mono$<$Void$> fireAndForget($Payload$ payload) \x7b\n",
   .indent,
   Print vars "return $Mono$.error(new UnsupportedOperationException(\"Fire And Forget is not implemented.\"));\n",
   .outdent,
   Print vars "\x7d\n\n"]

/-- The `requestResponse` entry point in its unimplemented form. -/
def PrintServer.requestResponseUnimplemented (vars : Vars) : List Emitted :=
  [Print vars "@$Override$\npublic $Mono$<$Payload$> requestResponse($Payload$ payload) \x7b\n",
   .indent,
   Print vars "return $Mono$.error(new UnsupportedOperationException(\"Request Response is not implemented.\"));\n",
   .outdent,
   Print vars "\x7d\n\n"]

/-- The `requestStream` entry point in its unimplemented form. -/
def PrintServer.requestStreamUnimplemented (vars : Vars) : List Emitted :=
  [Print vars "@$Override$\npublic $Flux$<$Payload$> requestStream($Payload$ payload) \x7b\n",
   .indent,
   Print vars "return $Flux$.error(new UnsupportedOperationException(\"Request Stream is not implemented.\"));\n",
   .outdent,
   Print vars "\x7d\n\n"]

/-- The `requestChannel(payload, payloads)` entry point in its unimplemented form. -/
def PrintServer.requestChannelUnimplemented (vars : Vars) : List Emitted :=
  [Print vars "@$Override$\npublic $Flux$<$Payload$> requestChannel($Payload$ payload, $Publisher$<$Payload$> payloads) \x7b\n",
   .indent,
   Print vars "return $Flux$.error(new UnsupportedOperationException(\"Request Channel is not implemented.\"));\n",
   .outdent,
   Print vars "\x7d\n\n"]

/-- The `requestChannel(payloads)` entry point in its unimplemented form. -/
def PrintServer.requestChannelPayloadsUnimplemented (vars : Vars) : List Emitted :=
  [Print vars "@$Override$\npublic $Flux$<$Payload$> requestChannel($Publisher$<$Payload$> payloads) \x7b\n",
   .indent,
   Print vars "return $Flux$.error(new UnsupportedOperationException(\"Request-Channel not implemented.\"));\n",
   .outdent,
   PrintText "\x7d\n\n"]

/-- A term of the initializer of a generated Java constant: a string literal or
the name of another constant. -/
inductive JavaTerm where
  | literal (s : String)
  | constant (name : String)
deriving DecidableEq, Repr

/-- A declaration `String name = term + term + ...;` of the generated interface. -/
structure JavaConstant where
  name : String
  terms : List JavaTerm
deriving DecidableEq, Repr

/-- The string a term denotes, given the values of the constants declared so far. -/
def JavaTerm.value (env : List (String × String)) : JavaTerm → String
  | .literal s => s
  | .constant name => (List.lookup name env).getD ""

/-- The string a declaration gives its constant: the concatenation of its terms. -/
def JavaConstant.value (env : List (String × String)) (d : JavaConstant) : String :=
  String.join (d.terms.map (JavaTerm.value env))

/-- The values of a sequence of declarations, each read with the ones before it;
of two declarations of one name the first is the one that is read. -/
def javaValues (ds : List JavaConstant) : List (String × String) :=
  ds.foldl (fun env d => env ++ [(d.name, d.value env)]) []

/-- The two declarations that the generated interface holds for a method: the
`METHOD_` constant and the `ROUTE_` constant. -/
def methodDeclarations (service : ServiceDescriptor) (method : MethodDescriptor) :
    List JavaConstant :=
  [⟨MethodFieldName method, [.literal method.name]⟩,
   ⟨RouteFieldName method,
    [.constant (ServiceFieldName service), .literal ".",
     .constant (MethodFieldName method)]⟩]

/-- The declarations of constants of the generated interface, in the order of the
text: the service id, then the `METHOD_` and `ROUTE_` constants of every method of
the service. -/
def routeDeclarations (service : ServiceDescriptor) : List JavaConstant :=
  ⟨ServiceFieldName service, [.literal (packageVar service ++ service.name)]⟩
    :: service.methods.flatMap (methodDeclarations service)

/-- The part of `PrintServer` that prints the dispatch switch of a semantic. -/
def PrintServer.dispatchSwitch (s : InteractionSemantic) (b : Buckets) (vars : Vars) :
    Vars × List Emitted :=
  match s with
  | .OneWay => PrintServer.doDecodeAndHandleFireAndForget b.fire_and_forget vars
  | .UnarySingleResponse =>
    PrintServer.doDecodeAndHandleRequestResponse b.request_response vars
  | .ServerStream => PrintServer.doDecodeAndHandleRequestStream b.request_stream vars
  | .ClientOrBidiStream => PrintServer.requestChannel b.request_channel vars

/-- The registry parameter of `selfRegister` that takes the methods of a semantic. -/
def registryName : InteractionSemantic → String
  | .OneWay => "fireAndForgetRegistry"
  | .UnarySingleResponse => "requestResponseRegistry"
  | .ServerStream => "requestStreamRegistry"
  | .ClientOrBidiStream => "requestChannelRegistry"

/-- The ending of the name of the generated handler of a semantic. -/
def handlerSuffix : InteractionSemantic → String
  | .OneWay => "FireAndForget"
  | .UnarySingleResponse => "RequestResponse"
  | .ServerStream => "RequestStream"
  | .ClientOrBidiStream => "RequestChannel"

/-! ## Notions for the statements on identifier derivation -/

/-- Position `i` of a word holds a lower-case letter that is immediately followed
by an upper-case letter. -/
def caseBoundary (word : List Char) (i : Nat) : Bool :=
  islower (charAt word i) && isupper (charAt word (i + 1))

/-- The number of positions of a word at which a lower-case letter is immediately
followed by an upper-case letter. -/
def boundaryCount (word : List Char) : Nat :=
  ((List.range word.length).filter (caseBoundary word)).length

/-- The upper-snake-case form as the specification words it: the upper-case form
of every character in order, with an underscore put after each position at which a
lower-case letter is immediately followed by an upper-case letter. -/
def screamingSnakeSpec (word : List Char) : List Char :=
  (List.range word.length).flatMap
    (fun i => if caseBoundary word i then [toupper (charAt word i), '_']
      else [toupper (charAt word i)])

/-- A word has two underscores next to each other. -/
def hasAdjacentUnderscores : List Char → Bool
  | c :: d :: rest => (c == '_' && d == '_') || hasAdjacentUnderscores (d :: rest)
  | _ => false

/-- A name with its underscores removed and its letters put in upper case: what is
left of a name when letter case and underscores are ignored. -/
def foldName (name : String) : List Char :=
  (name.data.filter (fun c => c != '_')).map toupper

/-! ## Notions for the statements on the generated code -/

/-- The first list of characters is the beginning of the second. -/
def beginsWith : List Char → List Char → Bool
  | [], _ => true
  | _ :: _, [] => false
  | a :: as, b :: bs => a == b && beginsWith as bs

/-- An emitted item is a text that starts with the given string. -/
def Emitted.startsWith (e : Emitted) (p : String) : Bool :=
  match e with
  | .text s => beginsWith p.data s.data
  | _ => false

/-- An emitted item is the label of a `case` of a switch. -/
def Emitted.isCase (e : Emitted) : Bool := e.startsWith "case "

/-- An emitted item is a `put` into one of the four registries of `selfRegister`. -/
def Emitted.isPut (e : Emitted) : Bool :=
  e.startsWith "fireAndForgetRegistry.put(" || e.startsWith "requestResponseRegistry.put("
    || e.startsWith "requestStreamRegistry.put(" || e.startsWith "requestChannelRegistry.put("

/-- The variables that the loops of `PrintServer` assign for each method. -/
def PrintServer.loopKeys : List String :=
  ["input_type", "output_type", "method_name", "lower_method_name", "route_field_name",
   "method_field_name"]

/-- The variables `base` with the values that `v` gives to `keys` put on top. -/
def Vars.overlay (keys : List String) (v base : Vars) : Vars :=
  keys.map (fun k => (k, v.get k)) ++ base

/-- The variables with which `GenerateServer` and the head of `PrintServer` start
the printing of a service. -/
def PrintServer.startVars (service : ServiceDescriptor) : Vars :=
  PrintServer.initVars service (GenerateServer.vars service)

/-- The label of the `case` that a dispatch switch holds for a method. -/
def caseLabel (service : ServiceDescriptor) (m : MethodDescriptor) : Emitted :=
  .text ("case " ++ service.name ++ "." ++ RouteFieldName m ++ ": \x7b\n")

/-- The `put` statement that `selfRegister` holds for a method of a semantic. -/
def putLine (service : ServiceDescriptor) (s : InteractionSemantic) (m : MethodDescriptor) :
    Emitted :=
  .text (registryName s ++ ".put(" ++ service.name ++ "." ++ RouteFieldName m
    ++ ", this::do" ++ m.name ++ handlerSuffix s ++ ");\n")

/-- The variables with which `PrintServer` reaches the bucket loop: the start
variables after the loop of the metrics fields and the two loops of the
constructor (nothing else assigns a variable before source line 754). -/
def PrintServer.reachedVars (service : ServiceDescriptor) : Vars :=
  (PrintServer.metricsInit service.methods
    (forEachMethod PrintServer.metricsFieldBody service.methods
      (PrintServer.startVars service)).1).1

/-! ## Notions for the statements on signatures and handlers -/

/-- What a generated method returns: nothing, one value, or a stream of values. -/
inductive ReturnKind where
  | void
  | single
  | stream
deriving DecidableEq, Repr

/-- What a generated method takes: one message, or a stream of messages. -/
inductive ParamKind where
  | message
  | messages
deriving DecidableEq, Repr

/-- The first list of characters is the end of the second. -/
def endsWith (p text : List Char) : Bool := beginsWith p.reverse text.reverse

/-- The first list of characters occurs in the second. -/
def containsText (p : List Char) : List Char → Bool
  | [] => beginsWith p []
  | c :: cs => beginsWith p (c :: cs) || containsText p cs

/-- The return kind that the opening text of a signature declares, read off the
type written before the method name: `void`, an iterable of the output type, or
the output type itself. -/
def returnKindOf (template : String) : Option ReturnKind :=
  if endsWith "void $lower_method_name$".data template.data then some .void
  else if endsWith "Iterable$<$output_type$> $lower_method_name$".data template.data then
    some .stream
  else if endsWith "$output_type$ $lower_method_name$".data template.data then
    some .single
  else none

/-- The parameter kind that a parameter list declares: an iterable `messages` or
a single `message`. -/
def paramKindOf (template : String) : Option ParamKind :=
  if beginsWith "($Iterable$<$input_type$> messages".data template.data then some .messages
  else if beginsWith "($input_type$ message".data template.data then some .message
  else none

/-- A body holds a `return` statement. -/
def hasReturn (body : List String) : Bool :=
  body.any (fun statement => beginsWith "return ".data statement.data)

/-- A field declaration is the one over `Void`. -/
def isVoidField (template : String) : Bool :=
  containsText "$Publisher$<Void>".data template.data

/-- A text wraps its result in the metrics field of the method. -/
def appliesMetrics (template : String) : Bool :=
  containsText ".transform($lower_method_name$)".data template.data

/-- An emitted item is a text. -/
def Emitted.isText : Emitted → Bool
  | .text _ => true
  | _ => false

/-- The loop body of `PrintServer` that prints the handler of a method of a
semantic. -/
def PrintServer.handlerOf :
    InteractionSemantic → MethodDescriptor → Vars → Vars × List Emitted
  | .OneWay => PrintServer.fireAndForgetHandler
  | .UnarySingleResponse => PrintServer.requestResponseHandler
  | .ServerStream => PrintServer.requestStreamHandler
  | .ClientOrBidiStream => PrintServer.requestChannelHandler

/-- The texts, before substitution, that the handler of a method of a semantic is
printed from, in order. -/
def PrintServer.handlerTemplates (s : InteractionSemantic) (method : MethodDescriptor) :
    List String :=
  match s with
  | .OneWay =>
    ["private $Mono$<$Void$> do$method_name$FireAndForget($ByteBuf$ data, $ByteBuf$ metadata, $SpanContext$ spanContext) throws $Exception$ \x7b\n",
     "$CodedInputStream$ is = $CodedInputStream$.newInstance(data.nioBuffer());\n$input_type$ message = $input_type$.parseFrom(is);\nreturn $Mono$.<Void>fromRunnable(() -> service.$lower_method_name$(message, metadata)).subscribeOn(scheduler);\n",
     "\x7d\n",
     "\n"]
  | .UnarySingleResponse =>
    ["private $Mono$<$Payload$> do$method_name$RequestResponse($ByteBuf$ data, $ByteBuf$ metadata, $SpanContext$ spanContext) throws $Exception$ \x7b\n",
     "$CodedInputStream$ is = $CodedInputStream$.newInstance(data.nioBuffer());\n$input_type$ message = $input_type$.parseFrom(is);\nreturn $Mono$.fromSupplier(() -> service.$lower_method_name$(message, metadata)).map(serializer).transform($lower_method_name$).subscribeOn(scheduler);\n",
     "\x7d\n",
     "\n"]
  | .ServerStream =>
    ["private $Flux$<$Payload$> do$method_name$RequestStream($ByteBuf$ data, $ByteBuf$ metadata, $SpanContext$ spanContext) throws $Exception$ \x7b\n",
     "$CodedInputStream$ is = $CodedInputStream$.newInstance(data.nioBuffer());\n$input_type$ message = $input_type$.parseFrom(is);\nreturn $Flux$.defer(() -> $Flux$.fromIterable(service.$lower_method_name$(message, metadata)).map(serializer).transform($lower_method_name$)).subscribeOn(scheduler);\n",
     "\x7d\n",
     "\n"]
  | .ClientOrBidiStream =>
    ["private $Flux$<$Payload$> do$method_name$RequestChannel($Flux$<$Payload$> publisher, $ByteBuf$ data, $ByteBuf$ metadata, $SpanContext$ spanContext) throws $Exception$ \x7b\n",
     "$Flux$<$input_type$> messages =\n",
     "publisher.map(deserializer($input_type$.parser()));\n",
     (if method.server_streaming then
        "return $Flux$.defer(() -> $Flux$.fromIterable(service.$lower_method_name$(messages.toIterable(), metadata)).map(serializer).transform($lower_method_name$)).subscribeOn(scheduler);\n"
      else
        "return $Mono$.fromSupplier(() -> service.$lower_method_name$(messages.toIterable(), metadata)).map(serializer).transform($lower_method_name$).$flux$().subscribeOn(scheduler);\n"),
     "\x7d\n",
     "\n"]


/-! ## Doc comments: `EscapeJavadoc`, `Split`, `GetDocLines`, `WriteDocCommentBody` -/

/-- The `switch` in the loop of `EscapeJavadoc` (source lines 149-189): what the
character `c` appends to the result when the character before it was `prev`. -/
def EscapeJavadoc.escape (prev c : Char) : List Char :=
  if c = '*' then
    if prev = '/' then "&#42;".data else [c]
  else if c = '/' then
    if prev = '*' then "&#47;".data else [c]
  else if c = '@' then "&#64;".data
  else if c = '<' then "&lt;".data
  else if c = '>' then "&gt;".data
  else if c = '&' then "&amp;".data
  else if c = '\\' then "&#92;".data
  else [c]

/-- The loop of `EscapeJavadoc` over the index `i`, with the running `prev` and
`result` (source lines 146-191). -/
def EscapeJavadoc.loop (input : List Char) : Nat → Nat → Char → List Char → List Char
  | 0, _, _, result => result
  | fuel + 1, i, prev, result =>
    if i < input.length then
      let c := charAt input i
      EscapeJavadoc.loop input fuel (i + 1) c (result ++ EscapeJavadoc.escape prev c)
    else result

/-- The function `EscapeJavadoc` (source lines 138-194); `prev` starts as `'*'`. -/
def EscapeJavadoc (input : String) : String :=
  ⟨EscapeJavadoc.loop input.data input.data.length 0 '*' []⟩

/-- The characters that a `const char*` denotes: those before the first NUL. -/
def cString (delim : List Char) : List Char := delim.takeWhile (fun x => x != '\x00')

/-- The scan shared by `find_first_of` and `find_first_not_of`: the position of the
first character that satisfies the test, counting from `pos`. -/
def findFrom (test : Char → Bool) : List Char → Nat → Option Nat
  | [], _ => none
  | x :: rest, pos => if test x then some pos else findFrom test rest (pos + 1)

/-- The member `std::string::find_first_of(chars, pos)`, as the C++ standard
defines it: the lowest position from `pos` on whose character is one of `chars`;
`none` stands for `string::npos`. -/
def find_first_of (full chars : List Char) (pos : Nat) : Option Nat :=
  findFrom (fun x => chars.contains x) (full.drop pos) pos

/-- The member `std::string::find_first_not_of(chars, pos)`, as the C++ standard
defines it: the lowest position from `pos` on whose character is none of `chars`;
`none` stands for `string::npos`. -/
def find_first_not_of (full chars : List Char) (pos : Nat) : Option Nat :=
  findFrom (fun x => !chars.contains x) (full.drop pos) pos

/-- The inner loop `while (++p != end && *p != c);` of the fast path (source line
105), pointers being offsets into `full`.  The result is the final `p`; `none`
means that the fuel ran out. -/
def SplitStringToIteratorUsing.scan (full : List Char) (c : Char) : Nat → Nat → Option Nat
  | 0, _ => none
  | fuel + 1, p =>
    if decide (p + 1 ≠ full.length) && decide (charAt full (p + 1) ≠ c) then
      SplitStringToIteratorUsing.scan full c fuel (p + 1)
    else some (p + 1)

/-- The outer loop `while (p != end)` of the fast path (source lines 100-108).
Each piece is `string(start, p - start)`; `none` means that the fuel ran out. -/
def SplitStringToIteratorUsing.fastLoop (full : List Char) (c : Char) :
    Nat → Nat → List String → Option (List String)
  | 0, _, _ => none
  | fuel + 1, p, result =>
    if p ≠ full.length then
      if charAt full p = c then
        SplitStringToIteratorUsing.fastLoop full c fuel (p + 1) result
      else
        let start := p
        match SplitStringToIteratorUsing.scan full c full.length p with
        | none => none
        | some p =>
          SplitStringToIteratorUsing.fastLoop full c fuel p
            (result ++ [⟨(full.drop start).take (p - start)⟩])
    else some result

/-- The loop `while (begin_index != string::npos)` of the general path (source
lines 113-122); `none` as a result means that the fuel ran out. -/
def SplitStringToIteratorUsing.generalLoop (full delim : List Char) :
    Nat → Option Nat → List String → Option (List String)
  | 0, _, _ => none
  | _ + 1, none, result => some result
  | fuel + 1, some begin_index, result =>
    match find_first_of full delim begin_index with
    | none => some (result ++ [⟨full.drop begin_index⟩])
    | some end_index =>
      SplitStringToIteratorUsing.generalLoop full delim fuel
        (find_first_not_of full delim end_index)
        (result ++ [⟨(full.drop begin_index).take (end_index - begin_index)⟩])

/-- The branch of `SplitStringToIteratorUsing` for a delimiter of one character
(source lines 95-110). -/
def SplitStringToIteratorUsing.fastPath (full : String) (delim : String)
    (result : List String) : Option (List String) :=
  let c := charAt delim.data 0
  SplitStringToIteratorUsing.fastLoop full.data c (full.data.length + 1) 0 result

/-- The general branch of `SplitStringToIteratorUsing` (source lines 112-122). -/
def SplitStringToIteratorUsing.generalPath (full : String) (delim : String)
    (result : List String) : Option (List String) :=
  SplitStringToIteratorUsing.generalLoop full.data (cString delim.data)
    (full.data.length + 1) (find_first_not_of full.data (cString delim.data) 0) result

/-- The function `SplitStringToIteratorUsing` (source lines 91-123).  The output
iterator is the vector that it appends to; `delim[1]` is the terminating NUL when
the delimiter has one character. -/
def SplitStringToIteratorUsing (full : String) (delim : String) (result : List String) :
    Option (List String) :=
  if charAt delim.data 0 ≠ '\x00' && charAt delim.data 1 = '\x00' then
    SplitStringToIteratorUsing.fastPath full delim result
  else SplitStringToIteratorUsing.generalPath full delim result

/-- The function `SplitStringUsing` (source lines 125-130). -/
def SplitStringUsing (full : String) (delim : String) (result : List String) :
    Option (List String) :=
  SplitStringToIteratorUsing full delim result

/-- The function `Split` (source lines 132-136). -/
def Split (full : String) (delim : String) : Option (List String) :=
  SplitStringUsing full delim []

/-- The loop `while (!lines.empty() && lines.back().empty()) lines.pop_back();` of
`GetDocLines` (source lines 216-218). -/
def GetDocLines.popLoop : Nat → List String → List String
  | 0, lines => lines
  | fuel + 1, lines =>
    if !lines.isEmpty && (lines.getLast?.getD "").isEmpty then
      GetDocLines.popLoop fuel lines.dropLast
    else lines

/-- The function `GetDocLines` (source lines 206-223). -/
def GetDocLines (comments : String) : Option (List String) :=
  if !comments.isEmpty then
    let escapedComments := EscapeJavadoc comments
    match Split escapedComments "\n" with
    | none => none
    | some lines => some (GetDocLines.popLoop lines.length lines)
  else some []

/-- The body of the loop of `WriteDocCommentBody` (source lines 238-247): a line
that starts with `/` is kept away from the leading asterisk by a space. -/
def WriteDocCommentBody.line (line : String) : Emitted :=
  if !line.isEmpty && charAt line.data 0 = '/' then
    Print (Vars.set [] "line" line) " * $line$\n"
  else Print (Vars.set [] "line" line) " *$line$\n"

/-- The function `WriteDocCommentBody` (source lines 230-253). -/
def WriteDocCommentBody (lines : List String) (surroundWithPreTag : Bool) : List Emitted :=
  if !lines.isEmpty then
    (if surroundWithPreTag then [PrintText " * <pre>\n"] else [])
      ++ lines.map WriteDocCommentBody.line
      ++ (if surroundWithPreTag then [PrintText " * </pre>\n"] else [])
  else []

/-! ## The identifier loops with every read checked -/

/-- The loop of `MixedLower` where a read `word[i]` outside the word, and the end
of the fuel, give `none`. -/
def MixedLower.checkedLoop (word : List Char) :
    Nat → Nat → Bool → List Char → Option (List Char)
  | 0, _, _, _ => none
  | fuel + 1, i, after_underscore, w =>
    if i < word.length then
      match word[i]? with
      | none => none
      | some c =>
        if c = '_' then MixedLower.checkedLoop word fuel (i + 1) true w
        else
          match (if after_underscore then (word[i]?).map toupper else word[i]?) with
          | none => none
          | some d => MixedLower.checkedLoop word fuel (i + 1) false (w ++ [d])
    else some w

/-- The function `MixedLower` with every read checked. -/
def MixedLower.checked (word : String) : Option String :=
  match word.data[0]? with
  | none => none
  | some c =>
    (MixedLower.checkedLoop word.data (word.data.length + 1) 1 false [tolower c]).map
      String.mk

/-- The loop of `ToAllUpperCase` where a read outside the word, and the end of the
fuel, give `none`.  The operands of `&&` are evaluated from the left, the next one
only when the ones before hold, so `word[i + 1]` is read last. -/
def ToAllUpperCase.checkedLoop (word : List Char) :
    Nat → Nat → List Char → Option (List Char)
  | 0, _, _ => none
  | fuel + 1, i, w =>
    if i < word.length then
      match word[i]? with
      | none => none
      | some c =>
        let w1 := w ++ [toupper c]
        if i < sizeSub word.length 1 then
          match word[i]? with
          | none => none
          | some c1 =>
            if islower c1 then
              match word[i + 1]? with
              | none => none
              | some c2 =>
                if isupper c2 then ToAllUpperCase.checkedLoop word fuel (i + 1) (w1 ++ ['_'])
                else ToAllUpperCase.checkedLoop word fuel (i + 1) w1
            else ToAllUpperCase.checkedLoop word fuel (i + 1) w1
        else ToAllUpperCase.checkedLoop word fuel (i + 1) w1
    else some w

/-- The function `ToAllUpperCase` with every read checked. -/
def ToAllUpperCase.checked (word : String) : Option String :=
  (ToAllUpperCase.checkedLoop word.data (word.data.length + 1) 0 []).map String.mk
/-! ## Concrete services and methods -/

/-- A unary method in camel case. -/
def getUserCamel : MethodDescriptor := ⟨"getUser", "Req", "Resp", false, false, false⟩

/-- A unary method in snake case. -/
def getUserSnake : MethodDescriptor := ⟨"get_user", "Req", "Resp", false, false, false⟩

/-- A unary method named Echo. -/
def echoFirst : MethodDescriptor := ⟨"Echo", "Ping", "Pong", false, false, false⟩

/-- A second unary method named Echo. -/
def echoSecond : MethodDescriptor := ⟨"Echo", "Note", "Ack", false, false, false⟩

/-- A server-streaming method. -/
def pingStream : MethodDescriptor := ⟨"ping", "Req", "Resp", false, true, false⟩

/-- A service `Demo` of the package `demo` with the one method `getUser`. -/
def demoService : ServiceDescriptor := ⟨"Demo", "demo", "demo.proto", [getUserCamel]⟩

/-- A unary method whose name starts with a capital. -/
def getUserUpper : MethodDescriptor := ⟨"GetUser", "Req", "Resp", false, false, false⟩

/-- A client-streaming method with a single response. -/
def uploadClientStream : MethodDescriptor := ⟨"Upload", "Chunk", "Receipt", true, false, false⟩

/-- A method that streams both ways. -/
def chatBidi : MethodDescriptor := ⟨"Chat", "Chunk", "Receipt", true, true, false⟩

/-- A client-streaming method that carries the fire-and-forget option. -/
def uploadOneWay : MethodDescriptor := ⟨"Upload", "Chunk", "Receipt", true, false, true⟩

/-- A server-streaming method that carries the fire-and-forget option. -/
def watchOneWay : MethodDescriptor := ⟨"Watch", "Query", "Event", false, true, true⟩

/-- A fire-and-forget method. -/
def notifyOneWay : MethodDescriptor := ⟨"Notify", "Event", "Empty", false, false, true⟩

/-- A service with one method of each semantic. -/
def mixedService : ServiceDescriptor :=
  ⟨"Mixed", "demo", "mixed.proto", [getUserCamel, notifyOneWay, pingStream, chatBidi]⟩

/-- A unary method in Pascal case. -/
def listUsers : MethodDescriptor := ⟨"ListUsers", "Req", "Resp", false, false, false⟩

/-- A service `Users` of the package `demo` whose two methods differ by the
spelling of one name only. -/
def usersService : ServiceDescriptor :=
  ⟨"Users", "demo", "users.proto", [getUserCamel, getUserSnake]⟩

/-- A unary method in lower case without underscores. -/
def getUserFlat : MethodDescriptor := ⟨"getuser", "Req", "Resp", false, false, false⟩


/-! ## Structural forms of the doc-comment loops -/

/-- What the loop of `EscapeJavadoc` appends for the rest of the input, given the
character `prev` on entry. -/
def escapeTail (prev : Char) : List Char → List Char
  | [] => []
  | c :: rest => EscapeJavadoc.escape prev c ++ escapeTail c rest

/-- The maximal runs of characters other than `c`, in order. -/
def splitPieces (c : Char) : List Char → List (List Char)
  | [] => []
  | x :: rest =>
    if x = c then splitPieces c rest
    else
      (x :: rest.takeWhile (fun y => y != c))
        :: splitPieces c (rest.dropWhile (fun y => y != c))
termination_by l => l.length
decreasing_by
  · simp
  · simp only [List.length_cons]
    exact Nat.lt_succ_of_le (List.dropWhile_suffix _).length_le

/-- No `*` is followed by `/` and no `/` by `*`. -/
def commentSafe (x y : Char) : Prop := ¬ (x = '*' ∧ y = '/') ∧ ¬ (x = '/' ∧ y = '*')

/-- The seven entities that `EscapeJavadoc` writes. -/
def EscapeJavadoc.entities : List String :=
  ["&#42;", "&#47;", "&#64;", "&lt;", "&gt;", "&amp;", "&#92;"]

/-- The characters that `EscapeJavadoc` has a case for. -/
def EscapeJavadoc.special : List Char := ['*', '/', '@', '<', '>', '&', '\\']

/-- Every `&` of a text starts one of the entities. -/
def ampersandsStartEntities : List Char → Prop
  | [] => True
  | x :: rest =>
    (x = '&' → ∃ e ∈ EscapeJavadoc.entities, beginsWith e.data (x :: rest) = true)
      ∧ ampersandsStartEntities rest
/-! ## Helper lemmas -/

theorem buckets_step_get (b : Buckets) (m : MethodDescriptor) (s : InteractionSemantic) :
    (b.step m).get s = if classify m = s then b.get s ++ [m] else b.get s := by
  rcases m with ⟨n, it, ot, cs, ss, ow⟩
  cases cs <;> cases ss <;> cases ow <;> cases s <;>
    simp [Buckets.step, Buckets.get, classify, classifyTable]

theorem foldl_step_get (ms : List MethodDescriptor) (b : Buckets) (s : InteractionSemantic) :
    (ms.foldl Buckets.step b).get s = b.get s ++ ms.filter (fun m => classify m = s) := by
  induction ms generalizing b with
  | nil => simp
  | cons m ms ih =>
    rw [List.foldl_cons, ih, buckets_step_get]
    by_cases h : classify m = s
    · simp [h, List.filter_cons]
    · simp [h, List.filter_cons]

theorem buildBuckets_get (ms : List MethodDescriptor) (s : InteractionSemantic) :
    (buildBuckets ms).get s = ms.filter (fun m => classify m = s) := by
  unfold buildBuckets
  rw [foldl_step_get]
  cases s <;> simp [Buckets.get, Buckets.empty]

theorem filter_classify_lengths (ms : List MethodDescriptor) :
    (ms.filter (fun m => classify m = .OneWay)).length
      + (ms.filter (fun m => classify m = .UnarySingleResponse)).length
      + (ms.filter (fun m => classify m = .ServerStream)).length
      + (ms.filter (fun m => classify m = .ClientOrBidiStream)).length = ms.length := by
  induction ms with
  | nil => simp
  | cons m ms ih =>
    cases h : classify m <;> simp [List.filter_cons, h] <;> omega

/-! ## Characters and the two loops -/

theorem islower_iff (c : Char) : islower c = true ↔ 97 ≤ c.toNat ∧ c.toNat ≤ 122 := by
  simp only [islower, Char.isLower, Char.toNat, Bool.and_eq_true, decide_eq_true_eq, ge_iff_le,
    UInt32.le_def, BitVec.le_def, UInt32.toNat]
  rfl

theorem isupper_iff (c : Char) : isupper c = true ↔ 65 ≤ c.toNat ∧ c.toNat ≤ 90 := by
  simp only [isupper, Char.isUpper, Char.toNat, Bool.and_eq_true, decide_eq_true_eq, ge_iff_le,
    UInt32.le_def, BitVec.le_def, UInt32.toNat]
  rfl

theorem toupper_of_not_islower (c : Char) (h : islower c = false) : toupper c = c := by
  have hl : ¬ (97 ≤ c.toNat ∧ c.toNat ≤ 122) := by rw [← islower_iff]; simp [h]
  unfold toupper Char.toUpper
  simp only [ge_iff_le]
  rw [if_neg hl]

theorem tolower_of_not_isupper (c : Char) (h : isupper c = false) : tolower c = c := by
  have hu : ¬ (65 ≤ c.toNat ∧ c.toNat ≤ 90) := by rw [← isupper_iff]; simp [h]
  unfold tolower Char.toLower
  simp only [ge_iff_le]
  rw [if_neg hu]

theorem lower_char_cases (P : Char → Prop) (h : ∀ n, 97 ≤ n → n ≤ 122 → P (Char.ofNat n))
    (c : Char) (hc : islower c = true) : P c := by
  have hl := (islower_iff c).mp hc
  have := h c.toNat hl.1 hl.2
  rwa [Char.ofNat_toNat] at this

theorem upper_char_cases (P : Char → Prop) (h : ∀ n, 65 ≤ n → n ≤ 90 → P (Char.ofNat n))
    (c : Char) (hc : isupper c = true) : P c := by
  have hl := (isupper_iff c).mp hc
  have := h c.toNat hl.1 hl.2
  rwa [Char.ofNat_toNat] at this

theorem tolower_toupper (c : Char) (h : isupper c = false) : tolower (toupper c) = c := by
  cases hl : islower c
  · rw [toupper_of_not_islower c hl, tolower_of_not_isupper c h]
  · refine lower_char_cases (fun c => tolower (toupper c) = c) ?_ c hl
    intro n h1 h2
    interval_cases n <;> decide

theorem toupper_ne_underscore (c : Char) (h : c ≠ '_') : toupper c ≠ '_' := by
  cases hl : islower c
  · rw [toupper_of_not_islower c hl]; exact h
  · refine lower_char_cases (fun c => toupper c ≠ '_') ?_ c hl
    intro n h1 h2
    interval_cases n <;> decide

theorem tolower_tolower (c : Char) : tolower (tolower c) = tolower c := by
  cases hu : isupper c
  · rw [tolower_of_not_isupper c hu, tolower_of_not_isupper c hu]
  · refine upper_char_cases (fun c => tolower (tolower c) = tolower c) ?_ c hu
    intro n h1 h2
    interval_cases n <;> decide

theorem tolower_eq_underscore (c : Char) : tolower c = '_' ↔ c = '_' := by
  constructor
  · intro h
    cases hu : isupper c
    · rw [tolower_of_not_isupper c hu] at h; exact h
    · exfalso
      revert h
      refine upper_char_cases (fun c => tolower c = '_' → False) ?_ c hu
      intro n h1 h2
      interval_cases n <;> decide
  · intro h; subst h; decide

theorem charAt_eq_getElem (word : List Char) (i : Nat) (h : i < word.length) :
    charAt word i = word[i] := by
  unfold charAt
  exact List.getD_eq_getElem word _ h

theorem mixedLower_loop_eq (word : List Char) (fuel i : Nat) (au : Bool) (w : List Char)
    (hf : word.length - i ≤ fuel) :
    MixedLower.loop word fuel i au w = w ++ mixedTail (word.drop i) au := by
  induction fuel generalizing i au w with
  | zero =>
    have : word.length ≤ i := by omega
    simp [MixedLower.loop, List.drop_eq_nil_of_le this, mixedTail]
  | succ fuel ih =>
    unfold MixedLower.loop
    by_cases hi : i < word.length
    · rw [if_pos hi, List.drop_eq_getElem_cons hi, charAt_eq_getElem word i hi]
      by_cases hc : word[i] = '_'
      · rw [if_pos hc, ih _ _ _ (by omega)]
        simp [mixedTail, hc]
      · rw [if_neg hc, ih _ _ _ (by omega)]
        simp [mixedTail, hc]
    · rw [if_neg hi]
      have : word.length ≤ i := by omega
      simp [List.drop_eq_nil_of_le this, mixedTail]

theorem MixedLower_data (word : String) :
    (MixedLower word).data = tolower (charAt word.data 0) :: mixedTail (word.data.drop 1) false := by
  unfold MixedLower
  simp only
  rw [mixedLower_loop_eq _ _ _ _ _ (by omega)]
  rfl

theorem toAllUpperCase_loop_eq (word : List Char) (fuel i : Nat) (w : List Char)
    (hf : word.length - i ≤ fuel) :
    ToAllUpperCase.loop word fuel i w = w ++ upperTail (word.drop i) := by
  induction fuel generalizing i w with
  | zero =>
    have : word.length ≤ i := by omega
    simp [ToAllUpperCase.loop, List.drop_eq_nil_of_le this, upperTail]
  | succ fuel ih =>
    unfold ToAllUpperCase.loop
    by_cases hi : i < word.length
    · rw [if_pos hi]
      simp only
      have hsub : sizeSub word.length 1 = word.length - 1 := by
        unfold sizeSub; rw [if_pos (by omega)]
      rw [hsub, List.drop_eq_getElem_cons hi, charAt_eq_getElem word i hi]
      by_cases hn : i + 1 < word.length
      · rw [List.drop_eq_getElem_cons hn, charAt_eq_getElem word (i + 1) hn]
        have hd : decide (i < word.length - 1) = true := by simp; omega
        rw [hd, Bool.true_and]
        by_cases hc : (islower word[i] && isupper word[i + 1]) = true
        · rw [if_pos hc, ih _ _ (by omega), List.drop_eq_getElem_cons hn]
          simp [upperTail, hc]
        · rw [if_neg hc, ih _ _ (by omega), List.drop_eq_getElem_cons hn]
          simp [upperTail, hc]
      · have hd : decide (i < word.length - 1) = false := by simp; omega
        rw [hd, Bool.false_and, Bool.false_and]
        have : word.length ≤ i + 1 := by omega
        simp [ih _ _ (show word.length - (i + 1) ≤ fuel by omega),
          List.drop_eq_nil_of_le this, upperTail]
    · rw [if_neg hi]
      have : word.length ≤ i := by omega
      simp [List.drop_eq_nil_of_le this, upperTail]

theorem ToAllUpperCase_data (word : String) :
    (ToAllUpperCase word).data = upperTail word.data := by
  unfold ToAllUpperCase
  simp only
  rw [toAllUpperCase_loop_eq _ _ _ _ (by omega)]
  simp


theorem mixedTail_no_underscore (l : List Char) (au : Bool) : '_' ∉ mixedTail l au := by
  induction l generalizing au with
  | nil => simp [mixedTail]
  | cons c cs ih =>
    unfold mixedTail
    by_cases hc : c = '_'
    · rw [if_pos hc]; exact ih true
    · rw [if_neg hc]
      intro hmem
      rcases List.mem_cons.mp hmem with h | h
      · cases au
        · simp at h; exact hc h.symm
        · simp at h; exact toupper_ne_underscore c hc h.symm
      · exact ih false h

theorem mixedTail_of_no_underscore (l : List Char) (h : '_' ∉ l) : mixedTail l false = l := by
  induction l with
  | nil => rfl
  | cons c cs ih =>
    have hc : c ≠ '_' := fun e => h (by simp [e])
    have hcs : '_' ∉ cs := fun e => h (List.mem_cons_of_mem _ e)
    simp [mixedTail, hc, ih hcs]

theorem mixedTail_append_underscore (l : List Char) (au : Bool) :
    mixedTail (l ++ ['_']) au = mixedTail l au := by
  induction l generalizing au with
  | nil => simp [mixedTail]
  | cons c cs ih =>
    by_cases hc : c = '_'
    · simp [mixedTail, hc, ih]
    · simp [mixedTail, hc, ih]

theorem MixedLower_idem (word : String) : MixedLower (MixedLower word) = MixedLower word := by
  apply String.ext
  rw [MixedLower_data (MixedLower word), MixedLower_data word]
  simp only [charAt, List.getD_cons_zero, List.drop_one, List.tail_cons]
  rw [tolower_tolower, mixedTail_of_no_underscore _ (mixedTail_no_underscore _ _)]

theorem upperTail_of_no_upper (l : List Char) (h : ∀ c ∈ l, isupper c = false) :
    upperTail l = l.map toupper := by
  induction l with
  | nil => rfl
  | cons c cs ih =>
    cases cs with
    | nil => rfl
    | cons d rest =>
      have hd : isupper d = false := h d (by simp)
      have := ih (fun x hx => h x (List.mem_cons_of_mem _ hx))
      simp [upperTail, hd, this]

theorem upperTail_of_no_lower (l : List Char) (h : ∀ c ∈ l, islower c = false) :
    upperTail l = l := by
  induction l with
  | nil => rfl
  | cons c cs ih =>
    have hc : islower c = false := h c (by simp)
    have ih' := ih (fun x hx => h x (List.mem_cons_of_mem _ hx))
    cases cs with
    | nil => simp [upperTail, toupper_of_not_islower c hc]
    | cons d rest =>
      simp [upperTail, hc, toupper_of_not_islower c hc, ih']

theorem map_toupper_injOn (l₁ l₂ : List Char) (h₁ : ∀ c ∈ l₁, isupper c = false)
    (h₂ : ∀ c ∈ l₂, isupper c = false) (h : l₁.map toupper = l₂.map toupper) : l₁ = l₂ := by
  have key : ∀ l : List Char, (∀ c ∈ l, isupper c = false) → (l.map toupper).map tolower = l := by
    intro l hl
    rw [List.map_map]
    conv_rhs => rw [← List.map_id l]
    apply List.map_congr_left
    intro c hc
    simp [tolower_toupper c (hl c hc)]
  rw [← key l₁ h₁, ← key l₂ h₂, h]

theorem string_append_left_cancel (p a b : String) (h : p ++ a = p ++ b) : a = b := by
  apply String.ext
  have := congrArg String.data h
  rw [String.data_append, String.data_append] at this
  exact List.append_cancel_left this

/-- Two names in the same letter case are told apart by `ToAllUpperCase`. -/
theorem ToAllUpperCase_injOn (a b : String)
    (h : ((∀ c ∈ a.data, isupper c = false) ∧ (∀ c ∈ b.data, isupper c = false))
      ∨ ((∀ c ∈ a.data, islower c = false) ∧ (∀ c ∈ b.data, islower c = false)))
    (e : ToAllUpperCase a = ToAllUpperCase b) : a = b := by
  apply String.ext
  have e' := congrArg String.data e
  rw [ToAllUpperCase_data, ToAllUpperCase_data] at e'
  rcases h with ⟨ha, hb⟩ | ⟨ha, hb⟩
  · rw [upperTail_of_no_upper _ ha, upperTail_of_no_upper _ hb] at e'
    exact map_toupper_injOn _ _ ha hb e'
  · rw [upperTail_of_no_lower _ ha, upperTail_of_no_lower _ hb] at e'
    exact e'


/-! ## The printer -/

theorem Vars.get_set (v : Vars) (k x k' : String) :
    (v.set k x).get k' = if k' = k then x else v.get k' := by
  unfold Vars.get Vars.set
  by_cases h : k' = k
  · subst h; simp [List.lookup]
  · have : (k' == k) = false := by simpa using h
    simp [List.lookup, this, h]

theorem Printer.expand_congr (v v' : Vars) (h : ∀ k, v.get k = v'.get k) :
    ∀ (l : List Char) (st : Option (List Char)),
      Printer.expand v l st = Printer.expand v' l st := by
  intro l
  induction l with
  | nil => intro st; cases st <;> rfl
  | cons c rest ih =>
    intro st
    cases st with
    | none => simp only [Printer.expand, ih]
    | some name => simp only [Printer.expand, ih, h]

theorem Print_congr (v v' : Vars) (h : ∀ k, v.get k = v'.get k) (t : String) :
    Print v t = Print v' t := by
  unfold Print
  rw [Printer.expand_congr v v' h]

theorem Vars.AgreeOff.refl (keys : List String) (v : Vars) : Vars.AgreeOff keys v v :=
  fun _ _ => rfl

/-- A loop whose body reads the variables only after it has assigned the ones it
changes prints, for each method, what the body prints from the variables the loop
was entered with. -/
theorem forEachMethod_out (body : MethodDescriptor → Vars → Vars × List Emitted)
    (keys : List String)
    (hb : ∀ m v v₀, Vars.AgreeOff keys v v₀ →
      (body m v).2 = (body m v₀).2 ∧ Vars.AgreeOff keys (body m v).1 v₀)
    (ms : List MethodDescriptor) (v v₀ : Vars) (hv : Vars.AgreeOff keys v v₀) :
    (forEachMethod body ms v).2 = ms.flatMap (fun m => (body m v₀).2)
    ∧ Vars.AgreeOff keys (forEachMethod body ms v).1 v₀ := by
  induction ms generalizing v with
  | nil => exact ⟨rfl, hv⟩
  | cons m ms ih =>
    obtain ⟨h1, h2⟩ := hb m v v₀ hv
    obtain ⟨h3, h4⟩ := ih (body m v).1 h2
    refine ⟨?_, h4⟩
    simp only [forEachMethod, List.flatMap_cons, h1, h3]

theorem Emitted.text_congr (a b : String) (h : a.data = b.data) :
    Emitted.text a = Emitted.text b := by
  rw [String.ext h]

theorem routeFieldName_ne_methodFieldName (m : MethodDescriptor) :
    RouteFieldName m ≠ MethodFieldName m := by
  intro h
  have := congrArg String.data h
  simp [RouteFieldName, MethodFieldName, String.data_append] at this

theorem toupper_eq_underscore (c : Char) : toupper c = '_' ↔ c = '_' := by
  constructor
  · intro h
    by_contra hc
    exact toupper_ne_underscore c hc h
  · intro h; subst h; decide

theorem charAt_cons_succ (c : Char) (l : List Char) (i : Nat) :
    charAt (c :: l) (i + 1) = charAt l i := by
  simp [charAt]

theorem caseBoundary_cons_succ (c : Char) (l : List Char) (i : Nat) :
    caseBoundary (c :: l) (i + 1) = caseBoundary l i := by
  simp [caseBoundary, charAt_cons_succ]

theorem screamingSnakeSpec_cons (c : Char) (l : List Char) :
    screamingSnakeSpec (c :: l)
      = (if caseBoundary (c :: l) 0 then [toupper c, '_'] else [toupper c])
        ++ screamingSnakeSpec l := by
  unfold screamingSnakeSpec
  rw [List.length_cons, List.range_succ_eq_map, List.flatMap_cons, List.flatMap_map]
  rfl

theorem boundaryCount_cons (c : Char) (l : List Char) :
    boundaryCount (c :: l) = (if caseBoundary (c :: l) 0 then 1 else 0) + boundaryCount l := by
  unfold boundaryCount
  rw [List.length_cons, List.range_succ_eq_map, List.filter_cons, List.filter_map]
  have : (caseBoundary (c :: l) ∘ Nat.succ) = caseBoundary l := by
    funext i; simp [Function.comp, caseBoundary_cons_succ]
  rw [this]
  split
  · simp only [List.length_cons, List.length_map]; omega
  · simp only [List.length_map]; omega

theorem upperTail_eq_spec (l : List Char) : upperTail l = screamingSnakeSpec l := by
  induction l with
  | nil => rfl
  | cons c cs ih =>
    rw [screamingSnakeSpec_cons, ← ih]
    cases cs with
    | nil =>
      have : isupper '\x00' = false := by decide
      simp [upperTail, caseBoundary, charAt, this, screamingSnakeSpec]
    | cons d rest =>
      by_cases h : (islower c && isupper d) = true
      · simp [upperTail, caseBoundary, charAt, h]
      · simp [upperTail, caseBoundary, charAt, h]

theorem screamingSnakeSpec_length (l : List Char) :
    (screamingSnakeSpec l).length = l.length + boundaryCount l := by
  induction l with
  | nil => rfl
  | cons c cs ih =>
    rw [screamingSnakeSpec_cons, boundaryCount_cons, List.length_append, ih]
    split
    · simp only [List.length_cons, List.length_nil]; omega
    · simp only [List.length_cons, List.length_nil]; omega

theorem upperTail_cons_head (c : Char) (l : List Char) :
    ∃ t, upperTail (c :: l) = toupper c :: t := by
  cases l with
  | nil => exact ⟨[], rfl⟩
  | cons d rest =>
    by_cases h : (islower c && isupper d) = true
    · exact ⟨'_' :: upperTail (d :: rest), by simp [upperTail, h]⟩
    · exact ⟨upperTail (d :: rest), by simp [upperTail, h]⟩

theorem islower_ne_underscore (c : Char) (h : islower c = true) : c ≠ '_' := by
  intro e; subst e; revert h; decide

theorem isupper_ne_underscore (c : Char) (h : isupper c = true) : c ≠ '_' := by
  intro e; subst e; revert h; decide

theorem hasAdjacentUnderscores_upperTail (l : List Char) :
    hasAdjacentUnderscores (upperTail l) = hasAdjacentUnderscores l := by
  induction l with
  | nil => rfl
  | cons c cs ih =>
    cases cs with
    | nil => simp [upperTail, hasAdjacentUnderscores]
    | cons d rest =>
      obtain ⟨t, ht⟩ := upperTail_cons_head d rest
      by_cases h : (islower c && isupper d) = true
      · have hc : c ≠ '_' := islower_ne_underscore c (by simp at h; exact h.1)
        have hd : d ≠ '_' := isupper_ne_underscore d (by simp at h; exact h.2)
        have hd' : toupper d ≠ '_' := toupper_ne_underscore d hd
        have hc' : toupper c ≠ '_' := toupper_ne_underscore c hc
        have e : upperTail (c :: d :: rest) = toupper c :: '_' :: upperTail (d :: rest) := by
          simp [upperTail, h]
        rw [e]
        simp only [hasAdjacentUnderscores]
        rw [ht] at ih ⊢
        simp only [hasAdjacentUnderscores]
        rw [ih]
        have b1 : (toupper c == '_') = false := by simpa using hc'
        have b2 : (toupper d == '_') = false := by simpa using hd'
        have b3 : (c == '_') = false := by simpa using hc
        simp [b1, b2, b3]
      · have e : upperTail (c :: d :: rest) = toupper c :: upperTail (d :: rest) := by
          simp [upperTail, h]
        rw [e, ht]
        simp only [hasAdjacentUnderscores]
        rw [← ht, ih]
        have b1 : (toupper c == '_') = (c == '_') := by
          rw [Bool.eq_iff_iff]; simp [toupper_eq_underscore]
        have b2 : (toupper d == '_') = (d == '_') := by
          rw [Bool.eq_iff_iff]; simp [toupper_eq_underscore]
        rw [b1, b2]

theorem tolower_injOn_not_islower (c d : Char) (hc : islower c = false)
    (hd : islower d = false) (h : tolower c = tolower d) : c = d := by
  have key : ∀ x, islower x = false → toupper (tolower x) = x := by
    intro x hx
    cases hu : isupper x
    · rw [tolower_of_not_isupper x hu, toupper_of_not_islower x hx]
    · refine upper_char_cases (fun x => toupper (tolower x) = x) ?_ x hu
      intro n h1 h2
      interval_cases n <;> decide
  rw [← key c hc, ← key d hd, h]

theorem MixedLower_data_of_no_underscore (word : String) (c : Char) (cs : List Char)
    (hw : word.data = c :: cs) (hus : '_' ∉ word.data) :
    (MixedLower word).data = tolower c :: cs := by
  rw [MixedLower_data, hw]
  have : '_' ∉ cs := fun e => hus (hw ▸ List.mem_cons_of_mem _ e)
  simp [charAt, mixedTail_of_no_underscore _ this]

theorem MixedLower_injOn (a b : String) (ha : a ≠ "") (hb : b ≠ "")
    (hua : '_' ∉ a.data) (hub : '_' ∉ b.data)
    (hcase : (isupper (charAt a.data 0) = false ∧ isupper (charAt b.data 0) = false)
      ∨ (islower (charAt a.data 0) = false ∧ islower (charAt b.data 0) = false))
    (e : MixedLower a = MixedLower b) : a = b := by
  obtain ⟨c, cs, hcs⟩ := List.exists_cons_of_ne_nil (fun h => ha (String.ext h))
  obtain ⟨d, ds, hds⟩ := List.exists_cons_of_ne_nil (fun h => hb (String.ext h))
  have e' := congrArg String.data e
  rw [MixedLower_data_of_no_underscore a c cs hcs hua,
    MixedLower_data_of_no_underscore b d ds hds hub] at e'
  obtain ⟨e1, e2⟩ := List.cons.inj e'
  rw [hcs, hds] at hcase
  simp only [charAt, List.getD_cons_zero] at hcase
  apply String.ext
  rw [hcs, hds, e2]
  congr 1
  rcases hcase with ⟨h1, h2⟩ | ⟨h1, h2⟩
  · rwa [tolower_of_not_isupper c h1, tolower_of_not_isupper d h2] at e1
  · exact tolower_injOn_not_islower c d h1 h2 e1

theorem upperTail_length_ge (l : List Char) : l.length ≤ (upperTail l).length := by
  rw [upperTail_eq_spec, screamingSnakeSpec_length]
  omega

theorem upperTail_filter_underscore (l : List Char) :
    (upperTail l).filter (fun c => c != '_') = (l.filter (fun c => c != '_')).map toupper := by
  have step : ∀ (c : Char) (t : List Char),
      (toupper c :: t).filter (fun c => c != '_')
        = ([c].filter (fun c => c != '_')).map toupper ++ t.filter (fun c => c != '_') := by
    intro c t
    by_cases h : c = '_'
    · subst h; rfl
    · have h' : toupper c ≠ '_' := fun e => h ((toupper_eq_underscore c).1 e)
      simp [List.filter_cons, h, h']
  induction l with
  | nil => rfl
  | cons c rest ih =>
    cases rest with
    | nil =>
      rw [upperTail, step]
      exact List.append_nil _
    | cons d rest =>
      have hc : (c :: d :: rest).filter (fun c => c != '_')
          = [c].filter (fun c => c != '_') ++ (d :: rest).filter (fun c => c != '_') := by
        rw [← List.filter_append]; rfl
      rw [upperTail, hc, List.map_append, ← ih]
      split
      · rw [step]
        congr 1
      · rw [step]

/-- Names that differ when letter case and underscores are ignored are told apart
by `ToAllUpperCase`. -/
theorem ToAllUpperCase_foldName (a b : String)
    (e : ToAllUpperCase a = ToAllUpperCase b) : foldName a = foldName b := by
  have e' := congrArg String.data e
  rw [ToAllUpperCase_data, ToAllUpperCase_data] at e'
  unfold foldName
  rw [← upperTail_filter_underscore, ← upperTail_filter_underscore, e']

/-! ## Reading the output of `PrintServer` -/

set_option maxRecDepth 100000

theorem lookup_overlay (keys : List String) (f : String → String) (base : Vars) (k : String) :
    List.lookup k (keys.map (fun a => (a, f a)) ++ base)
      = if k ∈ keys then some (f k) else List.lookup k base := by
  induction keys with
  | nil => simp
  | cons a as ih =>
    by_cases h : k = a
    · subst h; simp [List.lookup]
    · have hb : (k == a) = false := by simpa using h
      simp [List.lookup, hb, h, ih]

theorem Vars.overlay_get (keys : List String) (v base : Vars)
    (h : Vars.AgreeOff keys v base) (k : String) :
    (Vars.overlay keys v base).get k = v.get k := by
  unfold Vars.overlay
  rw [Vars.get, lookup_overlay]
  by_cases hk : k ∈ keys
  · simp [hk]
  · rw [if_neg hk]; exact (h k hk).symm

theorem Print_overlay (keys : List String) (v base : Vars)
    (h : Vars.AgreeOff keys v base) (t : String) :
    Print v t = Print (Vars.overlay keys v base) t :=
  Print_congr _ _ (fun k => (Vars.overlay_get keys v base h k).symm) t

theorem Vars.AgreeOff.set (keys : List String) (v base : Vars) (k x : String)
    (hk : k ∈ keys) (h : Vars.AgreeOff keys v base) : Vars.AgreeOff keys (v.set k x) base := by
  intro k' hk'
  rw [Vars.get_set]
  have : k' ≠ k := fun e => hk' (e ▸ hk)
  rw [if_neg this]
  exact h k' hk'

theorem startVars_service_name (service : ServiceDescriptor) :
    (PrintServer.startVars service).get "service_name" = service.name := by
  simp [PrintServer.startVars, PrintServer.initVars, Vars.get_set]

theorem agree_service_name (service : ServiceDescriptor) (u : Vars)
    (h : Vars.AgreeOff PrintServer.loopKeys u (PrintServer.startVars service)) :
    u.get "service_name" = service.name := by
  rw [h "service_name" (by decide), startVars_service_name]

/-- What a filter keeps of the output of a loop, when the body keeps an invariant
of the variables and the filter keeps `f m` of what the body prints for `m`. -/
theorem forEachMethod_filter (body : MethodDescriptor → Vars → Vars × List Emitted)
    (p : Emitted → Bool) (I : Vars → Prop) (f : MethodDescriptor → List Emitted)
    (hI : ∀ m u, I u → I (body m u).1)
    (hp : ∀ m u, I u → (body m u).2.filter p = f m)
    (ms : List MethodDescriptor) (u : Vars) (hu : I u) :
    (forEachMethod body ms u).2.filter p = ms.flatMap f ∧ I (forEachMethod body ms u).1 := by
  induction ms generalizing u with
  | nil => exact ⟨rfl, hu⟩
  | cons m ms ih =>
    obtain ⟨h1, h2⟩ := ih (body m u).1 (hI m u hu)
    refine ⟨?_, h2⟩
    simp only [forEachMethod, List.filter_append, List.flatMap_cons, hp m u hu, h1]

theorem flatMap_singleton_map (ms : List MethodDescriptor) (g : MethodDescriptor → Emitted) :
    ms.flatMap (fun m => [g m]) = ms.map g := by
  induction ms with
  | nil => rfl
  | cons m ms ih => simp [List.flatMap_cons, ih]

theorem flatMap_nil_const (ms : List MethodDescriptor) :
    ms.flatMap (fun _ => ([] : List Emitted)) = [] := by
  induction ms with
  | nil => rfl
  | cons m ms ih => simp [List.flatMap_cons, ih]

theorem caseBody_keeps (service : ServiceDescriptor) (returnLine : String)
    (m : MethodDescriptor) (u : Vars)
    (h : Vars.AgreeOff PrintServer.loopKeys u (PrintServer.startVars service)) :
    Vars.AgreeOff PrintServer.loopKeys (PrintServer.caseBody returnLine m u).1
      (PrintServer.startVars service) := by
  unfold PrintServer.caseBody
  exact Vars.AgreeOff.set _ _ _ _ _ (by decide)
    (Vars.AgreeOff.set _ _ _ _ _ (by decide) (Vars.AgreeOff.set _ _ _ _ _ (by decide) h))

theorem case_label_print (service : ServiceDescriptor) (m : MethodDescriptor) (u : Vars)
    (h : u.get "service_name" = service.name) :
    Print (((u.set "input_type" m.input_type).set "method_name" m.name).set
        "route_field_name" (RouteFieldName m)) "case $service_name$.$route_field_name$: \x7b\n"
      = caseLabel service m := by
  unfold Print caseLabel
  apply Emitted.text_congr
  rw [← h]
  simp [Printer.expand, Vars.get, Vars.set, List.lookup, String.data_append]

theorem caseBody_cases (service : ServiceDescriptor) (returnLine : String)
    (hrl : ∀ w, Emitted.isCase (Print w returnLine) = false)
    (m : MethodDescriptor) (u : Vars)
    (h : Vars.AgreeOff PrintServer.loopKeys u (PrintServer.startVars service)) :
    (PrintServer.caseBody returnLine m u).2.filter Emitted.isCase = [caseLabel service m] := by
  have e1 : ∀ w, Emitted.isCase (Print w "case $service_name$.$route_field_name$: \x7b\n")
      = true := fun _ => rfl
  have e2 : Emitted.isCase .indent = false := rfl
  have e3 : Emitted.isCase .outdent = false := rfl
  have e4 : Emitted.isCase (PrintText "\x7d\n") = false := rfl
  simp only [PrintServer.caseBody, List.filter_cons, e1, e2, e3, e4, hrl, if_true,
    Bool.false_eq_true, if_false, List.filter_nil]
  rw [case_label_print service m u (agree_service_name service u h)]

theorem caseBody_puts (returnLine : String)
    (hrl : ∀ w, Emitted.isPut (Print w returnLine) = false)
    (m : MethodDescriptor) (u : Vars) :
    (PrintServer.caseBody returnLine m u).2.filter Emitted.isPut = [] := by
  have e1 : ∀ w, Emitted.isPut (Print w "case $service_name$.$route_field_name$: \x7b\n")
      = false := fun _ => rfl
  have e2 : Emitted.isPut .indent = false := rfl
  have e3 : Emitted.isPut .outdent = false := rfl
  have e4 : Emitted.isPut (PrintText "\x7d\n") = false := rfl
  simp only [PrintServer.caseBody, List.filter_cons, e1, e2, e3, e4, hrl,
    Bool.false_eq_true, if_false, List.filter_nil]

/-- The loop of a dispatch switch prints one `case` for each method of its bucket,
in the order of the bucket, and no `put`. -/
theorem caseLoop_labels (service : ServiceDescriptor) (returnLine : String)
    (hc : ∀ w, Emitted.isCase (Print w returnLine) = false)
    (hp : ∀ w, Emitted.isPut (Print w returnLine) = false)
    (bucket : List MethodDescriptor) (u : Vars)
    (h : Vars.AgreeOff PrintServer.loopKeys u (PrintServer.startVars service)) :
    (forEachMethod (PrintServer.caseBody returnLine) bucket u).2.filter Emitted.isCase
        = bucket.map (caseLabel service)
    ∧ (forEachMethod (PrintServer.caseBody returnLine) bucket u).2.filter Emitted.isPut = []
    ∧ Vars.AgreeOff PrintServer.loopKeys
        (forEachMethod (PrintServer.caseBody returnLine) bucket u).1
        (PrintServer.startVars service) := by
  obtain ⟨a1, a2⟩ := forEachMethod_filter (PrintServer.caseBody returnLine) Emitted.isCase
    (fun u => Vars.AgreeOff PrintServer.loopKeys u (PrintServer.startVars service))
    (fun m => [caseLabel service m])
    (fun m u hu => caseBody_keeps service returnLine m u hu)
    (fun m u hu => caseBody_cases service returnLine hc m u hu) bucket u h
  obtain ⟨b1, _⟩ := forEachMethod_filter (PrintServer.caseBody returnLine) Emitted.isPut
    (fun _ => True) (fun _ => []) (fun _ _ _ => trivial)
    (fun m u _ => caseBody_puts returnLine hp m u) bucket u trivial
  refine ⟨?_, ?_, a2⟩
  · rw [a1, flatMap_singleton_map]
  · rw [b1, flatMap_nil_const]

theorem doDecodeAndHandleFireAndForget_labels (service : ServiceDescriptor)
    (bucket : List MethodDescriptor) (u : Vars)
    (h : Vars.AgreeOff PrintServer.loopKeys u (PrintServer.startVars service)) :
    (PrintServer.doDecodeAndHandleFireAndForget bucket u).2.filter Emitted.isCase
        = bucket.map (caseLabel service)
    ∧ (PrintServer.doDecodeAndHandleFireAndForget bucket u).2.filter Emitted.isPut = []
    ∧ Vars.AgreeOff PrintServer.loopKeys
        (PrintServer.doDecodeAndHandleFireAndForget bucket u).1
        (PrintServer.startVars service) := by
  obtain ⟨l1, l2, l3⟩ := caseLoop_labels service
    "return this.do$method_name$FireAndForget(data, metadata, spanContext);\n"
    (fun _ => rfl) (fun _ => rfl) bucket u h
  have hP := Print_overlay _ _ _ h
  have hP' := Print_overlay _ _ _ l3
  refine ⟨?_, ?_, l3⟩
  · simp only [PrintServer.doDecodeAndHandleFireAndForget, List.filter_append, l1, hP, hP']
    show ([] : List Emitted) ++ _ ++ [] = _
    simp
  · simp only [PrintServer.doDecodeAndHandleFireAndForget, List.filter_append, l2, hP, hP']
    rfl

theorem doDecodeAndHandleRequestResponse_labels (service : ServiceDescriptor)
    (bucket : List MethodDescriptor) (u : Vars)
    (h : Vars.AgreeOff PrintServer.loopKeys u (PrintServer.startVars service)) :
    (PrintServer.doDecodeAndHandleRequestResponse bucket u).2.filter Emitted.isCase
        = bucket.map (caseLabel service)
    ∧ (PrintServer.doDecodeAndHandleRequestResponse bucket u).2.filter Emitted.isPut = []
    ∧ Vars.AgreeOff PrintServer.loopKeys
        (PrintServer.doDecodeAndHandleRequestResponse bucket u).1
        (PrintServer.startVars service) := by
  obtain ⟨l1, l2, l3⟩ := caseLoop_labels service
    "return this.do$method_name$RequestResponse(data, metadata, spanContext);\n"
    (fun _ => rfl) (fun _ => rfl) bucket u h
  have hP := Print_overlay _ _ _ h
  have hP' := Print_overlay _ _ _ l3
  refine ⟨?_, ?_, l3⟩
  · simp only [PrintServer.doDecodeAndHandleRequestResponse, List.filter_append, l1, hP, hP']
    show ([] : List Emitted) ++ _ ++ [] = _
    simp
  · simp only [PrintServer.doDecodeAndHandleRequestResponse, List.filter_append, l2, hP, hP']
    rfl

theorem doDecodeAndHandleRequestStream_labels (service : ServiceDescriptor)
    (bucket : List MethodDescriptor) (u : Vars)
    (h : Vars.AgreeOff PrintServer.loopKeys u (PrintServer.startVars service)) :
    (PrintServer.doDecodeAndHandleRequestStream bucket u).2.filter Emitted.isCase
        = bucket.map (caseLabel service)
    ∧ (PrintServer.doDecodeAndHandleRequestStream bucket u).2.filter Emitted.isPut = []
    ∧ Vars.AgreeOff PrintServer.loopKeys
        (PrintServer.doDecodeAndHandleRequestStream bucket u).1
        (PrintServer.startVars service) := by
  obtain ⟨l1, l2, l3⟩ := caseLoop_labels service
    "return this.do$method_name$RequestStream(data, metadata, spanContext);\n"
    (fun _ => rfl) (fun _ => rfl) bucket u h
  have hP := Print_overlay _ _ _ h
  have hP' := Print_overlay _ _ _ l3
  refine ⟨?_, ?_, l3⟩
  · simp only [PrintServer.doDecodeAndHandleRequestStream, List.filter_append, l1, hP, hP']
    show ([] : List Emitted) ++ _ ++ [] = _
    simp
  · simp only [PrintServer.doDecodeAndHandleRequestStream, List.filter_append, l2, hP, hP']
    rfl

theorem requestChannel_labels (service : ServiceDescriptor)
    (bucket : List MethodDescriptor) (u : Vars)
    (h : Vars.AgreeOff PrintServer.loopKeys u (PrintServer.startVars service)) :
    (PrintServer.requestChannel bucket u).2.filter Emitted.isCase
        = bucket.map (caseLabel service)
    ∧ (PrintServer.requestChannel bucket u).2.filter Emitted.isPut = []
    ∧ Vars.AgreeOff PrintServer.loopKeys (PrintServer.requestChannel bucket u).1
        (PrintServer.startVars service) := by
  have hP := Print_overlay _ _ _ h
  cases bucket with
  | nil =>
    refine ⟨?_, ?_, h⟩
    · simp only [PrintServer.requestChannel, hP]; rfl
    · simp only [PrintServer.requestChannel, hP]; rfl
  | cons m ms =>
    obtain ⟨l1, l2, l3⟩ := caseLoop_labels service
      "return this.do$method_name$RequestChannel($Flux$.from(payloads), data, metadata, spanContext);\n"
      (fun _ => rfl) (fun _ => rfl) (m :: ms) u h
    have hP' := Print_overlay _ _ _ l3
    have hne : (m :: ms).isEmpty = false := rfl
    refine ⟨?_, ?_, ?_⟩
    · simp only [PrintServer.requestChannel, hne, Bool.false_eq_true, if_false,
        List.filter_append, l1, hP, hP']
      show ([] : List Emitted) ++ [] ++ _ ++ [] ++ [] = _
      simp
    · simp only [PrintServer.requestChannel, hne, Bool.false_eq_true, if_false,
        List.filter_append, l2, hP, hP']
      rfl
    · simp only [PrintServer.requestChannel, hne, Bool.false_eq_true, if_false]
      exact l3

theorem fireAndForget_no_labels (service : ServiceDescriptor)
    (bucket : List MethodDescriptor) (u : Vars)
    (h : Vars.AgreeOff PrintServer.loopKeys u (PrintServer.startVars service)) :
    (PrintServer.fireAndForget bucket u).filter Emitted.isCase = []
    ∧ (PrintServer.fireAndForget bucket u).filter Emitted.isPut = [] := by
  have hP := Print_overlay _ _ _ h
  constructor <;> cases bucket <;> simp only [PrintServer.fireAndForget, hP] <;> rfl

theorem requestResponse_no_labels (service : ServiceDescriptor)
    (bucket : List MethodDescriptor) (u : Vars)
    (h : Vars.AgreeOff PrintServer.loopKeys u (PrintServer.startVars service)) :
    (PrintServer.requestResponse bucket u).filter Emitted.isCase = []
    ∧ (PrintServer.requestResponse bucket u).filter Emitted.isPut = [] := by
  have hP := Print_overlay _ _ _ h
  constructor <;> cases bucket <;> simp only [PrintServer.requestResponse, hP] <;> rfl

theorem requestStream_no_labels (service : ServiceDescriptor)
    (bucket : List MethodDescriptor) (u : Vars)
    (h : Vars.AgreeOff PrintServer.loopKeys u (PrintServer.startVars service)) :
    (PrintServer.requestStream bucket u).filter Emitted.isCase = []
    ∧ (PrintServer.requestStream bucket u).filter Emitted.isPut = [] := by
  have hP := Print_overlay _ _ _ h
  constructor <;> cases bucket <;> simp only [PrintServer.requestStream, hP] <;> rfl

theorem requestChannelPayloads_no_labels (service : ServiceDescriptor)
    (bucket : List MethodDescriptor) (u : Vars)
    (h : Vars.AgreeOff PrintServer.loopKeys u (PrintServer.startVars service)) :
    (PrintServer.requestChannelPayloads bucket u).filter Emitted.isCase = []
    ∧ (PrintServer.requestChannelPayloads bucket u).filter Emitted.isPut = [] := by
  have hP := Print_overlay _ _ _ h
  constructor <;> cases bucket <;> simp only [PrintServer.requestChannelPayloads, hP] <;> rfl

theorem handler_vars_keep (service : ServiceDescriptor) (m : MethodDescriptor) (u : Vars)
    (h : Vars.AgreeOff PrintServer.loopKeys u (PrintServer.startVars service)) :
    Vars.AgreeOff PrintServer.loopKeys
      ((((u.set "input_type" m.input_type).set "output_type" m.output_type).set
        "method_name" m.name).set "lower_method_name" (LowerMethodName m))
      (PrintServer.startVars service) :=
  Vars.AgreeOff.set _ _ _ _ _ (by decide)
    (Vars.AgreeOff.set _ _ _ _ _ (by decide)
      (Vars.AgreeOff.set _ _ _ _ _ (by decide) (Vars.AgreeOff.set _ _ _ _ _ (by decide) h)))

theorem fireAndForgetHandler_no_labels (service : ServiceDescriptor)
    (m : MethodDescriptor) (u : Vars)
    (h : Vars.AgreeOff PrintServer.loopKeys u (PrintServer.startVars service)) :
    (PrintServer.fireAndForgetHandler m u).2.filter Emitted.isCase = []
    ∧ (PrintServer.fireAndForgetHandler m u).2.filter Emitted.isPut = []
    ∧ Vars.AgreeOff PrintServer.loopKeys (PrintServer.fireAndForgetHandler m u).1
        (PrintServer.startVars service) := by
  have hw := handler_vars_keep service m u h
  have hP := Print_overlay _ _ _ hw
  refine ⟨?_, ?_, hw⟩
  · simp only [PrintServer.fireAndForgetHandler, hP]; rfl
  · simp only [PrintServer.fireAndForgetHandler, hP]; rfl

theorem requestResponseHandler_no_labels (service : ServiceDescriptor)
    (m : MethodDescriptor) (u : Vars)
    (h : Vars.AgreeOff PrintServer.loopKeys u (PrintServer.startVars service)) :
    (PrintServer.requestResponseHandler m u).2.filter Emitted.isCase = []
    ∧ (PrintServer.requestResponseHandler m u).2.filter Emitted.isPut = []
    ∧ Vars.AgreeOff PrintServer.loopKeys (PrintServer.requestResponseHandler m u).1
        (PrintServer.startVars service) := by
  have hw := handler_vars_keep service m u h
  have hP := Print_overlay _ _ _ hw
  refine ⟨?_, ?_, hw⟩
  · simp only [PrintServer.requestResponseHandler, hP]; rfl
  · simp only [PrintServer.requestResponseHandler, hP]; rfl

theorem requestStreamHandler_no_labels (service : ServiceDescriptor)
    (m : MethodDescriptor) (u : Vars)
    (h : Vars.AgreeOff PrintServer.loopKeys u (PrintServer.startVars service)) :
    (PrintServer.requestStreamHandler m u).2.filter Emitted.isCase = []
    ∧ (PrintServer.requestStreamHandler m u).2.filter Emitted.isPut = []
    ∧ Vars.AgreeOff PrintServer.loopKeys (PrintServer.requestStreamHandler m u).1
        (PrintServer.startVars service) := by
  have hw := handler_vars_keep service m u h
  have hP := Print_overlay _ _ _ hw
  refine ⟨?_, ?_, hw⟩
  · simp only [PrintServer.requestStreamHandler, hP]; rfl
  · simp only [PrintServer.requestStreamHandler, hP]; rfl

theorem requestChannelHandler_no_labels (service : ServiceDescriptor)
    (m : MethodDescriptor) (u : Vars)
    (h : Vars.AgreeOff PrintServer.loopKeys u (PrintServer.startVars service)) :
    (PrintServer.requestChannelHandler m u).2.filter Emitted.isCase = []
    ∧ (PrintServer.requestChannelHandler m u).2.filter Emitted.isPut = []
    ∧ Vars.AgreeOff PrintServer.loopKeys (PrintServer.requestChannelHandler m u).1
        (PrintServer.startVars service) := by
  have hw := handler_vars_keep service m u h
  have hP := Print_overlay _ _ _ hw
  refine ⟨?_, ?_, hw⟩
  · cases hs : m.server_streaming <;>
      simp only [PrintServer.requestChannelHandler, hP, hs, Bool.false_eq_true, if_false,
        if_true] <;> rfl
  · cases hs : m.server_streaming <;>
      simp only [PrintServer.requestChannelHandler, hP, hs, Bool.false_eq_true, if_false,
        if_true] <;> rfl

/-- A loop over handlers prints neither a `case` nor a `put`. -/
theorem handlerLoop_no_labels (service : ServiceDescriptor)
    (body : MethodDescriptor → Vars → Vars × List Emitted)
    (hb : ∀ m u, Vars.AgreeOff PrintServer.loopKeys u (PrintServer.startVars service) →
      (body m u).2.filter Emitted.isCase = [] ∧ (body m u).2.filter Emitted.isPut = []
      ∧ Vars.AgreeOff PrintServer.loopKeys (body m u).1 (PrintServer.startVars service))
    (bucket : List MethodDescriptor) (u : Vars)
    (h : Vars.AgreeOff PrintServer.loopKeys u (PrintServer.startVars service)) :
    (forEachMethod body bucket u).2.filter Emitted.isCase = []
    ∧ (forEachMethod body bucket u).2.filter Emitted.isPut = []
    ∧ Vars.AgreeOff PrintServer.loopKeys (forEachMethod body bucket u).1
        (PrintServer.startVars service) := by
  obtain ⟨a1, a2⟩ := forEachMethod_filter body Emitted.isCase
    (fun u => Vars.AgreeOff PrintServer.loopKeys u (PrintServer.startVars service))
    (fun _ => []) (fun m u hu => (hb m u hu).2.2) (fun m u hu => (hb m u hu).1) bucket u h
  obtain ⟨b1, _⟩ := forEachMethod_filter body Emitted.isPut
    (fun u => Vars.AgreeOff PrintServer.loopKeys u (PrintServer.startVars service))
    (fun _ => []) (fun m u hu => (hb m u hu).2.2) (fun m u hu => (hb m u hu).2.1) bucket u h
  exact ⟨by rw [a1, flatMap_nil_const], by rw [b1, flatMap_nil_const], a2⟩

theorem registerBody_keeps (service : ServiceDescriptor) (putText : String)
    (m : MethodDescriptor) (u : Vars)
    (h : Vars.AgreeOff PrintServer.loopKeys u (PrintServer.startVars service)) :
    Vars.AgreeOff PrintServer.loopKeys (PrintServer.registerBody putText m u).1
      (PrintServer.startVars service) := by
  unfold PrintServer.registerBody
  exact Vars.AgreeOff.set _ _ _ _ _ (by decide) (Vars.AgreeOff.set _ _ _ _ _ (by decide) h)

/-- A loop of `selfRegister` prints one `put` for each method of its bucket, in the
order of the bucket, and no `case`. -/
theorem registerLoop_labels (service : ServiceDescriptor) (putText : String)
    (s : InteractionSemantic)
    (hput : ∀ (m : MethodDescriptor) (u : Vars), u.get "service_name" = service.name →
      Print ((u.set "method_name" m.name).set "route_field_name" (RouteFieldName m)) putText
        = putLine service s m)
    (hp : ∀ w, Emitted.isPut (Print w putText) = true)
    (hc : ∀ w, Emitted.isCase (Print w putText) = false)
    (bucket : List MethodDescriptor) (u : Vars)
    (h : Vars.AgreeOff PrintServer.loopKeys u (PrintServer.startVars service)) :
    (forEachMethod (PrintServer.registerBody putText) bucket u).2.filter Emitted.isPut
        = bucket.map (putLine service s)
    ∧ (forEachMethod (PrintServer.registerBody putText) bucket u).2.filter Emitted.isCase = []
    ∧ Vars.AgreeOff PrintServer.loopKeys
        (forEachMethod (PrintServer.registerBody putText) bucket u).1
        (PrintServer.startVars service) := by
  obtain ⟨a1, a2⟩ := forEachMethod_filter (PrintServer.registerBody putText) Emitted.isPut
    (fun u => Vars.AgreeOff PrintServer.loopKeys u (PrintServer.startVars service))
    (fun m => [putLine service s m])
    (fun m u hu => registerBody_keeps service putText m u hu)
    (fun m u hu => by
      simp only [PrintServer.registerBody, List.filter_cons, hp, if_true, List.filter_nil]
      rw [hput m u (agree_service_name service u hu)]) bucket u h
  obtain ⟨b1, _⟩ := forEachMethod_filter (PrintServer.registerBody putText) Emitted.isCase
    (fun _ => True) (fun _ => []) (fun _ _ _ => trivial)
    (fun m u _ => by
      simp only [PrintServer.registerBody, List.filter_cons, hc, Bool.false_eq_true, if_false,
        List.filter_nil]) bucket u trivial
  exact ⟨by rw [a1, flatMap_singleton_map], by rw [b1, flatMap_nil_const], a2⟩

theorem put_print_fireAndForget (service : ServiceDescriptor) (m : MethodDescriptor)
    (u : Vars) (h : u.get "service_name" = service.name) :
    Print ((u.set "method_name" m.name).set "route_field_name" (RouteFieldName m))
        "fireAndForgetRegistry.put($service_name$.$route_field_name$, this::do$method_name$FireAndForget);\n"
      = putLine service .OneWay m := by
  unfold Print putLine
  apply Emitted.text_congr
  rw [← h]
  simp [Printer.expand, Vars.get, Vars.set, List.lookup, String.data_append, registryName,
    handlerSuffix]

theorem put_print_requestResponse (service : ServiceDescriptor) (m : MethodDescriptor)
    (u : Vars) (h : u.get "service_name" = service.name) :
    Print ((u.set "method_name" m.name).set "route_field_name" (RouteFieldName m))
        "requestResponseRegistry.put($service_name$.$route_field_name$, this::do$method_name$RequestResponse);\n"
      = putLine service .UnarySingleResponse m := by
  unfold Print putLine
  apply Emitted.text_congr
  rw [← h]
  simp [Printer.expand, Vars.get, Vars.set, List.lookup, String.data_append, registryName,
    handlerSuffix]

theorem put_print_requestStream (service : ServiceDescriptor) (m : MethodDescriptor)
    (u : Vars) (h : u.get "service_name" = service.name) :
    Print ((u.set "method_name" m.name).set "route_field_name" (RouteFieldName m))
        "requestStreamRegistry.put($service_name$.$route_field_name$, this::do$method_name$RequestStream);\n"
      = putLine service .ServerStream m := by
  unfold Print putLine
  apply Emitted.text_congr
  rw [← h]
  simp [Printer.expand, Vars.get, Vars.set, List.lookup, String.data_append, registryName,
    handlerSuffix]

theorem put_print_requestChannel (service : ServiceDescriptor) (m : MethodDescriptor)
    (u : Vars) (h : u.get "service_name" = service.name) :
    Print ((u.set "method_name" m.name).set "route_field_name" (RouteFieldName m))
        "requestChannelRegistry.put($service_name$.$route_field_name$, this::do$method_name$RequestChannel);\n"
      = putLine service .ClientOrBidiStream m := by
  unfold Print putLine
  apply Emitted.text_congr
  rw [← h]
  simp [Printer.expand, Vars.get, Vars.set, List.lookup, String.data_append, registryName,
    handlerSuffix]

theorem selfRegister_labels (service : ServiceDescriptor) (b : Buckets) (u : Vars)
    (h : Vars.AgreeOff PrintServer.loopKeys u (PrintServer.startVars service)) :
    (PrintServer.selfRegister b u).2.filter Emitted.isPut
        = b.fire_and_forget.map (putLine service .OneWay)
          ++ b.request_response.map (putLine service .UnarySingleResponse)
          ++ b.request_stream.map (putLine service .ServerStream)
          ++ b.request_channel.map (putLine service .ClientOrBidiStream)
    ∧ (PrintServer.selfRegister b u).2.filter Emitted.isCase = [] := by
  obtain ⟨p1, c1, a1⟩ := registerLoop_labels service
    "fireAndForgetRegistry.put($service_name$.$route_field_name$, this::do$method_name$FireAndForget);\n"
    .OneWay (put_print_fireAndForget service) (fun _ => rfl) (fun _ => rfl) b.fire_and_forget u h
  obtain ⟨p2, c2, a2⟩ := registerLoop_labels service
    "requestResponseRegistry.put($service_name$.$route_field_name$, this::do$method_name$RequestResponse);\n"
    .UnarySingleResponse (put_print_requestResponse service) (fun _ => rfl) (fun _ => rfl) b.request_response _ a1
  obtain ⟨p3, c3, a3⟩ := registerLoop_labels service
    "requestStreamRegistry.put($service_name$.$route_field_name$, this::do$method_name$RequestStream);\n"
    .ServerStream (put_print_requestStream service) (fun _ => rfl) (fun _ => rfl) b.request_stream _ a2
  obtain ⟨p4, c4, _⟩ := registerLoop_labels service
    "requestChannelRegistry.put($service_name$.$route_field_name$, this::do$method_name$RequestChannel);\n"
    .ClientOrBidiStream (put_print_requestChannel service) (fun _ => rfl) (fun _ => rfl) b.request_channel _ a3
  have hP := Print_overlay _ _ _ h
  constructor
  · simp only [PrintServer.selfRegister, List.filter_append, p1, p2, p3, p4, hP]
    show ([] : List Emitted) ++ _ ++ _ ++ _ ++ _ ++ [] = _
    simp
  · simp only [PrintServer.selfRegister, List.filter_append, c1, c2, c3, c4, hP]
    rfl

/-- The whole dispatch part of the server stub has one `case` and one `put` for
each method: the cases of the four switches one bucket after the other, and the
registrations likewise. -/
theorem interactions_labels (service : ServiceDescriptor) (u : Vars)
    (h0 : Vars.AgreeOff PrintServer.loopKeys u (PrintServer.startVars service)) :
    (PrintServer.interactions service.methods u).2.filter
        Emitted.isCase
      = (buildBuckets service.methods).fire_and_forget.map (caseLabel service)
        ++ (buildBuckets service.methods).request_response.map (caseLabel service)
        ++ (buildBuckets service.methods).request_stream.map (caseLabel service)
        ++ (buildBuckets service.methods).request_channel.map (caseLabel service)
    ∧ (PrintServer.interactions service.methods u).2.filter
        Emitted.isPut
      = (buildBuckets service.methods).fire_and_forget.map (putLine service .OneWay)
        ++ (buildBuckets service.methods).request_response.map
            (putLine service .UnarySingleResponse)
        ++ (buildBuckets service.methods).request_stream.map (putLine service .ServerStream)
        ++ (buildBuckets service.methods).request_channel.map
            (putLine service .ClientOrBidiStream) := by
  obtain ⟨e1c, e1p⟩ := fireAndForget_no_labels service
    (buildBuckets service.methods).fire_and_forget _ h0
  obtain ⟨s1c, s1p, a1⟩ := doDecodeAndHandleFireAndForget_labels service
    (buildBuckets service.methods).fire_and_forget _ h0
  obtain ⟨h1c, h1p, a2⟩ := handlerLoop_no_labels service PrintServer.fireAndForgetHandler
    (fireAndForgetHandler_no_labels service) (buildBuckets service.methods).fire_and_forget _ a1
  obtain ⟨e2c, e2p⟩ := requestResponse_no_labels service
    (buildBuckets service.methods).request_response _ a2
  obtain ⟨s2c, s2p, a3⟩ := doDecodeAndHandleRequestResponse_labels service
    (buildBuckets service.methods).request_response _ a2
  obtain ⟨h2c, h2p, a4⟩ := handlerLoop_no_labels service PrintServer.requestResponseHandler
    (requestResponseHandler_no_labels service)
    (buildBuckets service.methods).request_response _ a3
  obtain ⟨e3c, e3p⟩ := requestStream_no_labels service
    (buildBuckets service.methods).request_stream _ a4
  obtain ⟨s3c, s3p, a5⟩ := doDecodeAndHandleRequestStream_labels service
    (buildBuckets service.methods).request_stream _ a4
  obtain ⟨h3c, h3p, a6⟩ := handlerLoop_no_labels service PrintServer.requestStreamHandler
    (requestStreamHandler_no_labels service) (buildBuckets service.methods).request_stream _ a5
  obtain ⟨s4c, s4p, a7⟩ := requestChannel_labels service
    (buildBuckets service.methods).request_channel _ a6
  obtain ⟨e4c, e4p⟩ := requestChannelPayloads_no_labels service
    (buildBuckets service.methods).request_channel _ a7
  obtain ⟨h4c, h4p, a8⟩ := handlerLoop_no_labels service PrintServer.requestChannelHandler
    (requestChannelHandler_no_labels service)
    (buildBuckets service.methods).request_channel _ a7
  obtain ⟨rp, rc⟩ := selfRegister_labels service (buildBuckets service.methods) _ a8
  constructor
  · simp only [PrintServer.interactions, List.filter_append, e1c, s1c, h1c, e2c, s2c, h2c,
      e3c, s3c, h3c, s4c, e4c, h4c, rc, List.append_nil, List.nil_append]
  · simp only [PrintServer.interactions, List.filter_append, e1p, s1p, h1p, e2p, s2p, h2p,
      e3p, s3p, h3p, s4p, e4p, h4p, rp, List.append_nil, List.nil_append, List.append_assoc]

theorem metricsFieldBody_agree (m : MethodDescriptor) (v v₀ : Vars)
    (h : Vars.AgreeOff ["lower_method_name"] v v₀) :
    (PrintServer.metricsFieldBody m v).2 = (PrintServer.metricsFieldBody m v₀).2
    ∧ Vars.AgreeOff ["lower_method_name"] (PrintServer.metricsFieldBody m v).1 v₀ := by
  have key : ∀ k, (v.set "lower_method_name" (LowerMethodName m)).get k
      = (v₀.set "lower_method_name" (LowerMethodName m)).get k := by
    intro k
    simp only [Vars.get_set]
    split
    · rfl
    · apply h; simp [*]
  refine ⟨?_, ?_⟩
  · simp only [PrintServer.metricsFieldBody, Print_congr _ _ key]
  · intro k hk
    simp only [List.mem_singleton] at hk
    simp only [PrintServer.metricsFieldBody, Vars.get_set, hk, if_false]
    apply h; simp [hk]

theorem metricsIdentityBody_agree (m : MethodDescriptor) (v v₀ : Vars)
    (h : Vars.AgreeOff ["lower_method_name"] v v₀) :
    (PrintServer.metricsIdentityBody m v).2 = (PrintServer.metricsIdentityBody m v₀).2
    ∧ Vars.AgreeOff ["lower_method_name"] (PrintServer.metricsIdentityBody m v).1 v₀ := by
  have key : ∀ k, (v.set "lower_method_name" (LowerMethodName m)).get k
      = (v₀.set "lower_method_name" (LowerMethodName m)).get k := by
    intro k
    simp only [Vars.get_set]
    split
    · rfl
    · apply h; simp [*]
  refine ⟨?_, ?_⟩
  · simp only [PrintServer.metricsIdentityBody, Print_congr _ _ key]
  · intro k hk
    simp only [List.mem_singleton] at hk
    simp only [PrintServer.metricsIdentityBody, Vars.get_set, hk, if_false]
    apply h; simp [hk]

theorem metricsTimedBody_agree (m : MethodDescriptor) (v v₀ : Vars)
    (h : Vars.AgreeOff ["lower_method_name", "method_field_name"] v v₀) :
    (PrintServer.metricsTimedBody m v).2 = (PrintServer.metricsTimedBody m v₀).2
    ∧ Vars.AgreeOff ["lower_method_name", "method_field_name"]
        (PrintServer.metricsTimedBody m v).1 v₀ := by
  have key : ∀ k,
      ((v.set "lower_method_name" (LowerMethodName m)).set "method_field_name"
        (MethodFieldName m)).get k
      = ((v₀.set "lower_method_name" (LowerMethodName m)).set "method_field_name"
        (MethodFieldName m)).get k := by
    intro k
    simp only [Vars.get_set]
    split
    · rfl
    · split
      · rfl
      · apply h; simp [*]
  refine ⟨?_, ?_⟩
  · simp only [PrintServer.metricsTimedBody, Print_congr _ _ key]
  · intro k hk
    simp only [List.mem_cons, List.mem_singleton, List.not_mem_nil, or_false, not_or] at hk
    simp only [PrintServer.metricsTimedBody, Vars.get_set, hk, if_false]
    apply h; simp [hk]

/-- The loop that declares the metrics fields prints one declaration for each
method, in declaration order. -/
theorem metricsFields_out (methods : List MethodDescriptor) (u : Vars) :
    (forEachMethod PrintServer.metricsFieldBody methods u).2
      = methods.map (fun m => Print (u.set "lower_method_name" (LowerMethodName m))
          (PrintServer.metricsFieldTemplate m)) := by
  rw [(forEachMethod_out _ _ metricsFieldBody_agree methods u u (Vars.AgreeOff.refl _ _)).1]
  exact flatMap_singleton_map methods _

/-- The two loops of the constructor print one assignment each for each method. -/
theorem metricsInit_out (methods : List MethodDescriptor) (u : Vars) :
    (PrintServer.metricsInit methods u).2
      = [Print u "if (!registry.isPresent()) \x7b\n", .indent]
        ++ methods.map (fun m => Print (u.set "lower_method_name" (LowerMethodName m))
            "this.$lower_method_name$ = $Function$.identity();\n")
        ++ [.outdent, .text "\x7d else \x7b\n", .indent]
        ++ methods.map (fun m =>
            Print ((u.set "lower_method_name" (LowerMethodName m)).set "method_field_name"
              (MethodFieldName m))
              "this.$lower_method_name$ = $RSocketRpcMetrics$.timed(registry.get(), \"rsocket.server\", \"service\", Blocking$service_name$.$service_id_name$, \"method\", Blocking$service_name$.$method_field_name$);\n")
        ++ [.outdent, PrintText "\x7d\n\n"] := by
  obtain ⟨e1, a1⟩ := forEachMethod_out _ _ metricsIdentityBody_agree methods u u
    (Vars.AgreeOff.refl _ _)
  have a1' : Vars.AgreeOff ["lower_method_name", "method_field_name"]
      (forEachMethod PrintServer.metricsIdentityBody methods u).1 u := by
    intro k hk
    apply a1
    simp only [List.mem_cons, List.mem_singleton, List.not_mem_nil, or_false, not_or] at hk
    simp [hk.1]
  obtain ⟨e2, _⟩ := forEachMethod_out _ _ metricsTimedBody_agree methods _ u a1'
  simp only [PrintServer.metricsInit, e1, e2]
  rw [show (fun m => (PrintServer.metricsIdentityBody m u).2)
      = (fun m => [Print (u.set "lower_method_name" (LowerMethodName m))
          "this.$lower_method_name$ = $Function$.identity();\n"]) from rfl,
    show (fun m => (PrintServer.metricsTimedBody m u).2)
      = (fun m => [Print ((u.set "lower_method_name" (LowerMethodName m)).set
          "method_field_name" (MethodFieldName m))
          "this.$lower_method_name$ = $RSocketRpcMetrics$.timed(registry.get(), \"rsocket.server\", \"service\", Blocking$service_name$.$service_id_name$, \"method\", Blocking$service_name$.$method_field_name$);\n"])
      from rfl,
    flatMap_singleton_map, flatMap_singleton_map]
  rfl

/-- The texts of a handler are the substituted handler texts of its semantic. -/
theorem handler_texts (s : InteractionSemantic) (m : MethodDescriptor) (u : Vars) :
    (PrintServer.handlerOf s m u).2.filter Emitted.isText
      = (PrintServer.handlerTemplates s m).map (Print (PrintServer.handlerOf s m u).1) := by
  cases s
  · rfl
  · rfl
  · rfl
  · cases hs : m.server_streaming <;>
      simp only [PrintServer.handlerOf, PrintServer.requestChannelHandler,
        PrintServer.handlerTemplates, hs, Bool.false_eq_true, if_false, if_true] <;> rfl

theorem decorator_table (s : InteractionSemantic) (ss : Bool) :
    (PrintServer.handlerTemplates s (methodWith true ss false)).any appliesMetrics
      = decide (s ≠ .OneWay) := by
  cases s <;> cases ss <;> decide

theorem handlerTemplates_flags (s : InteractionSemantic) (m : MethodDescriptor) :
    PrintServer.handlerTemplates s m
      = PrintServer.handlerTemplates s (methodWith true m.server_streaming false) := by
  cases s <;> rfl


theorem forEachMethod_keeps (body : MethodDescriptor → Vars → Vars × List Emitted)
    (I : Vars → Prop) (hI : ∀ m u, I u → I (body m u).1)
    (ms : List MethodDescriptor) (u : Vars) (hu : I u) : I (forEachMethod body ms u).1 := by
  induction ms generalizing u with
  | nil => exact hu
  | cons m ms ih => exact ih _ (hI m u hu)

/-- The loops before the bucket loop change the loop variables only. -/
theorem reachedVars_agree (service : ServiceDescriptor) :
    Vars.AgreeOff PrintServer.loopKeys (PrintServer.reachedVars service)
      (PrintServer.startVars service) := by
  unfold PrintServer.reachedVars PrintServer.metricsInit
  apply forEachMethod_keeps _
    (fun u => Vars.AgreeOff PrintServer.loopKeys u (PrintServer.startVars service))
  · intro m u hu
    exact Vars.AgreeOff.set _ _ _ _ _ (by decide) (Vars.AgreeOff.set _ _ _ _ _ (by decide) hu)
  apply forEachMethod_keeps _
    (fun u => Vars.AgreeOff PrintServer.loopKeys u (PrintServer.startVars service))
  · intro m u hu
    exact Vars.AgreeOff.set _ _ _ _ _ (by decide) hu
  apply forEachMethod_keeps _
    (fun u => Vars.AgreeOff PrintServer.loopKeys u (PrintServer.startVars service))
  · intro m u hu
    exact Vars.AgreeOff.set _ _ _ _ _ (by decide) hu
  exact Vars.AgreeOff.refl _ _

/-! ## Helper lemmas on `EscapeJavadoc` -/

theorem escapeJavadoc_loop_eq (input : List Char) (fuel i : Nat) (prev : Char)
    (result : List Char) (hf : input.length - i ≤ fuel) :
    EscapeJavadoc.loop input fuel i prev result
      = result ++ escapeTail prev (input.drop i) := by
  induction fuel generalizing i prev result with
  | zero =>
    have : input.length ≤ i := by omega
    simp [EscapeJavadoc.loop, List.drop_eq_nil_of_le this, escapeTail]
  | succ fuel ih =>
    unfold EscapeJavadoc.loop
    by_cases hi : i < input.length
    · rw [if_pos hi]
      simp only
      rw [ih _ _ _ (by omega), List.drop_eq_getElem_cons hi, charAt_eq_getElem input i hi]
      simp [escapeTail]
    · rw [if_neg hi]
      have : input.length ≤ i := by omega
      simp [List.drop_eq_nil_of_le this, escapeTail]

theorem EscapeJavadoc_data (input : String) :
    (EscapeJavadoc input).data = escapeTail '*' input.data := by
  unfold EscapeJavadoc
  simp only
  rw [escapeJavadoc_loop_eq _ _ _ _ _ (by omega)]
  simp

theorem containsText_pair (a b : Char) (l : List Char) :
    containsText [a, b] l = false ↔ List.Chain' (fun x y => ¬ (x = a ∧ y = b)) l := by
  induction l with
  | nil => simp [containsText, beginsWith]
  | cons x r ih =>
    cases r with
    | nil => simp [containsText, beginsWith]
    | cons y r =>
      rw [List.chain'_cons, ← ih]
      simp only [containsText, beginsWith, Bool.or_eq_false_iff, Bool.and_true]
      constructor
      · rintro ⟨h1, h2, h3⟩
        refine ⟨?_, h2, h3⟩
        rintro ⟨rfl, rfl⟩
        simp at h1
      · rintro ⟨h1, h2, h3⟩
        refine ⟨?_, h2, h3⟩
        by_cases hx : a = x
        · by_cases hy : b = y
          · exact absurd ⟨hx.symm, hy.symm⟩ h1
          · simp [hy]
        · simp [hx]

theorem commentSafe_chain (l : List Char) (h : List.Chain' commentSafe l) :
    containsText "/*".data l = false ∧ containsText "*/".data l = false := by
  constructor
  · exact (containsText_pair '/' '*' l).2 (h.imp (fun {_ _} hxy => hxy.2))
  · exact (containsText_pair '*' '/' l).2 (h.imp (fun {_ _} hxy => hxy.1))

theorem escape_cases (prev c : Char) :
    (EscapeJavadoc.escape prev c = [c] ∧ c ≠ '@' ∧ c ≠ '<' ∧ c ≠ '>' ∧ c ≠ '&' ∧ c ≠ '\\'
        ∧ ¬ (prev = '/' ∧ c = '*') ∧ ¬ (prev = '*' ∧ c = '/'))
    ∨ (c ∈ EscapeJavadoc.special
        ∧ ∃ e ∈ EscapeJavadoc.entities, EscapeJavadoc.escape prev c = e.data) := by
  unfold EscapeJavadoc.escape
  by_cases h1 : c = '*'
  · subst h1
    by_cases hp : prev = '/'
    · right; simp [hp, EscapeJavadoc.special, EscapeJavadoc.entities]
    · left; simp [hp]
  by_cases h2 : c = '/'
  · subst h2
    by_cases hp : prev = '*'
    · right; simp [hp, EscapeJavadoc.special, EscapeJavadoc.entities]
    · left; simp [hp]
  by_cases h3 : c = '@'
  · subst h3; right; simp [EscapeJavadoc.special, EscapeJavadoc.entities]
  by_cases h4 : c = '<'
  · subst h4; right; simp [EscapeJavadoc.special, EscapeJavadoc.entities]
  by_cases h5 : c = '>'
  · subst h5; right; simp [EscapeJavadoc.special, EscapeJavadoc.entities]
  by_cases h6 : c = '&'
  · subst h6; right; simp [EscapeJavadoc.special, EscapeJavadoc.entities]
  by_cases h7 : c = '\\'
  · subst h7; right; simp [EscapeJavadoc.special, EscapeJavadoc.entities]
  left
  simp [h1, h2, h3, h4, h5, h6, h7]

theorem entity_shape (e : String) (he : e ∈ EscapeJavadoc.entities) :
    List.Chain' commentSafe e.data ∧ e.data.head? = some '&' ∧ e.data.getLast? = some ';'
      ∧ (∀ x ∈ e.data, x ≠ '@' ∧ x ≠ '<' ∧ x ≠ '>' ∧ x ≠ '\\' ∧ x ≠ '*' ∧ x ≠ '/')
      ∧ e.data.tail.all (fun x => x != '&') = true := by
  simp only [EscapeJavadoc.entities, List.mem_cons, List.mem_singleton, List.not_mem_nil,
    or_false] at he
  rcases he with rfl | rfl | rfl | rfl | rfl | rfl | rfl <;>
    refine ⟨?_, rfl, rfl, by decide, by decide⟩ <;>
    simp [commentSafe, List.Chain']

theorem escape_ne_nil (prev c : Char) : EscapeJavadoc.escape prev c ≠ [] := by
  rcases escape_cases prev c with h | ⟨_, e, he, h⟩
  · rw [h.1]; simp
  · rw [h]
    intro h0
    have := (entity_shape e he).2.1
    rw [h0] at this
    simp at this

theorem escape_chain (prev c : Char) : List.Chain' commentSafe (EscapeJavadoc.escape prev c) := by
  rcases escape_cases prev c with h | ⟨_, e, he, h⟩
  · rw [h.1]; exact List.chain'_singleton c
  · rw [h]; exact (entity_shape e he).1

theorem escape_head (prev c y : Char) (hy : y ∈ (EscapeJavadoc.escape prev c).head?) :
    commentSafe prev y := by
  rcases escape_cases prev c with h | ⟨_, e, he, h⟩
  · rw [h.1] at hy
    simp only [List.head?_cons, Option.mem_def, Option.some.injEq] at hy
    subst hy
    exact ⟨h.2.2.2.2.2.2.2, h.2.2.2.2.2.2.1⟩
  · rw [h, (entity_shape e he).2.1] at hy
    simp only [Option.mem_def, Option.some.injEq] at hy
    subst hy
    simp [commentSafe]

theorem escape_last (prev c x y : Char) (hx : x ∈ (EscapeJavadoc.escape prev c).getLast?)
    (hc : commentSafe c y) : commentSafe x y := by
  rcases escape_cases prev c with h | ⟨_, e, he, h⟩
  · rw [h.1] at hx
    simp only [List.getLast?_singleton, Option.mem_def, Option.some.injEq] at hx
    subst hx
    exact hc
  · rw [h, (entity_shape e he).2.2.1] at hx
    simp only [Option.mem_def, Option.some.injEq] at hx
    subst hx
    simp [commentSafe]

theorem escapeTail_safe (prev : Char) (input : List Char) :
    List.Chain' commentSafe (escapeTail prev input)
      ∧ ∀ y ∈ (escapeTail prev input).head?, commentSafe prev y := by
  induction input generalizing prev with
  | nil => simp [escapeTail]
  | cons c rest ih =>
    simp only [escapeTail]
    constructor
    · rw [List.chain'_append]
      refine ⟨escape_chain prev c, (ih c).1, ?_⟩
      intro x hx y hy
      exact escape_last prev c x y hx ((ih c).2 y hy)
    · intro y hy
      rw [List.head?_append_of_ne_nil _ (escape_ne_nil prev c)] at hy
      exact escape_head prev c y hy

theorem escapeTail_special_free (prev : Char) (input : List Char) (x : Char)
    (hx : x ∈ escapeTail prev input) : x ≠ '@' ∧ x ≠ '<' ∧ x ≠ '>' ∧ x ≠ '\\' := by
  induction input generalizing prev with
  | nil => simp [escapeTail] at hx
  | cons c rest ih =>
    simp only [escapeTail, List.mem_append] at hx
    rcases hx with hx | hx
    · rcases escape_cases prev c with h | ⟨_, e, he, h⟩
      · rw [h.1] at hx
        simp only [List.mem_singleton] at hx
        subst hx
        exact ⟨h.2.1, h.2.2.1, h.2.2.2.1, h.2.2.2.2.2.1⟩
      · rw [h] at hx
        have := (entity_shape e he).2.2.2.1 x hx
        exact ⟨this.1, this.2.1, this.2.2.1, this.2.2.2.1⟩
    · exact ih c hx

theorem escapeTail_plain (prev : Char) (input : List Char)
    (h : ∀ x ∈ input, x ∉ EscapeJavadoc.special) : escapeTail prev input = input := by
  induction input generalizing prev with
  | nil => rfl
  | cons c rest ih =>
    simp only [escapeTail]
    rw [ih c (fun x hx => h x (List.mem_cons_of_mem _ hx))]
    rcases escape_cases prev c with hc | ⟨hc, _⟩
    · rw [hc.1]; rfl
    · exact absurd hc (h c (List.mem_cons_self _ _))

theorem ampersands_append_entity (e : String) (he : e ∈ EscapeJavadoc.entities)
    (rest : List Char) (h : ampersandsStartEntities rest) :
    ampersandsStartEntities (e.data ++ rest) := by
  simp only [EscapeJavadoc.entities, List.mem_cons, List.mem_singleton, List.not_mem_nil,
    or_false] at he
  rcases he with rfl | rfl | rfl | rfl | rfl | rfl | rfl <;>
    simp [ampersandsStartEntities, EscapeJavadoc.entities, beginsWith, h]

theorem escapeTail_ampersands (prev : Char) (input : List Char) :
    ampersandsStartEntities (escapeTail prev input) := by
  induction input generalizing prev with
  | nil => simp [escapeTail, ampersandsStartEntities]
  | cons c rest ih =>
    simp only [escapeTail]
    rcases escape_cases prev c with h | ⟨_, e, he, h⟩
    · rw [h.1]
      simp only [List.singleton_append, ampersandsStartEntities]
      exact ⟨fun hc => absurd hc h.2.2.2.2.1, ih c⟩
    · rw [h]
      exact ampersands_append_entity e he _ (ih c)

theorem ampersands_drop (l : List Char) (h : ampersandsStartEntities l) (i : Nat)
    (hi : (l.drop i).head? = some '&') :
    ∃ e ∈ EscapeJavadoc.entities, beginsWith e.data (l.drop i) = true := by
  induction l generalizing i with
  | nil => simp at hi
  | cons x rest ih =>
    cases i with
    | zero =>
      simp only [List.drop_zero, List.head?_cons, Option.some.injEq] at hi
      exact h.1 hi
    | succ i => exact ih h.2 i (by simpa using hi)

/-! ## Helper lemmas on `Split` -/

theorem take_length_takeWhile (f : Char → Bool) (l : List Char) :
    l.take (l.takeWhile f).length = l.takeWhile f := by
  induction l with
  | nil => rfl
  | cons x r ih =>
    by_cases hx : f x = true
    · simp [List.takeWhile_cons, hx, ih]
    · simp [List.takeWhile_cons, hx]

theorem drop_length_takeWhile (f : Char → Bool) (l : List Char) :
    l.drop (l.takeWhile f).length = l.dropWhile f := by
  induction l with
  | nil => rfl
  | cons x r ih =>
    by_cases hx : f x = true
    · simp [List.takeWhile_cons, List.dropWhile_cons, hx, ih]
    · simp [List.takeWhile_cons, List.dropWhile_cons, hx]

theorem length_takeWhile_le (f : Char → Bool) (l : List Char) :
    (l.takeWhile f).length ≤ l.length :=
  (List.takeWhile_prefix f).length_le

theorem splitPieces_nil (c : Char) : splitPieces c [] = [] := by
  rw [splitPieces]

theorem splitPieces_cons_eq (c : Char) (rest : List Char) :
    splitPieces c (c :: rest) = splitPieces c rest := by
  rw [splitPieces]; simp

theorem splitPieces_cons_ne (c x : Char) (rest : List Char) (h : x ≠ c) :
    splitPieces c (x :: rest)
      = (x :: rest.takeWhile (fun y => y != c))
          :: splitPieces c (rest.dropWhile (fun y => y != c)) := by
  rw [splitPieces]; simp [h]

theorem findFrom_eq (test : Char → Bool) (l : List Char) (pos : Nat) :
    findFrom test l pos
      = if l.dropWhile (fun x => !test x) = [] then none
        else some (pos + (l.takeWhile (fun x => !test x)).length) := by
  induction l generalizing pos with
  | nil => simp [findFrom]
  | cons x r ih =>
    by_cases hx : test x = true
    · simp [findFrom, List.dropWhile_cons, List.takeWhile_cons, hx]
    · simp only [findFrom, List.dropWhile_cons, List.takeWhile_cons, hx, Bool.false_eq_true,
        if_false, Bool.not_false, if_true, ih, List.length_cons]
      split
      · rfl
      · congr 1; omega

theorem scan_eq (full : List Char) (c : Char) (fuel p : Nat) (hp : p < full.length)
    (hf : full.length - p ≤ fuel) :
    SplitStringToIteratorUsing.scan full c fuel p
      = some (p + 1 + ((full.drop (p + 1)).takeWhile (fun y => y != c)).length) := by
  induction fuel generalizing p with
  | zero => omega
  | succ fuel ih =>
    unfold SplitStringToIteratorUsing.scan
    by_cases hn : p + 1 < full.length
    · rw [List.drop_eq_getElem_cons hn, charAt_eq_getElem full (p + 1) hn]
      by_cases hc : full[p + 1] = c
      · simp [hc, List.takeWhile_cons]
      · have h1 : (decide (p + 1 ≠ full.length) && decide (full[p + 1] ≠ c)) = true := by
          simp [hc]; omega
        rw [if_pos h1, ih (p + 1) hn (by omega), List.takeWhile_cons,
          if_pos (by simpa using hc), List.length_cons]
        congr 1; omega
    · have h0 : p + 1 = full.length := by omega
      have h1 : (decide (p + 1 ≠ full.length) && decide (charAt full (p + 1) ≠ c)) = false := by
        simp [h0]
      rw [h1]
      simp [List.drop_eq_nil_of_le (Nat.le_of_eq h0.symm)]

theorem fastLoop_eq (full : List Char) (c : Char) (fuel p : Nat) (result : List String)
    (hp : p ≤ full.length) (hf : full.length - p < fuel) :
    SplitStringToIteratorUsing.fastLoop full c fuel p result
      = some (result ++ (splitPieces c (full.drop p)).map String.mk) := by
  induction fuel generalizing p result with
  | zero => omega
  | succ fuel ih =>
    unfold SplitStringToIteratorUsing.fastLoop
    by_cases hi : p = full.length
    · rw [if_neg (by simpa using hi), List.drop_eq_nil_of_le (Nat.le_of_eq hi.symm),
        splitPieces_nil]
      simp
    · have hlt : p < full.length := by omega
      rw [if_pos hi, List.drop_eq_getElem_cons hlt, charAt_eq_getElem full p hlt]
      by_cases hc : full[p] = c
      · rw [if_pos hc, ih (p + 1) result (by omega) (by omega), hc, splitPieces_cons_eq]
      · rw [if_neg hc, scan_eq full c full.length p hlt (by omega)]
        simp only
        have hk := length_takeWhile_le (fun y => y != c) (full.drop (p + 1))
        rw [List.length_drop] at hk
        rw [ih _ _ (by omega) (by omega), splitPieces_cons_ne c _ _ hc]
        have e1 : p + 1 + ((full.drop (p + 1)).takeWhile (fun y => y != c)).length - p
            = ((full.drop (p + 1)).takeWhile (fun y => y != c)).length + 1 := by omega
        have e2 : full.drop (p + 1 + ((full.drop (p + 1)).takeWhile (fun y => y != c)).length)
            = (full.drop (p + 1)).dropWhile (fun y => y != c) := by
          rw [← drop_length_takeWhile, List.drop_drop]
        rw [e1, e2, List.drop_eq_getElem_cons hlt, List.take_succ_cons, take_length_takeWhile]
        simp

theorem contains_singleton (c x : Char) : [c].contains x = (x == c) := by
  cases h : x == c <;> simp [List.contains, List.elem, h]

theorem splitPieces_dropWhile (c : Char) (l : List Char) :
    splitPieces c (l.dropWhile (fun x => x == c)) = splitPieces c l := by
  induction l with
  | nil => rfl
  | cons x r ih =>
    by_cases hx : x = c
    · subst hx
      rw [List.dropWhile_cons, if_pos (by simp), ih, splitPieces_cons_eq]
    · rw [List.dropWhile_cons, if_neg (by simpa using hx)]

theorem generalLoop_eq (full : List Char) (c : Char) (fuel p : Nat) (result : List String)
    (hp : p ≤ full.length) (hf : full.length - p < fuel) :
    SplitStringToIteratorUsing.generalLoop full [c] fuel (find_first_not_of full [c] p) result
      = some (result ++ (splitPieces c (full.drop p)).map String.mk) := by
  induction fuel using Nat.strong_induction_on generalizing p result with
  | _ fuel ih =>
    cases fuel with
    | zero => omega
    | succ fuel =>
      have hnot : find_first_not_of full [c] p
          = if (full.drop p).dropWhile (fun x => x == c) = [] then none
            else some (p + ((full.drop p).takeWhile (fun x => x == c)).length) := by
        unfold find_first_not_of
        rw [findFrom_eq]
        simp only [contains_singleton, Bool.not_not]
      rw [hnot, ← splitPieces_dropWhile c (full.drop p)]
      by_cases hd : (full.drop p).dropWhile (fun x => x == c) = []
      · rw [if_pos hd, hd, splitPieces_nil]
        simp [SplitStringToIteratorUsing.generalLoop]
      · rw [if_neg hd]
        have hk := length_takeWhile_le (fun x => x == c) (full.drop p)
        rw [List.length_drop] at hk
        have hb : full.drop (p + ((full.drop p).takeWhile (fun x => x == c)).length)
            = (full.drop p).dropWhile (fun x => x == c) := by
          rw [← drop_length_takeWhile, List.drop_drop]
        generalize hbdef : p + ((full.drop p).takeWhile (fun x => x == c)).length = b at hb
        obtain ⟨x, rest, hxr⟩ := List.exists_cons_of_ne_nil hd
        have hxc : x ≠ c := by
          have := List.head_dropWhile_not (fun x => x == c) (full.drop p) hd
          simp only [hxr, List.head_cons] at this
          simpa using this
        rw [hxr] at hb ⊢
        have hblt : b < full.length := by
          by_contra hge
          rw [List.drop_eq_nil_of_le (by omega)] at hb
          simp at hb
        have hrest : full.drop (b + 1) = rest := by
          have := congrArg List.tail hb
          simpa using this
        unfold SplitStringToIteratorUsing.generalLoop
        have hof : find_first_of full [c] b
            = if rest.dropWhile (fun y => y != c) = [] then none
              else some (b + 1 + (rest.takeWhile (fun y => y != c)).length) := by
          unfold find_first_of
          rw [hb, findFrom]
          simp only [contains_singleton]
          rw [if_neg (by simpa using hxc), findFrom_eq]
          simp only [bne]
        rw [hof, hb, splitPieces_cons_ne c x rest hxc]
        by_cases hr : rest.dropWhile (fun y => y != c) = []
        · rw [if_pos hr, hr, splitPieces_nil]
          have : rest.takeWhile (fun y => y != c) = rest := by
            have := List.takeWhile_append_dropWhile (fun y => y != c) rest
            rw [hr, List.append_nil] at this
            exact this
          simp [this]
        · rw [if_neg hr]
          simp only
          have hk2 := length_takeWhile_le (fun y => y != c) rest
          have hlen : rest.length = full.length - (b + 1) := by
            rw [← hrest, List.length_drop]
          have e2 : full.drop (b + 1 + (rest.takeWhile (fun y => y != c)).length)
              = rest.dropWhile (fun y => y != c) := by
            rw [← drop_length_takeWhile, ← hrest, List.drop_drop]
          have e1 : b + 1 + (rest.takeWhile (fun y => y != c)).length - b
              = (rest.takeWhile (fun y => y != c)).length + 1 := by omega
          rw [ih fuel (Nat.lt_succ_self _) _ _ (by omega) (by omega), e1, e2,
            List.take_succ_cons, take_length_takeWhile]
          simp

theorem splitPieces_mem (c : Char) (n : Nat) (l : List Char) (hn : l.length ≤ n)
    (piece : List Char) (h : piece ∈ splitPieces c l) :
    piece ≠ [] ∧ c ∉ piece ∧ piece <:+: l := by
  induction n generalizing l with
  | zero =>
    have : l = [] := List.length_eq_zero.mp (by omega)
    subst this
    rw [splitPieces_nil] at h
    simp at h
  | succ n ih =>
    cases l with
    | nil => rw [splitPieces_nil] at h; simp at h
    | cons x rest =>
      simp only [List.length_cons] at hn
      by_cases hx : x = c
      · subst hx
        rw [splitPieces_cons_eq] at h
        have := ih rest (by omega) h
        exact ⟨this.1, this.2.1, this.2.2.trans (List.suffix_cons _ _).isInfix⟩
      · rw [splitPieces_cons_ne c x rest hx, List.mem_cons] at h
        rcases h with h | h
        · subst h
          refine ⟨by simp, ?_, ?_⟩
          · intro hmem
            rcases List.mem_cons.mp hmem with h0 | h0
            · exact hx h0.symm
            · have := List.mem_takeWhile_imp h0
              simp at this
          · exact ((List.prefix_cons_inj x).2 (List.takeWhile_prefix _)).isInfix
        · have hle := (List.dropWhile_suffix (fun y => y != c) (l := rest)).length_le
          have := ih _ (by omega) h
          exact ⟨this.1, this.2.1,
            this.2.2.trans ((List.dropWhile_suffix _).trans (List.suffix_cons _ _)).isInfix⟩

theorem splitPieces_flatten (c : Char) (n : Nat) (l : List Char) (hn : l.length ≤ n) :
    (splitPieces c l).flatten = l.filter (fun y => y != c) := by
  induction n generalizing l with
  | zero =>
    have : l = [] := List.length_eq_zero.mp (by omega)
    subst this
    rw [splitPieces_nil]
    rfl
  | succ n ih =>
    cases l with
    | nil => rw [splitPieces_nil]; rfl
    | cons x rest =>
      simp only [List.length_cons] at hn
      by_cases hx : x = c
      · subst hx
        rw [splitPieces_cons_eq, ih rest (by omega)]
        simp
      · have hle := (List.dropWhile_suffix (fun y => y != c) (l := rest)).length_le
        rw [splitPieces_cons_ne c x rest hx, List.flatten_cons, ih _ (by omega),
          List.filter_cons_of_pos (by simpa using hx), List.cons_append]
        congr 1
        conv_rhs => rw [← List.takeWhile_append_dropWhile (fun y => y != c) rest]
        rw [List.filter_append]
        congr 1
        · symm
          rw [List.filter_eq_self]
          intro a ha
          exact List.mem_takeWhile_imp (p := fun y => y != c) ha

theorem cString_singleton (c : Char) (hc : c ≠ '\x00') : cString [c] = [c] := by
  simp [cString, List.takeWhile_cons, hc]

theorem fastPath_single (full : String) (c : Char) (result : List String) :
    SplitStringToIteratorUsing.fastPath full ⟨[c]⟩ result
      = some (result ++ (splitPieces c full.data).map String.mk) := by
  unfold SplitStringToIteratorUsing.fastPath
  simp only
  rw [fastLoop_eq _ _ _ _ _ (Nat.zero_le _) (by omega)]
  rfl

theorem generalPath_single (full : String) (c : Char) (hc : c ≠ '\x00')
    (result : List String) :
    SplitStringToIteratorUsing.generalPath full ⟨[c]⟩ result
      = some (result ++ (splitPieces c full.data).map String.mk) := by
  unfold SplitStringToIteratorUsing.generalPath
  simp only
  rw [cString_singleton c hc, generalLoop_eq _ _ _ _ _ (Nat.zero_le _) (by omega)]
  rfl

theorem Split_single (full : String) (c : Char) (hc : c ≠ '\x00') :
    Split full ⟨[c]⟩ = some ((splitPieces c full.data).map String.mk) := by
  unfold Split SplitStringUsing SplitStringToIteratorUsing
  have h : (decide (charAt (String.data ⟨[c]⟩) 0 ≠ '\x00')
      && decide (charAt (String.data ⟨[c]⟩) 1 = '\x00')) = true := by
    simp [charAt, hc]
  rw [if_pos h, fastPath_single]
  rfl

/-! ## Helper lemmas on `GetDocLines` and `WriteDocCommentBody` -/

theorem popLoop_id (fuel : Nat) (lines : List String) (h : ∀ line ∈ lines, line ≠ "") :
    GetDocLines.popLoop fuel lines = lines := by
  cases fuel with
  | zero => rfl
  | succ fuel =>
    unfold GetDocLines.popLoop
    rw [if_neg]
    intro hc
    rw [Bool.and_eq_true] at hc
    rcases List.eq_nil_or_concat lines with h0 | ⟨front, last, h0⟩
    · subst h0; simp at hc
    · subst h0
      have hl : last ≠ "" := h last (by simp)
      have := hc.2
      rw [List.concat_eq_append, List.getLast?_concat] at this
      simp only [Option.getD_some] at this
      exact hl ((String.isEmpty_iff last).1 this)

theorem pieces_nonempty (c : Char) (l : List Char) (line : String)
    (h : line ∈ (splitPieces c l).map String.mk) :
    line ≠ "" ∧ c ∉ line.data ∧ line.data <:+: l := by
  rw [List.mem_map] at h
  obtain ⟨piece, hp, rfl⟩ := h
  have := splitPieces_mem c l.length l (Nat.le_refl _) piece hp
  refine ⟨?_, this.2.1, this.2.2⟩
  intro h0
  exact this.1 (congrArg String.data h0)

theorem expand_line_spaced (line : String) :
    Print (Vars.set [] "line" line) " * $line$\n"
      = .text ⟨' ' :: '*' :: ' ' :: (line.data ++ ['\n'])⟩ := by
  unfold Print
  apply Emitted.text_congr
  simp [Printer.expand, Vars.get, Vars.set, List.lookup]

theorem expand_line_plain (line : String) :
    Print (Vars.set [] "line" line) " *$line$\n"
      = .text ⟨' ' :: '*' :: (line.data ++ ['\n'])⟩ := by
  unfold Print
  apply Emitted.text_congr
  simp [Printer.expand, Vars.get, Vars.set, List.lookup]

theorem line_printed (line : String) (hne : line ≠ "")
    (hsafe : List.Chain' commentSafe line.data) (hnl : '\n' ∉ line.data) :
    ∃ s body, WriteDocCommentBody.line line = .text s ∧ String.data s = body ++ ['\n']
      ∧ '\n' ∉ body ∧ containsText "*/".data (String.data s) = false := by
  have hchain : List.Chain' (fun x y => ¬ (x = '*' ∧ y = '/')) line.data :=
    hsafe.imp (fun {_ _} hxy => hxy.1)
  have hend : List.Chain' (fun x y => ¬ (x = '*' ∧ y = '/')) (line.data ++ ['\n']) := by
    rw [List.chain'_append]
    refine ⟨hchain, List.chain'_singleton _, ?_⟩
    intro x _ y hy
    simp only [List.head?_cons, Option.mem_def, Option.some.injEq] at hy
    subst hy
    simp
  obtain ⟨x, rest, hxr⟩ : ∃ x rest, line.data = x :: rest := by
    cases hd : line.data with
    | nil => exact absurd (String.ext hd) hne
    | cons x rest => exact ⟨x, rest, rfl⟩
  have hemp : line.isEmpty = false := by
    cases h : line.isEmpty with
    | false => rfl
    | true => exact absurd ((String.isEmpty_iff line).1 h) hne
  unfold WriteDocCommentBody.line
  rw [hemp, hxr]
  by_cases hx : x = '/'
  · have hc : (!false && decide (charAt (x :: rest) 0 = '/')) = true := by
      simp [charAt, hx]
    rw [if_pos hc, expand_line_spaced]
    refine ⟨_, ' ' :: '*' :: ' ' :: line.data, rfl, by simp, ?_, ?_⟩
    · simpa using hnl
    · rw [show "*/".data = ['*', '/'] from rfl, containsText_pair]
      simp only
      rw [List.chain'_cons, List.chain'_cons]
      refine ⟨by simp, by simp, ?_⟩
      cases hl : line.data ++ ['\n'] with
      | nil => simp at hl
      | cons y r =>
        rw [List.chain'_cons', ← hl]
        exact ⟨by simp, hend⟩
  · have hc : (!false && decide (charAt (x :: rest) 0 = '/')) = false := by
      simp [charAt, hx]
    rw [hc, expand_line_plain]
    refine ⟨_, ' ' :: '*' :: line.data, rfl, by simp, ?_, ?_⟩
    · simpa using hnl
    · rw [show "*/".data = ['*', '/'] from rfl, containsText_pair]
      simp only
      rw [List.chain'_cons, hxr, List.cons_append, List.chain'_cons, ← List.cons_append, ← hxr]
      exact ⟨by simp, by simpa using hx, hend⟩

theorem getDocLines_eq (comments : String) :
    (comments ≠ "" →
      Split (EscapeJavadoc comments) "\n"
          = some ((splitPieces '\n' (EscapeJavadoc comments).data).map String.mk)
        ∧ GetDocLines comments
          = some ((splitPieces '\n' (EscapeJavadoc comments).data).map String.mk))
    ∧ (comments = "" → GetDocLines comments = some []) := by
  constructor
  · intro hne
    have hs : Split (EscapeJavadoc comments) "\n"
        = some ((splitPieces '\n' (EscapeJavadoc comments).data).map String.mk) :=
      Split_single (EscapeJavadoc comments) '\n' (by decide)
    refine ⟨hs, ?_⟩
    have hemp : comments.isEmpty = false := by
      cases h : comments.isEmpty with
      | false => rfl
      | true => exact absurd ((String.isEmpty_iff comments).1 h) hne
    unfold GetDocLines
    rw [hemp]
    simp only [Bool.not_false, if_true]
    rw [hs]
    simp only
    rw [popLoop_id _ _ (fun line hl => (pieces_nonempty _ _ line hl).1)]
  · intro h
    subst h
    rfl

/-! ## Helper lemmas on the checked identifier loops -/

theorem mixedLower_checkedLoop_eq (word : List Char) (fuel i : Nat) (au : Bool)
    (w : List Char) (hf : word.length - i < fuel) :
    MixedLower.checkedLoop word fuel i au w = some (w ++ mixedTail (word.drop i) au) := by
  induction fuel generalizing i au w with
  | zero => omega
  | succ fuel ih =>
    unfold MixedLower.checkedLoop
    by_cases hi : i < word.length
    · rw [if_pos hi, List.getElem?_eq_getElem hi, List.drop_eq_getElem_cons hi]
      simp only
      by_cases hc : word[i] = '_'
      · rw [if_pos hc, ih _ _ _ (by omega)]
        simp [mixedTail, hc]
      · rw [if_neg hc]
        cases au with
        | false =>
          simp only [Bool.false_eq_true, if_false]
          rw [ih _ _ _ (by omega)]
          simp [mixedTail, hc]
        | true =>
          simp only [if_true, Option.map_some']
          rw [ih _ _ _ (by omega)]
          simp [mixedTail, hc]
    · rw [if_neg hi]
      have : word.length ≤ i := by omega
      simp [List.drop_eq_nil_of_le this, mixedTail]

theorem toAllUpperCase_checkedLoop_eq (word : List Char) (fuel i : Nat) (w : List Char)
    (hf : word.length - i < fuel) :
    ToAllUpperCase.checkedLoop word fuel i w = some (w ++ upperTail (word.drop i)) := by
  induction fuel generalizing i w with
  | zero => omega
  | succ fuel ih =>
    unfold ToAllUpperCase.checkedLoop
    by_cases hi : i < word.length
    · rw [if_pos hi, List.getElem?_eq_getElem hi]
      simp only
      have hsub : sizeSub word.length 1 = word.length - 1 := by
        unfold sizeSub; rw [if_pos (by omega)]
      rw [hsub, List.drop_eq_getElem_cons hi]
      by_cases hn : i + 1 < word.length
      · rw [if_pos (by omega), List.getElem?_eq_getElem hn, List.drop_eq_getElem_cons hn]
        simp only
        by_cases hl : islower word[i] = true
        · rw [if_pos hl]
          by_cases hu : isupper word[i + 1] = true
          · rw [if_pos hu, ih _ _ (by omega), List.drop_eq_getElem_cons hn]
            simp [upperTail, hl, hu]
          · rw [if_neg hu, ih _ _ (by omega), List.drop_eq_getElem_cons hn]
            simp [upperTail, hl, hu]
        · rw [if_neg hl, ih _ _ (by omega), List.drop_eq_getElem_cons hn]
          simp [upperTail, hl]
      · rw [if_neg (by omega), ih _ _ (by omega)]
        have : word.length ≤ i + 1 := by omega
        simp [List.drop_eq_nil_of_le this, upperTail]
    · rw [if_neg hi]
      have : word.length ≤ i := by omega
      simp [List.drop_eq_nil_of_le this, upperTail]
/-! ## Interaction classification and buckets -/

/-- C1: for every method, the bucket loop appends the method to the vector that the
classification table gives for its (clientStreaming, serverStreaming, oneWay) and
leaves the other three alone: request_channel when clientStreaming holds, whatever
the other two are; request_stream when only serverStreaming holds, whatever oneWay
is; fire_and_forget or request_response when neither holds, by oneWay.  The triple
(true, true, true) lands in request_channel. -/
theorem step_matches_classification_table :
    (∀ (b : Buckets) (m : MethodDescriptor), b.step m = b.push (classify m) m)
    ∧ (∀ ss ow, classifyTable true ss ow = .ClientOrBidiStream)
    ∧ (∀ ow, classifyTable false true ow = .ServerStream)
    ∧ classifyTable false false true = .OneWay
    ∧ classifyTable false false false = .UnarySingleResponse
    ∧ (∀ cs ss ow, buildBuckets [methodWith cs ss ow]
        = Buckets.empty.push (classifyTable cs ss ow) (methodWith cs ss ow))
    ∧ buildBuckets [methodWith true true true]
        = ⟨[], [], [], [methodWith true true true]⟩ := by
  refine ⟨?_, ?_, ?_, rfl, rfl, ?_, rfl⟩
  · intro b m
    rcases m with ⟨n, it, ot, cs, ss, ow⟩
    cases cs <;> cases ss <;> cases ow <;> rfl
  · intro ss ow; cases ss <;> cases ow <;> rfl
  · intro ow; cases ow <;> rfl
  · intro cs ss ow
    cases cs <;> cases ss <;> cases ow <;> rfl

/-- C2: each of the four buckets is the subsequence, in declaration order, of the
methods whose classification is the semantic of the bucket; so a method of the
service is in the bucket of a semantic exactly when it classifies as that semantic,
the four sizes add up to the number of methods, and when all methods have one
semantic its bucket is the method list itself. -/
theorem buckets_are_ordered_partition (methods : List MethodDescriptor) :
    (∀ s, (buildBuckets methods).get s = methods.filter (fun m => classify m = s))
    ∧ (∀ m, m ∈ methods → ∀ s, (m ∈ (buildBuckets methods).get s ↔ classify m = s))
    ∧ (buildBuckets methods).fire_and_forget.length
        + (buildBuckets methods).request_response.length
        + (buildBuckets methods).request_stream.length
        + (buildBuckets methods).request_channel.length = methods.length
    ∧ (∀ s, (∀ m, m ∈ methods → classify m = s) → (buildBuckets methods).get s = methods) := by
  refine ⟨buildBuckets_get methods, ?_, ?_, ?_⟩
  · intro m hm s
    rw [buildBuckets_get]
    simp [List.mem_filter, hm]
  · have h := filter_classify_lengths methods
    rw [← buildBuckets_get, ← buildBuckets_get, ← buildBuckets_get, ← buildBuckets_get] at h
    exact h
  · intro s hs
    rw [buildBuckets_get]
    apply List.filter_eq_self.mpr
    intro m hm
    simp [hs m hm]

/-- C2 at the service [A, B, C] of three server-streaming methods. -/
theorem buckets_are_ordered_partition_witness :
    (buildBuckets [methodA, methodB, methodC]).get .ServerStream
      = [methodA, methodB, methodC] :=
  (buckets_are_ordered_partition [methodA, methodB, methodC]).2.2.2 .ServerStream
    (by decide)

/-! ## Route identifiers -/

/-- C3, as stated, fails: the distinct names `getUser` and `get_user` have the same
upper-case form, hence the same ROUTE_ and METHOD_ identifiers. -/
theorem route_names_collide :
    getUserCamel.name ≠ getUserSnake.name
    ∧ ToAllUpperCase getUserCamel.name = ToAllUpperCase getUserSnake.name
    ∧ RouteFieldName getUserCamel = RouteFieldName getUserSnake
    ∧ MethodFieldName getUserCamel = MethodFieldName getUserSnake := by
  decide

/-- C3, amended: for every service whose N method names are pairwise distinct, and
in which any two different names still differ when letter case and underscores are
ignored, or are both without an upper-case letter, or are both without a
lower-case letter, the N ROUTE_ identifiers are pairwise distinct and so are the N
METHOD_ identifiers.  Names in camel case or Pascal case that differ by more than
case and underscores are covered, and so are names all written in snake case. -/
theorem route_names_nodup (methods : List MethodDescriptor)
    (hnames : (methods.map (fun m => m.name)).Nodup)
    (hpair : ∀ x ∈ methods, ∀ y ∈ methods, x.name ≠ y.name →
      foldName x.name ≠ foldName y.name
      ∨ ((∀ c ∈ x.name.data, isupper c = false) ∧ (∀ c ∈ y.name.data, isupper c = false))
      ∨ ((∀ c ∈ x.name.data, islower c = false) ∧ (∀ c ∈ y.name.data, islower c = false))) :
    (methods.map RouteFieldName).Nodup ∧ (methods.map MethodFieldName).Nodup
    ∧ (methods.map RouteFieldName).length = methods.length
    ∧ (methods.map MethodFieldName).length = methods.length := by
  have inj : ∀ x ∈ methods, ∀ y ∈ methods,
      ToAllUpperCase x.name = ToAllUpperCase y.name → x.name = y.name := by
    intro x hx y hy e
    by_contra hne
    rcases hpair x hx y hy hne with h | h | h
    · exact h (ToAllUpperCase_foldName _ _ e)
    · exact hne (ToAllUpperCase_injOn _ _ (Or.inl h) e)
    · exact hne (ToAllUpperCase_injOn _ _ (Or.inr h) e)
  have hmeth : methods.Nodup := List.Nodup.of_map _ hnames
  have nameInj : ∀ x ∈ methods, ∀ y ∈ methods, x.name = y.name → x = y :=
    List.inj_on_of_nodup_map hnames
  refine ⟨?_, ?_, by simp, by simp⟩
  · refine List.Nodup.map_on ?_ hmeth
    intro x hx y hy e
    exact nameInj x hx y hy (inj x hx y hy (string_append_left_cancel _ _ _ e))
  · refine List.Nodup.map_on ?_ hmeth
    intro x hx y hy e
    exact nameInj x hx y hy (inj x hx y hy (string_append_left_cancel _ _ _ e))

/-- C3, amended, at the names `ListUsers`, `get_user`, `getuser` and `ping`: the
first and the last differ from the others when case and underscores are ignored,
and `get_user` and `getuser`, which do not, are both in lower case. -/
theorem route_names_nodup_witness :
    ([listUsers, getUserSnake, getUserFlat, pingStream].map (fun m => m.name)).Nodup
    ∧ ([listUsers, getUserSnake, getUserFlat, pingStream].map RouteFieldName).Nodup
    ∧ ([listUsers, getUserSnake, getUserFlat, pingStream].map MethodFieldName).Nodup
    ∧ ([listUsers, getUserSnake, getUserFlat, pingStream].map RouteFieldName).length
        = [listUsers, getUserSnake, getUserFlat, pingStream].length
    ∧ ([listUsers, getUserSnake, getUserFlat, pingStream].map MethodFieldName).length
        = [listUsers, getUserSnake, getUserFlat, pingStream].length :=
  ⟨by decide,
   route_names_nodup [listUsers, getUserSnake, getUserFlat, pingStream] (by decide)
     (by decide)⟩

/-- C4, as stated, fails: for the service of two methods both named `Echo` the
bucket loop returns the whole table, with both methods in request_response. -/
theorem duplicate_echo_builds_table :
    echoFirst.name = "Echo" ∧ echoSecond.name = "Echo"
    ∧ buildBuckets [echoFirst, echoSecond] = ⟨[], [echoFirst, echoSecond], [], []⟩
    ∧ RouteFieldName echoFirst = RouteFieldName echoSecond := by
  decide

/-- C4, amended: for every service that declares two methods with the same name the
bucket loop does not fail; it returns the complete table, in which both methods
appear in the buckets of their semantics (with one and the same route identifier)
and the four sizes add up to the number of methods. -/
theorem duplicate_names_are_kept (pre mid post : List MethodDescriptor)
    (m m' : MethodDescriptor) (h : m.name = m'.name) :
    m ∈ (buildBuckets (pre ++ m :: mid ++ m' :: post)).get (classify m)
    ∧ m' ∈ (buildBuckets (pre ++ m :: mid ++ m' :: post)).get (classify m')
    ∧ (buildBuckets (pre ++ m :: mid ++ m' :: post)).fire_and_forget.length
        + (buildBuckets (pre ++ m :: mid ++ m' :: post)).request_response.length
        + (buildBuckets (pre ++ m :: mid ++ m' :: post)).request_stream.length
        + (buildBuckets (pre ++ m :: mid ++ m' :: post)).request_channel.length
        = (pre ++ m :: mid ++ m' :: post).length
    ∧ RouteFieldName m = RouteFieldName m' := by
  refine ⟨?_, ?_, ?_, ?_⟩
  · rw [buildBuckets_get]; simp [List.mem_filter]
  · rw [buildBuckets_get]; simp [List.mem_filter]
  · have hl := filter_classify_lengths (pre ++ m :: mid ++ m' :: post)
    rw [← buildBuckets_get, ← buildBuckets_get, ← buildBuckets_get, ← buildBuckets_get] at hl
    exact hl
  · unfold RouteFieldName; rw [h]

/-- C4, amended, at the service [Echo, ping, Echo]. -/
theorem duplicate_names_are_kept_witness :
    echoFirst.name = echoSecond.name
    ∧ echoFirst ∈ (buildBuckets ([] ++ echoFirst :: [pingStream] ++ echoSecond :: [])).get
      (classify echoFirst)
    ∧ echoSecond ∈ (buildBuckets ([] ++ echoFirst :: [pingStream] ++ echoSecond :: [])).get
      (classify echoSecond) :=
  ⟨by decide,
   (duplicate_names_are_kept [] [pingStream] [] echoFirst echoSecond (by decide)).1,
   (duplicate_names_are_kept [] [pingStream] [] echoFirst echoSecond (by decide)).2.1⟩

/-! ## The entry points of the server stub -/

theorem fireAndForget_unimplemented_iff (bucket : List MethodDescriptor) (vars : Vars) :
    PrintServer.fireAndForget bucket vars = PrintServer.fireAndForgetUnimplemented vars
      ↔ bucket = [] := by
  cases bucket with
  | nil => simp [PrintServer.fireAndForget, PrintServer.fireAndForgetUnimplemented]
  | cons m ms =>
    simp only [reduceCtorEq, iff_false]
    intro h
    have := congrArg List.length h
    simp [PrintServer.fireAndForget, PrintServer.fireAndForgetUnimplemented] at this

theorem requestResponse_unimplemented_iff (bucket : List MethodDescriptor) (vars : Vars) :
    PrintServer.requestResponse bucket vars = PrintServer.requestResponseUnimplemented vars
      ↔ bucket = [] := by
  cases bucket with
  | nil => simp [PrintServer.requestResponse, PrintServer.requestResponseUnimplemented]
  | cons m ms =>
    simp only [reduceCtorEq, iff_false]
    intro h
    have := congrArg List.length h
    simp [PrintServer.requestResponse, PrintServer.requestResponseUnimplemented] at this

theorem requestStream_unimplemented_iff (bucket : List MethodDescriptor) (vars : Vars) :
    PrintServer.requestStream bucket vars = PrintServer.requestStreamUnimplemented vars
      ↔ bucket = [] := by
  cases bucket with
  | nil => simp [PrintServer.requestStream, PrintServer.requestStreamUnimplemented]
  | cons m ms =>
    simp only [reduceCtorEq, iff_false]
    intro h
    have := congrArg List.length h
    simp [PrintServer.requestStream, PrintServer.requestStreamUnimplemented] at this

theorem requestChannel_unimplemented_iff (bucket : List MethodDescriptor) (vars : Vars) :
    (PrintServer.requestChannel bucket vars).2 = PrintServer.requestChannelUnimplemented vars
      ↔ bucket = [] := by
  cases bucket with
  | nil => simp [PrintServer.requestChannel, PrintServer.requestChannelUnimplemented]
  | cons m ms =>
    simp only [reduceCtorEq, iff_false]
    intro h
    have := congrArg List.length h
    simp [PrintServer.requestChannel, PrintServer.requestChannelUnimplemented] at this

theorem requestChannelPayloads_unimplemented_iff (bucket : List MethodDescriptor)
    (vars : Vars) :
    PrintServer.requestChannelPayloads bucket vars
        = PrintServer.requestChannelPayloadsUnimplemented vars
      ↔ bucket = [] := by
  cases bucket with
  | nil =>
    simp [PrintServer.requestChannelPayloads, PrintServer.requestChannelPayloadsUnimplemented]
  | cons m ms =>
    simp only [reduceCtorEq, iff_false]
    intro h
    have := congrArg List.length h
    simp [PrintServer.requestChannelPayloads,
      PrintServer.requestChannelPayloadsUnimplemented] at this

/-- C5: for every service the server stub prints the signatures of the public entry
points fireAndForget, requestResponse, requestStream and requestChannel (both
overloads), whatever the buckets hold; each entry point is printed in its
unimplemented form, a body that only returns the UnsupportedOperationException
error, exactly when the bucket of its semantic is empty; and a service without
methods gets all of them in unimplemented form.  The five are printed one after
the other, with the switches and handlers of the buckets in between. -/
theorem entry_points_always_emitted (methods : List MethodDescriptor) (vars : Vars) :
    (∃ v₂ v₃ v₄ v₅ mid₁ mid₂ mid₃ rest,
      (PrintServer.interactions methods vars).2
        = PrintServer.fireAndForget (buildBuckets methods).fire_and_forget vars ++ mid₁
          ++ PrintServer.requestResponse (buildBuckets methods).request_response v₂ ++ mid₂
          ++ PrintServer.requestStream (buildBuckets methods).request_stream v₃ ++ mid₃
          ++ (PrintServer.requestChannel (buildBuckets methods).request_channel v₄).2
          ++ PrintServer.requestChannelPayloads (buildBuckets methods).request_channel v₅
          ++ rest)
    ∧ ((PrintServer.fireAndForget (buildBuckets methods).fire_and_forget vars).take 2
        = [Print vars "@$Override$\npublic $Mono$<$Void$> fireAndForget($Payload$ payload) \x7b\n",
           .indent]
      ∧ (PrintServer.requestResponse (buildBuckets methods).request_response vars).take 2
        = [Print vars "@$Override$\npublic $Mono$<$Payload$> requestResponse($Payload$ payload) \x7b\n",
           .indent]
      ∧ (PrintServer.requestStream (buildBuckets methods).request_stream vars).take 2
        = [Print vars "@$Override$\npublic $Flux$<$Payload$> requestStream($Payload$ payload) \x7b\n",
           .indent]
      ∧ ((PrintServer.requestChannel (buildBuckets methods).request_channel vars).2).take 2
        = [Print vars "@$Override$\npublic $Flux$<$Payload$> requestChannel($Payload$ payload, $Publisher$<$Payload$> payloads) \x7b\n",
           .indent]
      ∧ (PrintServer.requestChannelPayloads (buildBuckets methods).request_channel vars).take 2
        = [Print vars "@$Override$\npublic $Flux$<$Payload$> requestChannel($Publisher$<$Payload$> payloads) \x7b\n",
           .indent])
    ∧ ((PrintServer.fireAndForget (buildBuckets methods).fire_and_forget vars
          = PrintServer.fireAndForgetUnimplemented vars
        ↔ (buildBuckets methods).get .OneWay = [])
      ∧ (PrintServer.requestResponse (buildBuckets methods).request_response vars
          = PrintServer.requestResponseUnimplemented vars
        ↔ (buildBuckets methods).get .UnarySingleResponse = [])
      ∧ (PrintServer.requestStream (buildBuckets methods).request_stream vars
          = PrintServer.requestStreamUnimplemented vars
        ↔ (buildBuckets methods).get .ServerStream = [])
      ∧ ((PrintServer.requestChannel (buildBuckets methods).request_channel vars).2
          = PrintServer.requestChannelUnimplemented vars
        ↔ (buildBuckets methods).get .ClientOrBidiStream = [])
      ∧ (PrintServer.requestChannelPayloads (buildBuckets methods).request_channel vars
          = PrintServer.requestChannelPayloadsUnimplemented vars
        ↔ (buildBuckets methods).get .ClientOrBidiStream = []))
    ∧ (PrintServer.fireAndForget (buildBuckets []).fire_and_forget vars
          = PrintServer.fireAndForgetUnimplemented vars
      ∧ PrintServer.requestResponse (buildBuckets []).request_response vars
          = PrintServer.requestResponseUnimplemented vars
      ∧ PrintServer.requestStream (buildBuckets []).request_stream vars
          = PrintServer.requestStreamUnimplemented vars
      ∧ (PrintServer.requestChannel (buildBuckets []).request_channel vars).2
          = PrintServer.requestChannelUnimplemented vars
      ∧ PrintServer.requestChannelPayloads (buildBuckets []).request_channel vars
          = PrintServer.requestChannelPayloadsUnimplemented vars) := by
  refine ⟨⟨_, _, _, _, _, _, _, _, rfl⟩, ⟨?_, ?_, ?_, ?_, ?_⟩, ⟨?_, ?_, ?_, ?_, ?_⟩,
    ⟨rfl, rfl, rfl, rfl, rfl⟩⟩
  · simp [PrintServer.fireAndForget]
  · simp [PrintServer.requestResponse]
  · simp [PrintServer.requestStream]
  · unfold PrintServer.requestChannel
    split <;> simp
  · simp [PrintServer.requestChannelPayloads]
  · exact fireAndForget_unimplemented_iff _ _
  · exact requestResponse_unimplemented_iff _ _
  · exact requestStream_unimplemented_iff _ _
  · exact requestChannel_unimplemented_iff _ _
  · exact requestChannelPayloads_unimplemented_iff _ _

/-! ## The route key -/

/-- The service `demo.Users` with the methods `getUser` and `get_user`: the interface
declares METHOD_GET_USER and ROUTE_GET_USER twice, and with the first declaration
being the one that is read the route constant of `get_user` has the value
"demo.Users.getUser", which is not the service identifier, a dot and `get_user`. -/
theorem colliding_names_share_route_key :
    (PrintInterface.constants usersService (GenerateInterface.vars usersService)).2
      = [.text "String SERVICE_ID = \"demo.Users\";\n",
         .text "String METHOD_GET_USER = \"getUser\";\n",
         .text "String ROUTE_GET_USER = SERVICE_ID + \".\" + METHOD_GET_USER;\n",
         .text "String METHOD_GET_USER = \"get_user\";\n",
         .text "String ROUTE_GET_USER = SERVICE_ID + \".\" + METHOD_GET_USER;\n"]
    ∧ getUserSnake ∈ usersService.methods
    ∧ RouteFieldName getUserSnake = "ROUTE_GET_USER"
    ∧ List.lookup (RouteFieldName getUserSnake) (javaValues (routeDeclarations usersService))
      = some "demo.Users.getUser"
    ∧ packageVar usersService ++ usersService.name ++ "." ++ getUserSnake.name
      = "demo.Users.get_user" := by
  decide

/-- C7: `ToAllUpperCase` gives "GET_USER" for "getUser", "GET_USER" for "get_user"
and "ABC" for "ABC". -/
theorem ToAllUpperCase_examples :
    ToAllUpperCase "getUser" = "GET_USER" ∧ ToAllUpperCase "get_user" = "GET_USER"
    ∧ ToAllUpperCase "ABC" = "ABC" := by
  decide

/-- C8: `MixedLower` gives "getUser" for "get_user" and "getUser" for "GetUser". -/
theorem MixedLower_examples :
    MixedLower "get_user" = "getUser" ∧ MixedLower "GetUser" = "getUser" := by
  decide

/-- C9: `MixedLower` is idempotent: applying it to its own result changes nothing,
for every name (the non-empty ones of the claim included). -/
theorem MixedLower_idempotent (x : String) : MixedLower (MixedLower x) = MixedLower x :=
  MixedLower_idem x

/-- C10, as stated, fails: the result for the non-empty name "_a" is "_a", which
contains an underscore. -/
theorem MixedLower_keeps_leading_underscore :
    "_a" ≠ "" ∧ MixedLower "_a" = "_a" ∧ '_' ∈ (MixedLower "_a").data := by
  decide

/-- C10, amended: for every non-empty name the result of `MixedLower` has no
underscore after its first character, and its first character is an underscore
exactly when the name begins with one (the first character is only decapitalized,
never deleted); an underscore with no following character is dropped without any
other change to the result. -/
theorem MixedLower_underscores (word : String) (hw : word ≠ "") :
    (∀ c ∈ (MixedLower word).data.drop 1, c ≠ '_')
    ∧ ((MixedLower word).data.head? = some '_' ↔ word.data.head? = some '_')
    ∧ MixedLower (word ++ "_") = MixedLower word := by
  have hd : word.data ≠ [] := fun e => hw (String.ext e)
  obtain ⟨c, cs, hcs⟩ := List.exists_cons_of_ne_nil hd
  refine ⟨?_, ?_, ?_⟩
  · intro x hx e
    rw [MixedLower_data] at hx
    simp only [List.drop_one, List.tail_cons] at hx
    exact mixedTail_no_underscore _ _ (e ▸ hx)
  · rw [MixedLower_data, hcs]
    simp [charAt, tolower_eq_underscore]
  · apply String.ext
    rw [MixedLower_data, MixedLower_data, String.data_append, hcs]
    have : "_".data = ['_'] := rfl
    rw [this]
    simp only [List.cons_append, charAt, List.getD_cons_zero, List.drop_one, List.tail_cons]
    rw [mixedTail_append_underscore]

/-- C10, amended, at the name "get_user_". -/
theorem MixedLower_underscores_witness :
    "get_user_" ≠ ""
    ∧ (∀ c ∈ (MixedLower "get_user_").data.drop 1, c ≠ '_')
    ∧ ((MixedLower "get_user_").data.head? = some '_' ↔ "get_user_".data.head? = some '_')
    ∧ MixedLower ("get_user_" ++ "_") = MixedLower "get_user_" :=
  ⟨by decide, MixedLower_underscores "get_user_" (by decide)⟩

/-! ## Identifier derivation, continued -/

/-- C11: for every non-empty name that contains no underscore and whose first
character is not an upper-case letter, `MixedLower` returns the name unchanged. -/
theorem MixedLower_unchanged (word : String) (hne : word ≠ "") (hus : '_' ∉ word.data)
    (hup : isupper (charAt word.data 0) = false) : MixedLower word = word := by
  obtain ⟨c, cs, hcs⟩ := List.exists_cons_of_ne_nil (fun h => hne (String.ext h))
  apply String.ext
  rw [MixedLower_data_of_no_underscore word c cs hcs hus, hcs]
  rw [hcs] at hup
  simp only [charAt, List.getD_cons_zero] at hup
  rw [tolower_of_not_isupper c hup]

/-- C11 at the name "getUser". -/
theorem MixedLower_unchanged_witness :
    "getUser" ≠ "" ∧ '_' ∉ "getUser".data ∧ isupper (charAt "getUser".data 0) = false
    ∧ MixedLower "getUser" = "getUser" :=
  ⟨by decide, by decide, by decide,
   MixedLower_unchanged "getUser" (by decide) (by decide) (by decide)⟩

/-- C12: for every name that contains no lower-case letter, `ToAllUpperCase` inserts
no underscore (there is no position where a lower-case letter is followed by an
upper-case one, and the length is kept) and returns the name unchanged. -/
theorem ToAllUpperCase_unchanged (word : String) (h : ∀ c ∈ word.data, islower c = false) :
    ToAllUpperCase word = word ∧ boundaryCount word.data = 0
    ∧ (ToAllUpperCase word).data.length = word.data.length := by
  have e : ToAllUpperCase word = word := by
    apply String.ext
    rw [ToAllUpperCase_data, upperTail_of_no_lower _ h]
  refine ⟨e, ?_, by rw [e]⟩
  have hl := screamingSnakeSpec_length word.data
  rw [← upperTail_eq_spec, upperTail_of_no_lower _ h] at hl
  omega

/-- C12 at the names "ABC" and "HTTP_2". -/
theorem ToAllUpperCase_unchanged_witness :
    (ToAllUpperCase "ABC" = "ABC" ∧ boundaryCount "ABC".data = 0
      ∧ (ToAllUpperCase "ABC").data.length = "ABC".data.length)
    ∧ (ToAllUpperCase "HTTP_2" = "HTTP_2" ∧ boundaryCount "HTTP_2".data = 0
      ∧ (ToAllUpperCase "HTTP_2").data.length = "HTTP_2".data.length) :=
  ⟨ToAllUpperCase_unchanged "ABC" (by decide), ToAllUpperCase_unchanged "HTTP_2" (by decide)⟩

/-- C13: for every name the result of `ToAllUpperCase` is the upper-case form of
each character in order with an underscore inserted exactly at the positions where
a lower-case letter is immediately followed by an upper-case letter; its length is
the length of the name plus the number of such positions; and it has two adjacent
underscores only when the name has, so no delimiter is put next to an underscore of
the input. -/
theorem ToAllUpperCase_inserts_at_boundaries (word : String) :
    (ToAllUpperCase word).data = screamingSnakeSpec word.data
    ∧ (ToAllUpperCase word).data.length = word.data.length + boundaryCount word.data
    ∧ hasAdjacentUnderscores (ToAllUpperCase word).data = hasAdjacentUnderscores word.data := by
  rw [ToAllUpperCase_data]
  refine ⟨upperTail_eq_spec _, ?_, hasAdjacentUnderscores_upperTail _⟩
  rw [upperTail_eq_spec, screamingSnakeSpec_length]

/-- C14, as stated, fails: on the empty name neither function fails; `ToAllUpperCase`
returns the empty string and `MixedLower` the one-character string that holds the
NUL read at `word[0]`. -/
theorem empty_name_is_derived :
    ToAllUpperCase "" = "" ∧ MixedLower "" = "\x00" ∧ (MixedLower "").data.length = 1 := by
  decide

/-- C14, amended: the identifier derivation has no failure: for every name, the
empty one included, `ToAllUpperCase` returns a string at least as long as the name
and `MixedLower` returns a string of at least one character; for the empty name
these are the empty string and a string of exactly one character. -/
theorem derivation_never_fails (word : String) :
    word.data.length ≤ (ToAllUpperCase word).data.length
    ∧ 1 ≤ (MixedLower word).data.length
    ∧ (ToAllUpperCase "").data = []
    ∧ (MixedLower "").data.length = 1 := by
  refine ⟨?_, ?_, by decide, by decide⟩
  · rw [ToAllUpperCase_data]; exact upperTail_length_ge _
  · rw [MixedLower_data]; simp

/-- C17, as stated, fails: the distinct names `GetUser`, `getUser` and `get_user`
all get the field name `getUser`. -/
theorem lower_names_collide :
    getUserUpper.name ≠ getUserCamel.name ∧ getUserSnake.name ≠ getUserCamel.name
    ∧ LowerMethodName getUserUpper = LowerMethodName getUserCamel
    ∧ LowerMethodName getUserSnake = LowerMethodName getUserCamel := by
  decide

/-- C17, amended: for every service whose method names are pairwise distinct,
non-empty, free of underscores and alike in the case of the first character (no
name begins with an upper-case letter, or no name begins with a lower-case letter),
the generated method and field names are pairwise distinct. -/
theorem lower_names_nodup (methods : List MethodDescriptor)
    (hnames : (methods.map (fun m => m.name)).Nodup)
    (hne : ∀ m ∈ methods, m.name ≠ "")
    (hus : ∀ m ∈ methods, '_' ∉ m.name.data)
    (hcase : (∀ m ∈ methods, isupper (charAt m.name.data 0) = false)
      ∨ (∀ m ∈ methods, islower (charAt m.name.data 0) = false)) :
    (methods.map LowerMethodName).Nodup
    ∧ (methods.map LowerMethodName).length = methods.length := by
  have hmeth : methods.Nodup := List.Nodup.of_map _ hnames
  have nameInj : ∀ x ∈ methods, ∀ y ∈ methods, x.name = y.name → x = y :=
    List.inj_on_of_nodup_map hnames
  refine ⟨List.Nodup.map_on ?_ hmeth, by simp⟩
  intro x hx y hy e
  apply nameInj x hx y hy
  refine MixedLower_injOn _ _ (hne x hx) (hne y hy) (hus x hx) (hus y hy) ?_ e
  rcases hcase with h | h
  · exact Or.inl ⟨h x hx, h y hy⟩
  · exact Or.inr ⟨h x hx, h y hy⟩

/-- C17, amended, at the two names `GetUser` and `Echo`. -/
theorem lower_names_nodup_witness :
    ([getUserUpper, echoFirst].map LowerMethodName).Nodup
    ∧ ([getUserUpper, echoFirst].map LowerMethodName).length
        = [getUserUpper, echoFirst].length :=
  lower_names_nodup [getUserUpper, echoFirst] (by decide) (by decide) (by decide)
    (Or.inr (by decide))

/-! ## Signatures, bodies and handlers -/

theorem void_shape_table (cs ss ow : Bool) :
    (returnKindOf (PrintInterface.returnTemplate (methodWith cs ss ow)) = some .void
        ↔ classify (methodWith cs ss ow) = .OneWay)
    ∧ (returnKindOf (PrintClient.convenienceReturnTemplate (methodWith cs ss ow)) = some .void
        ↔ classify (methodWith cs ss ow) = .OneWay)
    ∧ (returnKindOf (PrintClient.metadataReturnTemplate (methodWith cs ss ow)) = some .void
        ↔ classify (methodWith cs ss ow) = .OneWay)
    ∧ (isVoidField (PrintServer.metricsFieldTemplate (methodWith cs ss ow)) = true
        ↔ classify (methodWith cs ss ow) = .OneWay)
    ∧ (classify (methodWith cs ss ow) = .OneWay
        ↔ (methodWith cs ss ow).client_streaming = false
          ∧ (methodWith cs ss ow).server_streaming = false
          ∧ (methodWith cs ss ow).fire_and_forget = true) := by
  cases cs <;> cases ss <;> cases ow <;> decide

theorem client_return_table (cs ss ow : Bool) :
    hasReturn (PrintClient.convenienceBody (methodWith cs ss ow)) = !ow
    ∧ hasReturn (PrintClient.metadataBody (methodWith cs ss ow)) = (ss || !ow) := by
  cases cs <;> cases ss <;> cases ow <;> decide

theorem shape_table (cs ss ow cs' ss' ow' : Bool)
    (hs : classify (methodWith cs ss ow) = classify (methodWith cs' ss' ow')) :
    (ss = ss' ∨ classify (methodWith cs ss ow) ≠ .ClientOrBidiStream →
      PrintInterface.returnTemplate (methodWith cs ss ow)
        = PrintInterface.returnTemplate (methodWith cs' ss' ow')
      ∧ returnKindOf (PrintInterface.returnTemplate (methodWith cs ss ow))
        = returnKindOf (PrintInterface.returnTemplate (methodWith cs' ss' ow'))
      ∧ PrintServer.handlerTemplates (classify (methodWith cs ss ow)) (methodWith cs ss ow)
        = PrintServer.handlerTemplates (classify (methodWith cs' ss' ow'))
            (methodWith cs' ss' ow'))
    ∧ PrintInterface.paramTemplate (methodWith cs ss ow)
      = PrintInterface.paramTemplate (methodWith cs' ss' ow')
    ∧ paramKindOf (PrintInterface.paramTemplate (methodWith cs ss ow))
      = paramKindOf (PrintInterface.paramTemplate (methodWith cs' ss' ow')) := by
  revert hs
  cases cs <;> cases ss <;> cases ow <;> cases cs' <;> cases ss' <;> cases ow' <;> decide

/-- C16: for every method the void return shape is chosen exactly when the method
classifies as OneWay, that is when clientStreaming and serverStreaming are false
and oneWay is true: then and only then the signature of the interface and the two
signatures of the client stub declare `void`, and the server stub declares the
metrics field over `Void`. -/
theorem void_shape_iff_one_way (m : MethodDescriptor) :
    (returnKindOf (PrintInterface.returnTemplate m) = some .void ↔ classify m = .OneWay)
    ∧ (returnKindOf (PrintClient.convenienceReturnTemplate m) = some .void
        ↔ classify m = .OneWay)
    ∧ (returnKindOf (PrintClient.metadataReturnTemplate m) = some .void
        ↔ classify m = .OneWay)
    ∧ (isVoidField (PrintServer.metricsFieldTemplate m) = true ↔ classify m = .OneWay)
    ∧ (classify m = .OneWay
        ↔ m.client_streaming = false ∧ m.server_streaming = false ∧ m.fire_and_forget = true) := by
  rcases m with ⟨n, it, ot, cs, ss, ow⟩
  cases cs <;> cases ss <;> cases ow
  · exact void_shape_table false false false
  · exact void_shape_table false false true
  · exact void_shape_table false true false
  · exact void_shape_table false true true
  · exact void_shape_table true false false
  · exact void_shape_table true false true
  · exact void_shape_table true true false
  · exact void_shape_table true true true

/-- C18 fails on the code: the body of the convenience overload has a `return`
exactly when the method is not marked fire-and-forget, and the body of the
overriding method exactly when it is server-streaming or not marked, whatever the
declared return type.  For the client-streaming method `Upload` marked
fire-and-forget both methods are declared with the output type and printed without
a `return`; for the server-streaming `Watch` so is the convenience overload. -/
theorem client_body_return_ignores_shape :
    (∀ m, hasReturn (PrintClient.convenienceBody m) = !m.fire_and_forget)
    ∧ (∀ m, hasReturn (PrintClient.metadataBody m)
        = (m.server_streaming || !m.fire_and_forget))
    ∧ classify uploadOneWay = .ClientOrBidiStream
    ∧ returnKindOf (PrintClient.convenienceReturnTemplate uploadOneWay) = some .single
    ∧ hasReturn (PrintClient.convenienceBody uploadOneWay) = false
    ∧ returnKindOf (PrintClient.metadataReturnTemplate uploadOneWay) = some .single
    ∧ hasReturn (PrintClient.metadataBody uploadOneWay) = false
    ∧ returnKindOf (PrintClient.convenienceReturnTemplate watchOneWay) = some .stream
    ∧ hasReturn (PrintClient.convenienceBody watchOneWay) = false
    ∧ (PrintClient.methodBody uploadOneWay (GenerateClient.vars demoService "demo")).2
      = [.text "@io.rsocket.rpc.annotations.internal.GeneratedMethod(returnTypeClass = Receipt.class)\npublic Receipt upload",
         .text "(Iterable<Chunk> messages) \x7b\n",
         .indent,
         .text "upload(messages, io.netty.buffer.Unpooled.EMPTY_BUFFER);\n",
         .outdent,
         .text "\x7d\n\n",
         .text "@java.lang.Override\n@io.rsocket.rpc.annotations.internal.GeneratedMethod(returnTypeClass = Receipt.class)\npublic Receipt upload",
         .text "(Iterable<Chunk> messages, io.netty.buffer.ByteBuf metadata) \x7b\n",
         .indent,
         .text "delegate.upload(reactor.core.publisher.Flux.defer(() -> reactor.core.publisher.Flux.fromIterable(messages)), metadata).block();\n",
         .outdent,
         .text "\x7d\n\n"] := by
  refine ⟨?_, ?_, by decide, by decide, by decide, by decide, by decide, by decide,
    by decide, by decide⟩
  · intro m
    rcases m with ⟨n, it, ot, cs, ss, ow⟩
    exact (client_return_table cs ss ow).1
  · intro m
    rcases m with ⟨n, it, ot, cs, ss, ow⟩
    exact (client_return_table cs ss ow).2

/-- C19, as stated, fails: the client-streaming `Upload` and the bidirectional
`Chat` both classify as ClientOrBidiStream, yet the first returns a single value
and the second a stream, and their handlers are printed from different texts. -/
theorem channel_family_has_two_shapes :
    classify uploadClientStream = classify chatBidi
    ∧ returnKindOf (PrintInterface.returnTemplate uploadClientStream) = some .single
    ∧ returnKindOf (PrintInterface.returnTemplate chatBidi) = some .stream
    ∧ PrintServer.handlerTemplates (classify uploadClientStream) uploadClientStream
      ≠ PrintServer.handlerTemplates (classify chatBidi) chatBidi := by
  decide

/-- C19, amended: the signature shape and the handler text are a function of the
semantic and of serverStreaming: two methods with the same semantic that agree on
serverStreaming get the same return text, parameter text and handler texts; so do
any two methods of one semantic other than ClientOrBidiStream; and within every
semantic the parameter text is the same. -/
theorem shape_by_semantic_and_server_streaming (m m' : MethodDescriptor)
    (hs : classify m = classify m') :
    (m.server_streaming = m'.server_streaming ∨ classify m ≠ .ClientOrBidiStream →
      PrintInterface.returnTemplate m = PrintInterface.returnTemplate m'
      ∧ returnKindOf (PrintInterface.returnTemplate m)
        = returnKindOf (PrintInterface.returnTemplate m')
      ∧ PrintServer.handlerTemplates (classify m) m
        = PrintServer.handlerTemplates (classify m') m')
    ∧ PrintInterface.paramTemplate m = PrintInterface.paramTemplate m'
    ∧ paramKindOf (PrintInterface.paramTemplate m)
      = paramKindOf (PrintInterface.paramTemplate m') := by
  rcases m with ⟨n, it, ot, cs, ss, ow⟩
  rcases m' with ⟨n', it', ot', cs', ss', ow'⟩
  exact shape_table cs ss ow cs' ss' ow' hs

/-- C19, amended, at the two server-streaming methods `ping` and `Watch`. -/
theorem shape_by_semantic_and_server_streaming_witness :
    classify pingStream = classify watchOneWay
    ∧ PrintInterface.returnTemplate pingStream = PrintInterface.returnTemplate watchOneWay
    ∧ PrintInterface.paramTemplate pingStream = PrintInterface.paramTemplate watchOneWay :=
  ⟨by decide,
   ((shape_by_semantic_and_server_streaming pingStream watchOneWay (by decide)).1
      (Or.inl (by decide))).1,
   (shape_by_semantic_and_server_streaming pingStream watchOneWay (by decide)).2.1⟩

/-! ## One entry for each method -/

/-- C15: for every service with N methods the dispatch part of the server stub,
printed with the variables that `PrintServer` has when it reaches the bucket loop,
has exactly one handler entry for each method: the labels of the `case`s it prints
are those of the methods of the fire-and-forget, request-response, request-stream
and request-channel buckets, one switch after the other and each in the
declaration order of its bucket; the switch of a semantic holds exactly the cases
of its bucket; the `put`s of `selfRegister` are those of the four buckets in the
order OneWay, UnarySingleResponse, ServerStream, ClientOrBidiStream, in declaration
order inside each; and there are N cases and N registrations in all. -/
theorem one_entry_per_method (service : ServiceDescriptor) :
    (PrintServer.interactions service.methods (PrintServer.reachedVars service)).2.filter
        Emitted.isCase
      = (buildBuckets service.methods).fire_and_forget.map (caseLabel service)
        ++ (buildBuckets service.methods).request_response.map (caseLabel service)
        ++ (buildBuckets service.methods).request_stream.map (caseLabel service)
        ++ (buildBuckets service.methods).request_channel.map (caseLabel service)
    ∧ (∀ s u, Vars.AgreeOff PrintServer.loopKeys u (PrintServer.startVars service) →
        (PrintServer.dispatchSwitch s (buildBuckets service.methods) u).2.filter Emitted.isCase
          = ((buildBuckets service.methods).get s).map (caseLabel service))
    ∧ (PrintServer.interactions service.methods (PrintServer.reachedVars service)).2.filter
        Emitted.isPut
      = (buildBuckets service.methods).fire_and_forget.map (putLine service .OneWay)
        ++ (buildBuckets service.methods).request_response.map
            (putLine service .UnarySingleResponse)
        ++ (buildBuckets service.methods).request_stream.map (putLine service .ServerStream)
        ++ (buildBuckets service.methods).request_channel.map
            (putLine service .ClientOrBidiStream)
    ∧ ((PrintServer.interactions service.methods (PrintServer.reachedVars service)).2.filter
        Emitted.isCase).length = service.methods.length
    ∧ ((PrintServer.interactions service.methods (PrintServer.reachedVars service)).2.filter
        Emitted.isPut).length = service.methods.length := by
  obtain ⟨hc, hp⟩ := interactions_labels service _ (reachedVars_agree service)
  have hl := filter_classify_lengths service.methods
  rw [← buildBuckets_get, ← buildBuckets_get, ← buildBuckets_get, ← buildBuckets_get] at hl
  simp only [Buckets.get] at hl
  refine ⟨hc, ?_, hp, ?_, ?_⟩
  · intro s u hu
    cases s
    · exact (doDecodeAndHandleFireAndForget_labels service _ u hu).1
    · exact (doDecodeAndHandleRequestResponse_labels service _ u hu).1
    · exact (doDecodeAndHandleRequestStream_labels service _ u hu).1
    · exact (requestChannel_labels service _ u hu).1
  · rw [hc]
    simp only [List.length_append, List.length_map]
    exact hl
  · rw [hp]
    simp only [List.length_append, List.length_map]
    exact hl

/-- C15 at the service `Mixed` with one method of each semantic. -/
theorem one_entry_per_method_witness :
    ((PrintServer.interactions mixedService.methods
        (PrintServer.reachedVars mixedService)).2.filter Emitted.isPut).length
      = mixedService.methods.length
    ∧ (PrintServer.dispatchSwitch .ServerStream (buildBuckets mixedService.methods)
        (PrintServer.startVars mixedService)).2.filter Emitted.isCase
      = ((buildBuckets mixedService.methods).get .ServerStream).map (caseLabel mixedService) :=
  ⟨(one_entry_per_method mixedService).2.2.2.2,
   (one_entry_per_method mixedService).2.1 .ServerStream (PrintServer.startVars mixedService)
     (Vars.AgreeOff.refl _ _)⟩

/-! ## The metrics fields -/

/-- C20: the server stub declares one metrics field for each method of the service
and sets it in both branches of the constructor, in declaration order; and the
handler of a method wraps its result in the metrics field (`.transform` with the
field of the method) exactly when the method does not classify as OneWay: the
fire-and-forget handler never does, the request-response, request-stream and
request-channel handlers always do. -/
theorem metrics_field_and_decorator (methods : List MethodDescriptor) (u : Vars) :
    (forEachMethod PrintServer.metricsFieldBody methods u).2
      = methods.map (fun m => Print (u.set "lower_method_name" (LowerMethodName m))
          (PrintServer.metricsFieldTemplate m))
    ∧ (PrintServer.metricsInit methods u).2
      = [Print u "if (!registry.isPresent()) \x7b\n", .indent]
        ++ methods.map (fun m => Print (u.set "lower_method_name" (LowerMethodName m))
            "this.$lower_method_name$ = $Function$.identity();\n")
        ++ [.outdent, .text "\x7d else \x7b\n", .indent]
        ++ methods.map (fun m =>
            Print ((u.set "lower_method_name" (LowerMethodName m)).set "method_field_name"
              (MethodFieldName m))
              "this.$lower_method_name$ = $RSocketRpcMetrics$.timed(registry.get(), \"rsocket.server\", \"service\", Blocking$service_name$.$service_id_name$, \"method\", Blocking$service_name$.$method_field_name$);\n")
        ++ [.outdent, PrintText "\x7d\n\n"]
    ∧ (forEachMethod PrintServer.metricsFieldBody methods u).2.length = methods.length
    ∧ (∀ s m v, (PrintServer.handlerOf s m v).2.filter Emitted.isText
        = (PrintServer.handlerTemplates s m).map (Print (PrintServer.handlerOf s m v).1))
    ∧ (∀ s m, (PrintServer.handlerTemplates s m).any appliesMetrics = decide (s ≠ .OneWay))
    ∧ (∀ m, ((PrintServer.handlerTemplates (classify m) m).any appliesMetrics = true
        ↔ classify m ≠ .OneWay)) := by
  have ht : ∀ s m, (PrintServer.handlerTemplates s m).any appliesMetrics
      = decide (s ≠ .OneWay) := by
    intro s m
    rw [handlerTemplates_flags, decorator_table]
  refine ⟨metricsFields_out methods u, metricsInit_out methods u, ?_, handler_texts, ht, ?_⟩
  · rw [metricsFields_out, List.length_map]
  · intro m
    rw [ht]
    simp


/-! ## The interface and the client stub -/

theorem agreement_table (cs ss ow : Bool) :
    returnKindOf (PrintClient.metadataReturnTemplate (methodWith cs ss ow))
        = returnKindOf (PrintInterface.returnTemplate (methodWith cs ss ow))
    ∧ returnKindOf (PrintInterface.returnTemplate (methodWith cs ss ow))
        = some (if ss then ReturnKind.stream
            else if cs then ReturnKind.single
            else if ow then ReturnKind.void else ReturnKind.single)
    ∧ paramKindOf (PrintClient.metadataParamTemplate (methodWith cs ss ow))
        = paramKindOf (PrintInterface.paramTemplate (methodWith cs ss ow))
    ∧ paramKindOf (PrintInterface.paramTemplate (methodWith cs ss ow))
        = some (if cs then ParamKind.messages else ParamKind.message)
    ∧ (PrintClient.metadataParamTemplate (methodWith cs ss ow)).data.dropLast.dropLast.dropLast
        = (PrintInterface.paramTemplate (methodWith cs ss ow)).data.dropLast.dropLast := by
  cases cs <;> cases ss <;> cases ow <;> decide

/-- C22: the interface and the client stub agree on the shape of every method.  For
every method, whatever its three flags, the return kind (void, single value,
stream) read off the signature that `PrintClient` prints for the overriding method
with metadata is the one read off the signature that `PrintInterface` prints, and
so is the parameter kind (single message, stream of messages); both kinds are
always determined, and the two parameter lists are the same text up to the closing
`;` of the interface and the opening brace of the stub, although `PrintClient`
tests the conjunction of the two streaming flags first and `PrintInterface` tests
`client_streaming` alone. -/
theorem client_agrees_with_interface (m : MethodDescriptor) :
    returnKindOf (PrintClient.metadataReturnTemplate m)
        = returnKindOf (PrintInterface.returnTemplate m)
    ∧ returnKindOf (PrintInterface.returnTemplate m)
        = some (if m.server_streaming then ReturnKind.stream
            else if m.client_streaming then ReturnKind.single
            else if m.fire_and_forget then ReturnKind.void else ReturnKind.single)
    ∧ paramKindOf (PrintClient.metadataParamTemplate m)
        = paramKindOf (PrintInterface.paramTemplate m)
    ∧ paramKindOf (PrintInterface.paramTemplate m)
        = some (if m.client_streaming then ParamKind.messages else ParamKind.message)
    ∧ (PrintClient.metadataParamTemplate m).data.dropLast.dropLast.dropLast
        = (PrintInterface.paramTemplate m).data.dropLast.dropLast := by
  rcases m with ⟨n, it, ot, cs, ss, ow⟩
  cases cs <;> cases ss <;> cases ow
  · exact agreement_table false false false
  · exact agreement_table false false true
  · exact agreement_table false true false
  · exact agreement_table false true true
  · exact agreement_table true false false
  · exact agreement_table true false true
  · exact agreement_table true true false
  · exact agreement_table true true true

/-! ## Doc comments -/

/-- C24: for every input string, the result of `EscapeJavadoc` contains neither
`/*` nor `*/` as a substring, and does not begin with `/`. -/
theorem EscapeJavadoc_has_no_comment_marker (input : String) :
    containsText "/*".data (EscapeJavadoc input).data = false
    ∧ containsText "*/".data (EscapeJavadoc input).data = false
    ∧ (EscapeJavadoc input).data.head? ≠ some '/' := by
  rw [EscapeJavadoc_data]
  have h := escapeTail_safe '*' input.data
  refine ⟨(commentSafe_chain _ h.1).1, (commentSafe_chain _ h.1).2, ?_⟩
  intro h0
  exact (h.2 '/' h0).1 ⟨rfl, rfl⟩

/-- C25: for every input string, the result of `EscapeJavadoc` contains none of the
characters `@`, `<`, `>` and backslash; wherever an `&` stands in the result, one
of the seven entities starts there; and an input that contains none of the
characters `*`, `/`, `@`, `<`, `>`, `&` and backslash is returned unchanged. -/
theorem EscapeJavadoc_writes_entities (input : String) :
    ('@' ∉ (EscapeJavadoc input).data ∧ '<' ∉ (EscapeJavadoc input).data
      ∧ '>' ∉ (EscapeJavadoc input).data ∧ '\\' ∉ (EscapeJavadoc input).data)
    ∧ (∀ i : Nat, ((EscapeJavadoc input).data.drop i).head? = some '&' →
        ∃ e ∈ ["&#42;", "&#47;", "&#64;", "&lt;", "&gt;", "&amp;", "&#92;"],
          beginsWith (String.data e) ((EscapeJavadoc input).data.drop i) = true)
    ∧ ((∀ x ∈ input.data, x ∉ ['*', '/', '@', '<', '>', '&', '\\']) →
        EscapeJavadoc input = input) := by
  refine ⟨?_, ?_, ?_⟩
  · rw [EscapeJavadoc_data]
    have h := escapeTail_special_free '*' input.data
    exact ⟨fun hx => (h _ hx).1 rfl, fun hx => (h _ hx).2.1 rfl,
      fun hx => (h _ hx).2.2.1 rfl, fun hx => (h _ hx).2.2.2 rfl⟩
  · rw [EscapeJavadoc_data]
    exact ampersands_drop _ (escapeTail_ampersands '*' input.data)
  · intro h
    apply String.ext
    rw [EscapeJavadoc_data]
    exact escapeTail_plain '*' input.data h

/-- C23: a schema comment can never close the generated doc comment.  For every
comment string and either value of `surroundWithPreTag`, `GetDocLines` returns
lines, and every item that `WriteDocCommentBody` prints for them is a text made of
one line (a body without a newline, then a newline) in which `*/` does not occur,
the leading ` *` that the printer puts in front of the line included. -/
theorem doc_comment_body_never_closes (comments : String) (surroundWithPreTag : Bool) :
    ∃ lines, GetDocLines comments = some lines
      ∧ ∀ e ∈ WriteDocCommentBody lines surroundWithPreTag,
          ∃ s body, e = .text s ∧ String.data s = body ++ ['\n'] ∧ '\n' ∉ body
            ∧ containsText "*/".data (String.data s) = false := by
  by_cases hne : comments = ""
  · refine ⟨[], (getDocLines_eq comments).2 hne, ?_⟩
    intro e he
    simp [WriteDocCommentBody] at he
  · refine ⟨_, ((getDocLines_eq comments).1 hne).2, ?_⟩
    intro e he
    unfold WriteDocCommentBody at he
    split at he
    · simp only [List.mem_append] at he
      rcases he with (he | he) | he
      · cases surroundWithPreTag with
        | false => simp at he
        | true =>
          simp only [if_true, List.mem_singleton] at he
          subst he
          exact ⟨" * <pre>\n", " * <pre>".data, rfl, rfl, by decide, by decide⟩
      · obtain ⟨line, hl, rfl⟩ := List.mem_map.1 he
        have hp := pieces_nonempty '\n' _ line hl
        have hsafe : List.Chain' commentSafe line.data := by
          have h := (escapeTail_safe '*' comments.data).1
          rw [← EscapeJavadoc_data] at h
          exact h.infix hp.2.2
        exact line_printed line hp.1 hsafe hp.2.1
      · cases surroundWithPreTag with
        | false => simp at he
        | true =>
          simp only [if_true, List.mem_singleton] at he
          subst he
          exact ⟨" * </pre>\n", " * </pre>".data, rfl, rfl, by decide, by decide⟩
    · simp at he

/-- C26: for every string and every delimiter of one character (a character other
than NUL, as the delimiter is a C string), `Split` returns pieces, each piece is
non-empty, holds no delimiter character and is a section of the input, and the
pieces put together in order are the input without its delimiter characters.  So
for a comment that is not empty the loop of `GetDocLines` that pops trailing empty
lines returns the lines of `Split` as they are, whatever the number of its turns,
and `GetDocLines` never returns an empty line. -/
theorem Split_gives_nonempty_pieces (full : String) (c : Char) (comments : String)
    (hc : c ≠ '\x00') :
    (∃ pieces, Split full ⟨[c]⟩ = some pieces
        ∧ (∀ piece ∈ pieces, piece ≠ "" ∧ c ∉ String.data piece
            ∧ String.data piece <:+: full.data)
        ∧ (pieces.map String.data).flatten = full.data.filter (fun x => x != c))
    ∧ (comments ≠ "" → ∃ lines, Split (EscapeJavadoc comments) "\n" = some lines
        ∧ (∀ fuel, GetDocLines.popLoop fuel lines = lines)
        ∧ GetDocLines comments = some lines)
    ∧ (∃ lines, GetDocLines comments = some lines ∧ ∀ line ∈ lines, line ≠ "") := by
  refine ⟨⟨_, Split_single full c hc, fun piece hp => pieces_nonempty c _ piece hp, ?_⟩,
    ?_, ?_⟩
  · rw [List.map_map]
    have : (String.data ∘ String.mk) = id := rfl
    rw [this, List.map_id]
    exact splitPieces_flatten c _ _ (Nat.le_refl _)
  · intro hne
    have h := (getDocLines_eq comments).1 hne
    exact ⟨_, h.1, fun fuel => popLoop_id fuel _
      (fun line hl => (pieces_nonempty _ _ line hl).1), h.2⟩
  · by_cases hne : comments = ""
    · exact ⟨[], (getDocLines_eq comments).2 hne, by simp⟩
    · exact ⟨_, ((getDocLines_eq comments).1 hne).2,
        fun line hl => (pieces_nonempty _ _ line hl).1⟩

theorem Split_gives_nonempty_pieces_witness :
    (',' : Char) ≠ '\x00'
    ∧ ((∃ pieces, Split "a,,b," ⟨[',']⟩ = some pieces
        ∧ (∀ piece ∈ pieces, piece ≠ "" ∧ ',' ∉ String.data piece
            ∧ String.data piece <:+: "a,,b,".data)
        ∧ (pieces.map String.data).flatten = "a,,b,".data.filter (fun x => x != ','))
    ∧ ("x\n\ny\n" ≠ "" → ∃ lines, Split (EscapeJavadoc "x\n\ny\n") "\n" = some lines
        ∧ (∀ fuel, GetDocLines.popLoop fuel lines = lines)
        ∧ GetDocLines "x\n\ny\n" = some lines)
    ∧ (∃ lines, GetDocLines "x\n\ny\n" = some lines ∧ ∀ line ∈ lines, line ≠ "")) :=
  ⟨by decide, Split_gives_nonempty_pieces "a,,b," ',' "x\n\ny\n" (by decide)⟩

/-- C27: the fast path of `SplitStringToIteratorUsing` is an optimisation only.  For
every string, every delimiter string of exactly one character (a character other
than NUL) and every content of the output vector, the function takes the
pointer-scanning branch, that branch and the general `find_first_not_of` /
`find_first_of` branch both return, and they append the same pieces; the two
loops return them for every fuel above the length of the string. -/
theorem fast_path_agrees_with_general_path (full : String) (c : Char)
    (result : List String) (hc : c ≠ '\x00') :
    ∃ pieces,
      SplitStringToIteratorUsing.fastPath full ⟨[c]⟩ result = some (result ++ pieces)
      ∧ SplitStringToIteratorUsing.generalPath full ⟨[c]⟩ result = some (result ++ pieces)
      ∧ SplitStringToIteratorUsing full ⟨[c]⟩ result = some (result ++ pieces)
      ∧ ∀ fuel, full.data.length < fuel →
          SplitStringToIteratorUsing.fastLoop full.data c fuel 0 result
              = some (result ++ pieces)
          ∧ SplitStringToIteratorUsing.generalLoop full.data (cString [c]) fuel
              (find_first_not_of full.data (cString [c]) 0) result
              = some (result ++ pieces) := by
  refine ⟨_, fastPath_single full c result, generalPath_single full c hc result, ?_, ?_⟩
  · unfold SplitStringToIteratorUsing
    have h : (decide (charAt (String.data ⟨[c]⟩) 0 ≠ '\x00')
        && decide (charAt (String.data ⟨[c]⟩) 1 = '\x00')) = true := by
      simp [charAt, hc]
    rw [if_pos h, fastPath_single]
  · intro fuel hf
    rw [cString_singleton c hc]
    exact ⟨fastLoop_eq _ _ _ _ _ (Nat.zero_le _) (by omega),
      generalLoop_eq _ _ _ _ _ (Nat.zero_le _) (by omega)⟩

theorem fast_path_agrees_with_general_path_witness :
    (',' : Char) ≠ '\x00'
    ∧ ∃ pieces,
      SplitStringToIteratorUsing.fastPath ",a,,bc" ⟨[',']⟩ ["z"] = some (["z"] ++ pieces)
      ∧ SplitStringToIteratorUsing.generalPath ",a,,bc" ⟨[',']⟩ ["z"] = some (["z"] ++ pieces)
      ∧ SplitStringToIteratorUsing ",a,,bc" ⟨[',']⟩ ["z"] = some (["z"] ++ pieces)
      ∧ ∀ fuel, ",a,,bc".data.length < fuel →
          SplitStringToIteratorUsing.fastLoop ",a,,bc".data ',' fuel 0 ["z"]
              = some (["z"] ++ pieces)
          ∧ SplitStringToIteratorUsing.generalLoop ",a,,bc".data (cString [',']) fuel
              (find_first_not_of ",a,,bc".data (cString [',']) 0) ["z"]
              = some (["z"] ++ pieces) :=
  ⟨by decide, fast_path_agrees_with_general_path ",a,,bc" ',' ["z"] (by decide)⟩

/-! ## Reads of the identifier loops -/

/-- C21: the two identifier functions are safe on non-empty names.  For every
non-empty name, `MixedLower` and `ToAllUpperCase` run with every read `word[0]`,
`word[i]` and `word[i + 1]` checked against the length of the name never read
outside it (the look-ahead `word[i + 1]` is guarded by `i < length - 1`, which
does not wrap as the length is at least one), they return the results of the
unchecked functions, and these results are not empty. -/
theorem identifier_reads_stay_inside (word : String) (hw : word ≠ "") :
    MixedLower.checked word = some (MixedLower word)
    ∧ ToAllUpperCase.checked word = some (ToAllUpperCase word)
    ∧ MixedLower word ≠ "" ∧ ToAllUpperCase word ≠ "" := by
  obtain ⟨x, rest, hxr⟩ : ∃ x rest, word.data = x :: rest := by
    cases hd : word.data with
    | nil => exact absurd (String.ext hd) hw
    | cons x rest => exact ⟨x, rest, rfl⟩
  have hm := MixedLower_data word
  have hu := ToAllUpperCase_data word
  refine ⟨?_, ?_, ?_, ?_⟩
  · have h0 : word.data[0]? = some x := by rw [hxr]; simp
    unfold MixedLower.checked
    rw [h0]
    simp only
    rw [mixedLower_checkedLoop_eq _ _ _ _ _ (by omega)]
    simp only [Option.map_some', Option.some.injEq]
    apply String.ext
    rw [hm, hxr]
    simp [charAt]
  · unfold ToAllUpperCase.checked
    rw [toAllUpperCase_checkedLoop_eq _ _ _ _ (by omega)]
    simp only [Option.map_some', Option.some.injEq]
    apply String.ext
    rw [hu]
    simp
  · intro h
    rw [h] at hm
    simp at hm
  · intro h
    rw [h, hxr] at hu
    have := upperTail_length_ge (x :: rest)
    rw [← hu] at this
    simp at this

theorem identifier_reads_stay_inside_witness :
    "getUser_name" ≠ ""
    ∧ (MixedLower.checked "getUser_name" = some (MixedLower "getUser_name")
      ∧ ToAllUpperCase.checked "getUser_name" = some (ToAllUpperCase "getUser_name")
      ∧ MixedLower "getUser_name" ≠ "" ∧ ToAllUpperCase "getUser_name" ≠ "") :=
  ⟨by decide, identifier_reads_stay_inside "getUser_name" (by decide)⟩
end BlockingJavaGenerator
